import Mathlib

/-!
# Order fulfilment backend (`src/Api.js`): shallow embedding and verified properties

The MySQL tables are lists of rows, a `SELECT ... WHERE` is a `List.filter`, an
`UPDATE ... WHERE` is a `List.map`, and an `INSERT` appends a row.  JavaScript numbers
that hold money are exact rationals, integer quantities are `Int`, instants are `Nat`.
A handler is a function from the store (and the clock reading `now`) to the new store and
the response it sent; store failures (lost connection and the like) are not modelled.
-/

namespace Api

/-! ## Data model -/

deriving instance DecidableEq for Except

/-- An element of a cart: the JSON object with the keys productId and quantity. -/
structure CartItem where
  productId : Int
  quantity : Int
deriving DecidableEq, Repr

/-- A row of table products, with the columns the order and payment code reads. -/
structure Product where
  idproducts : Int
  category : String
  price : Rat
  quantity : Int
deriving DecidableEq, Repr

/-- A row of table users. The cart column is JSON; it is NULL (none) until first written. -/
structure User where
  id : Int
  cart : Option (List CartItem)
deriving DecidableEq, Repr

/-- An element of the JSON array held by the order column of table orders.
`obj` is an object with productId and quantity; `text` is a JSON string whose
characters are the JSON text of such an object (what `processCartToOrder` pushes:
`newItemPiece = JSON.stringify(...)`, stringified a second time by `insertOrder`). -/
inductive OrderEntry where
  | obj (item : CartItem)
  | text (item : CartItem)
deriving DecidableEq, Repr

/-- The pair an order entry carries, whichever way it is encoded. -/
def OrderEntry.item : OrderEntry → CartItem
  | .obj i => i
  | .text i => i

/-- The value of the order column: a JSON array, or a bare object (what
`/api/order/add` stores, the JSON text of one productId and quantity pair). -/
inductive OrderData where
  | arr (entries : List OrderEntry)
  | single (item : CartItem)
deriving DecidableEq, Repr

/-- The pairs of an order, decoded. -/
def OrderData.items : OrderData → List CartItem
  | .arr es => es.map OrderEntry.item
  | .single i => [i]

/-- A row of table orders; idorders and time are filled in by the database on insert. -/
structure Order where
  idorders : Int
  idcustomer : Int
  order : OrderData
  time : Nat
deriving DecidableEq, Repr

/-- A row of table payments together with its insert id: the receipt object of
`savePaymentReceipt`. An undefined order_id is stored as NULL (none). -/
structure Receipt where
  id : Int
  order_id : Option Int
  customer_id : Int
  payment_id : String
  payment_status : String
  payment_method : String
  total_amount : Option Rat
  currency : String
  description : String
  payment_date : Nat
deriving DecidableEq, Repr

/-- The status column of promotion codes and campaigns. -/
inductive Status where
  | active
  | inactive
deriving DecidableEq, Repr

/-- The type column of promotion codes and campaigns. -/
inductive DiscountType where
  | fixed
  | percentage
deriving DecidableEq, Repr

/-- A row of table promotion_codes: exactly the columns that the INSERT and UPDATE of
`/api/promotionCode/addAndUpdate` write. The start of the window is column state_date. -/
structure PromotionCode where
  promotion_code : String
  state_date : Nat
  end_date : Nat
  usage_limit : Option Int
  status : Status
  promotion_type : Option DiscountType
  promotion_amount : Rat
deriving DecidableEq, Repr

/-- A row of table campaigns: the columns that `/api/campaign/addAndUpdate` writes.
valid_categories is a comma separated string or NULL. -/
structure Campaign where
  campaign_name : String
  start_date : Nat
  end_date : Nat
  usage_limit : Option Int
  status : Status
  valid_categories : Option String
  campaign_type : DiscountType
  campaign_amount : Rat
deriving DecidableEq, Repr

/-- One SQL expression that the client-side formatter of mysql2 writes in place of the `?`
that receives `order.order`: the quoted JSON text of one pair (a string element of an
array), the quoted text [object Object] (an object element of an array), or an assignment
of a value to a key (one property of a bare object). -/
inductive SqlExpr where
  | pairText (item : CartItem)
  | objectText
  | assignment (key : String) (value : Int)
deriving DecidableEq, Repr

/-- A row of table orders_copmleted: the columns that `/api/order/complete` writes;
order_details holds the expression that the INSERT received for it. -/
structure CompletedOrder where
  idcustomer : Int
  order_details : SqlExpr
  order_time : Nat
deriving DecidableEq, Repr

/-- A row of table return_requests. The status column holds one of the strings pending,
approved, rejected and completed; completion_date is NULL until the request is completed. -/
structure ReturnRequest where
  idcustomer : Int
  idorder : Int
  reason : String
  description : Option String
  request_date : Nat
  status : String
  completion_date : Option Nat
deriving DecidableEq, Repr

/-- The persistent store. nextOrderId and nextPaymentId are the auto-increment counters of
tables orders and payments. -/
structure Store where
  users : List User
  products : List Product
  orders : List Order
  payments : List Receipt
  promotion_codes : List PromotionCode
  campaigns : List Campaign
  nextOrderId : Int
  nextPaymentId : Int
  orders_copmleted : List CompletedOrder := []
  return_requests : List ReturnRequest := []
deriving DecidableEq, Repr

/-- The request body shared by `/api/pay`, `/api/process-cart`, `processCartToOrder` and
`getOrderById` (`/api/pay` hands its own request on to the two functions). -/
structure Body where
  idcustomer : Int
  currency : Option String
  description : Option String
  promotionCode : Option String
deriving DecidableEq, Repr

/-- An exception raised inside a handler (its message is what `/api/pay` reports). -/
inductive Thrown where
  | customerNotFound
  | invalidCart
  | cartEmpty
  | productNotFound (id : Int)
  | simulatedPaymentError
  | headersSent
deriving DecidableEq, Repr

/-- The responses sent by the modelled handlers, one constructor per `res.status(..).json(..)`. -/
inductive Response where
  | validation
  | customerNotFound
  | cartEmpty
  | productNotFound (id : Int)
  | notEnoughStockFor (id : Int)
  | serverError
  | productMissing
  | notEnoughStock
  | orderAdded
  | orderNotInCart
  | invalidCartData
  | noOrdersFound
  | orderUpdated (cart : List OrderEntry)
  | paymentSuccessful (receipt : Receipt)
  | paymentFailed (error : Thrown)
  | orderNotFound
  | orderCompleted
  | promotionUpdated
  | promotionAdded
  | returnOrderNotFound
  | returnCreated
  | returnNotFound
  | returnStatusUpdated
  | returnNotApproved
  | returnCompleted
  | cartItemAdded
  | cartUpdated (cart : List CartItem)
  | cartCleared
  | cartItemRemoved (cart : List CartItem)
deriving DecidableEq, Repr

/-- The HTTP status of a response. -/
def Response.status : Response → Nat
  | .validation => 400
  | .customerNotFound => 404
  | .cartEmpty => 400
  | .productNotFound _ => 404
  | .notEnoughStockFor _ => 400
  | .serverError => 500
  | .productMissing => 404
  | .notEnoughStock => 400
  | .orderAdded => 201
  | .orderNotInCart => 404
  | .invalidCartData => 500
  | .noOrdersFound => 404
  | .orderUpdated _ => 200
  | .paymentSuccessful _ => 200
  | .paymentFailed _ => 500
  | .orderNotFound => 404
  | .orderCompleted => 200
  | .promotionUpdated => 200
  | .promotionAdded => 201
  | .returnOrderNotFound => 404
  | .returnCreated => 200
  | .returnNotFound => 404
  | .returnStatusUpdated => 200
  | .returnNotApproved => 404
  | .returnCompleted => 200
  | .cartItemAdded => 201
  | .cartUpdated _ => 200
  | .cartCleared => 200
  | .cartItemRemoved _ => 200

/-! ## Store access -/

/-- The rows of `SELECT * FROM products WHERE idproducts = ?`. -/
def selectProducts (s : Store) (id : Int) : List Product :=
  s.products.filter (fun p => p.idproducts = id)

/-- The store after `UPDATE products SET quantity = ? WHERE idproducts = ?`. -/
def setProductQuantity (s : Store) (id : Int) (q : Int) : Store :=
  { s with products := s.products.map (fun p => if p.idproducts = id then { p with quantity := q } else p) }

/-- The rows of `SELECT cart FROM users WHERE id = ?`. -/
def selectUsers (s : Store) (id : Int) : List User :=
  s.users.filter (fun u => u.id = id)

/-- The store after `UPDATE users SET cart = ? WHERE id = ?`. -/
def setCart (s : Store) (id : Int) (cart : List CartItem) : Store :=
  { s with users := s.users.map (fun u => if u.id = id then { u with cart := some cart } else u) }

/-- The store after `INSERT INTO orders (idcustomer, order) VALUES (?, ?)` at time now. -/
def insertOrder (now : Nat) (s : Store) (idcustomer : Int) (data : OrderData) : Store :=
  { s with
    orders := s.orders ++ [{ idorders := s.nextOrderId, idcustomer := idcustomer, order := data, time := now }]
    nextOrderId := s.nextOrderId + 1 }

/-- The stock of a product id: the quantity of the first row the product query returns. -/
def stock (s : Store) (id : Int) : Option Int :=
  (selectProducts s id).head?.map Product.quantity

/-- The cart of a customer id: the cart of the first row the user query returns. -/
def cartOf (s : Store) (id : Int) : Option (List CartItem) :=
  (selectUsers s id).head?.bind User.cart

/-! ## Request validation (Joi) -/

/-- The length of a JavaScript string: its number of UTF-16 code units. -/
def jsLength (str : String) : Nat :=
  (str.data.map (fun c => if c.toNat < 65536 then 1 else 2)).sum

/-- An optional Joi field: absent, or present and satisfying the rule. -/
def optionalField (rule : String → Bool) : Option String → Bool
  | none => true
  | some v => rule v

/-- The schema of `processCartToOrder` and of `getOrderById`: idcustomer an integer at least 1,
currency of length 3, description of at least 8 and promotionCode of at least 8 characters,
the last three optional. -/
def validAssemblyBody (b : Body) : Bool :=
  decide (1 ≤ b.idcustomer)
    && optionalField (fun v => jsLength v == 3) b.currency
    && optionalField (fun v => decide (8 ≤ jsLength v)) b.description
    && optionalField (fun v => decide (8 ≤ jsLength v)) b.promotionCode

/-! ## Order assembly: `processCartToOrder` -/

/-- The `for (const item of cart)` loop of `processCartToOrder`, with its three variables: the
store, `updatedCart` and `total_amount`. A failing item ends the loop with the response sent
there; the store keeps the stock updates already made. -/
def assembleLoop (s : Store) : List CartItem → List OrderEntry → Rat →
    Store × Except Response (List OrderEntry × Rat)
  | [], updatedCart, total_amount => (s, .ok (updatedCart, total_amount))
  | item :: rest, updatedCart, total_amount =>
    match selectProducts s item.productId with
    | [] => (s, .error (.productNotFound item.productId))
    | product :: _ =>
      if item.quantity > product.quantity then
        (s, .error (.notEnoughStockFor item.productId))
      else
        assembleLoop (setProductQuantity s item.productId (product.quantity - item.quantity)) rest
          (updatedCart ++ [OrderEntry.text item]) (total_amount + product.price * item.quantity)

/-- The function `processCartToOrder`: the new store and the response it sent, none when it
ran to its end (the function sends no response on success). -/
def processCartToOrder (now : Nat) (s : Store) (body : Body) : Store × Option Response :=
  if validAssemblyBody body then
    match selectUsers s body.idcustomer with
    | [] => (s, some .customerNotFound)
    | user :: _ =>
      match user.cart with
      | none => (s, some .serverError)
      | some [] => (s, some .cartEmpty)
      | some (item :: rest) =>
        match assembleLoop s (item :: rest) [] 0 with
        | (s1, .error r) => (s1, some r)
        | (s1, .ok (updatedCart, _)) =>
          (setCart (insertOrder now s1 body.idcustomer (.arr updatedCart)) body.idcustomer [], none)
  else (s, some .validation)

/-! ## Single-product orders and quantity edits: `/api/order/add`, `/api/order/update` -/

/-- The handler of `POST /api/order/add`: it checks the stock, inserts an order row holding
the bare pair, then lowers the stock. -/
def orderAdd (now : Nat) (s : Store) (idcustomer idproduct quantity : Int) : Store × Response :=
  if 1 ≤ idcustomer ∧ 1 ≤ idproduct ∧ 1 ≤ quantity then
    match selectProducts s idproduct with
    | [] => (s, .productMissing)
    | product :: _ =>
      if quantity > product.quantity then (s, .notEnoughStock)
      else
        (setProductQuantity (insertOrder now s idcustomer (.single ⟨idproduct, quantity⟩)) idproduct
          (product.quantity - quantity), .orderAdded)
  else (s, .validation)

/-- The rows of `SELECT order FROM orders WHERE idcustomer = ?`. -/
def selectOrders (s : Store) (idcustomer : Int) : List Order :=
  s.orders.filter (fun o => o.idcustomer = idcustomer)

/-- The store after `UPDATE orders SET order = ? WHERE idcustomer = ?`. -/
def setOrders (s : Store) (idcustomer : Int) (data : OrderData) : Store :=
  { s with orders := s.orders.map (fun o => if o.idcustomer = idcustomer then { o with order := data } else o) }

/-- The test `item.productId === idorder` of the map callbacks: a text entry is a string and
has no productId property, so it never matches. -/
def entryMatches (idorder : Int) : OrderEntry → Bool
  | .obj item => decide (item.productId = idorder)
  | .text _ => false

/-- The map callback of `/api/order/update`: a matching entry gets the new quantity. -/
def updateEntry (idorder newQuantity : Int) (e : OrderEntry) : OrderEntry :=
  match e with
  | .obj item => if item.productId = idorder then .obj { item with quantity := newQuantity } else e
  | .text _ => e

/-- The handler of `PUT /api/order/update`. The product row is `productResults[0]` (a missing
row makes `product.quantity` raise, answered 500); the item list is the order column of the
first order row of the customer (a bare object is answered 500); the new list is written to
every order row of the customer; the stock becomes
`product.quantity - (newQuantity - cart[0].quantity)`, and when `cart[0]` is a string that
value is NaN, the product UPDATE is refused and the handler answers 500 with the order rows
already rewritten. -/
def orderUpdate (s : Store) (idcustomer idorder newQuantity : Int) : Store × Response :=
  if 1 ≤ idcustomer ∧ 1 ≤ idorder ∧ 0 ≤ newQuantity then
    match selectProducts s idorder with
    | [] => (s, .serverError)
    | product :: _ =>
      if newQuantity > product.quantity then (s, .notEnoughStock)
      else
        match selectOrders s idcustomer with
        | [] => (s, .customerNotFound)
        | row :: _ =>
          match row.order with
          | .single _ => (s, .invalidCartData)
          | .arr cart =>
            let updatedCart := cart.map (updateEntry idorder newQuantity)
            if cart.any (entryMatches idorder) then
              let s1 := setOrders s idcustomer (.arr updatedCart)
              match cart.head? with
              | some (.obj first) =>
                (setProductQuantity s1 idorder (product.quantity - (newQuantity - first.quantity)),
                  .orderUpdated updatedCart)
              | _ => (s1, .serverError)
            else (s, .orderNotInCart)
  else (s, .validation)

/-! ## Discount engine -/

/-- The characters that `String.prototype.trim` removes (WhiteSpace and LineTerminator). -/
def jsWhitespace (c : Char) : Bool :=
  let n := c.toNat
  n == 9 || n == 10 || n == 11 || n == 12 || n == 13 || n == 32 || n == 160 || n == 5760
    || (decide (8192 ≤ n) && decide (n ≤ 8202)) || n == 8232 || n == 8233 || n == 8239
    || n == 8287 || n == 12288 || n == 65279

/-- The guard `!str || str.trim() === ''` on a string: it is empty or all whitespace. -/
def isBlank (str : String) : Bool :=
  str.data.all jsWhitespace

/-- The pieces of a comma separated list. -/
def splitComma : List Char → List (List Char)
  | [] => [[]]
  | c :: cs =>
    match splitComma cs with
    | [] => [[c]]
    | w :: ws => if c = ',' then [] :: w :: ws else (c :: w) :: ws

/-- The SQL test `FIND_IN_SET(str, strlist)` for a non-empty str, compared character by
character: str is one of the comma separated pieces of strlist; a NULL list matches nothing. -/
def findInSet (str : String) (strlist : Option String) : Bool :=
  match strlist with
  | none => false
  | some l => decide (str.data ∈ splitComma l.data)

/-- A JavaScript Date: none is the invalid date, whose time value is NaN. -/
abbrev JsDate := Option Nat

/-- The comparison `a < b` of two dates; it is false when either time value is NaN. -/
def JsDate.lt (a b : JsDate) : Bool :=
  match a, b with
  | some x, some y => decide (x < y)
  | _, _ => false

/-- The message of a discount stage result. -/
inductive DetectMessage where
  | applied
  | nothingFound
  | expired
  | inactive
  | usageLimitReached
  | errorOccurred
deriving DecidableEq, Repr

/-- The result object of `processPromotionCodeDetect` and `processCampaignDetect`; the three
amounts are undefined (none) on the results with success false. -/
structure DetectResult where
  success : Bool
  message : DetectMessage
  originalAmount : Option Rat
  discountAmount : Option Rat
  finalAmount : Option Rat
deriving DecidableEq, Repr

/-- A result with success false and the given message. -/
def DetectResult.failure (m : DetectMessage) : DetectResult :=
  { success := false, message := m, originalAmount := none, discountAmount := none, finalAmount := none }

/-- The rows of `SELECT * FROM promotion_codes WHERE promotion_code = ?`. -/
def selectPromotionCodes (s : Store) (code : String) : List PromotionCode :=
  s.promotion_codes.filter (fun p => p.promotion_code = code)

/-- The discount of a promotion row on an amount: `(totalAmount * promotion_amount) / 100` for
percentage, `promotion_amount` for fixed, 0 when the type is neither. -/
def promotionDiscount (promotion : PromotionCode) (totalAmount : Rat) : Rat :=
  match promotion.promotion_type with
  | some .percentage => totalAmount * promotion.promotion_amount / 100
  | some .fixed => promotion.promotion_amount
  | none => 0

/-- The function `processPromotionCodeDetect`. It reads `promotion.start_date` and
`promotion.usage_count`, two properties that the rows of promotion_codes do not have (the
window start is stored in state_date, and no statement writes a usage count), so
`new Date(promotion.start_date)` is the invalid date and `promotion.usage_count` is undefined. -/
def processPromotionCodeDetect (now : Nat) (s : Store) (promotionCode : String) (totalAmount : Rat) :
    DetectResult :=
  if isBlank promotionCode then .failure .errorOccurred
  else if totalAmount ≤ 0 then .failure .errorOccurred
  else
    match selectPromotionCodes s promotionCode with
    | [] => .failure .nothingFound
    | promotion :: _ =>
      let currentDate : JsDate := some now
      let startDate : JsDate := none
      let endDate : JsDate := some promotion.end_date
      let usage_count : Option Int := none
      if JsDate.lt currentDate startDate || JsDate.lt endDate currentDate then .failure .expired
      else if promotion.status = .inactive then .failure .inactive
      else if (promotion.usage_limit != none && promotion.usage_limit != some 0) && usage_count == some 0 then
        .failure .usageLimitReached
      else
        let discountAmount := promotionDiscount promotion totalAmount
        { success := true, message := .applied, originalAmount := some totalAmount,
          discountAmount := some discountAmount, finalAmount := some (totalAmount - discountAmount) }

/-- The rows of `SELECT * FROM campaigns WHERE FIND_IN_SET(?, valid_categories)`. -/
def selectCampaigns (s : Store) (productCategory : String) : List Campaign :=
  s.campaigns.filter (fun c => findInSet productCategory c.valid_categories)

/-- What one campaign adds to `discountAmount` for the input amount. -/
def campaignContribution (campaign : Campaign) (totalAmount : Rat) : Rat :=
  match campaign.campaign_type with
  | .percentage => totalAmount * campaign.campaign_amount / 100
  | .fixed => campaign.campaign_amount

/-- The `for (let campaign of campaigns)` loop of `processCampaignDetect` on its two variables
`discountAmount` and `finalAmount`; the three `continue` tests come first. -/
def campaignLoop (now : Nat) (totalAmount : Rat) : List Campaign → Rat × Rat → Rat × Rat
  | [], acc => acc
  | campaign :: rest, (discountAmount, finalAmount) =>
    if now < campaign.start_date ∨ now > campaign.end_date then
      campaignLoop now totalAmount rest (discountAmount, finalAmount)
    else if campaign.status = .inactive then
      campaignLoop now totalAmount rest (discountAmount, finalAmount)
    else if campaign.usage_limit = some 0 then
      campaignLoop now totalAmount rest (discountAmount, finalAmount)
    else
      let discountAmount1 := discountAmount + campaignContribution campaign totalAmount
      campaignLoop now totalAmount rest (discountAmount1, totalAmount - discountAmount1)

/-- The function `processCampaignDetect`. -/
def processCampaignDetect (now : Nat) (s : Store) (productCategory : String) (totalAmount : Rat) :
    DetectResult :=
  if isBlank productCategory then .failure .errorOccurred
  else if totalAmount ≤ 0 then .failure .errorOccurred
  else
    match selectCampaigns s productCategory with
    | [] => .failure .nothingFound
    | campaign :: rest =>
      let (discountAmount, finalAmount) := campaignLoop now totalAmount (campaign :: rest) (0, totalAmount)
      { success := true, message := .applied, originalAmount := some totalAmount,
        discountAmount := some discountAmount, finalAmount := some finalAmount }

/-! ## Payment: `/api/pay` and its helpers -/

/-- The argument of `simulatePayPalPayment`; total is undefined (none) when `/api/pay` took
`result.finalAmount` from a result that has no such property. -/
structure PaymentData where
  total : Option Rat
  currency : String
  description : String
deriving DecidableEq, Repr

/-- The object `simulatedResponse` of `simulatePayPalPayment`, flattened. -/
structure Payment where
  id : String
  state : String
  payment_method : String
  total : Option Rat
  currency : String
  description : String
deriving DecidableEq, Repr

/-- The comparison `total > 0`, false for an undefined total. -/
def jsPositive : Option Rat → Bool
  | some t => decide (t > 0)
  | none => false

/-- The function `simulatePayPalPayment`: it resolves with the simulated response when
`paymentData.total > 0` and rejects with the error Simulated payment error otherwise. -/
def simulatePayPalPayment (paymentData : PaymentData) : Except Thrown Payment :=
  if jsPositive paymentData.total then
    .ok { id := "SIMULATED_PAYMENT_ID", state := "approved", payment_method := "paypal",
          total := paymentData.total, currency := paymentData.currency,
          description := paymentData.description }
  else .error .simulatedPaymentError

/-- The function `savePaymentReceipt` at time now with a working store: it inserts the row
into payments and returns it with the insert id. -/
def savePaymentReceipt (now : Nat) (s : Store) (payment : Payment) (idcustomer : Int)
    (order_id : Option Int) : Store × Receipt :=
  let receipt : Receipt :=
    { id := s.nextPaymentId, order_id := order_id, customer_id := idcustomer,
      payment_id := payment.id, payment_status := payment.state,
      payment_method := payment.payment_method, total_amount := payment.total,
      currency := payment.currency, description := payment.description, payment_date := now }
  ({ s with payments := s.payments ++ [receipt], nextPaymentId := s.nextPaymentId + 1 }, receipt)

/-- The first row of `ORDER BY time DESC`: a row of greatest time, the earliest such row in
table order when several rows share that time (SQL leaves the choice among them open). -/
def latestOrder : List Order → Option Order
  | [] => none
  | o :: rest =>
    match latestOrder rest with
    | none => some o
    | some best => if o.time < best.time then some best else some o

/-- What a call of `getOrderById` comes to. -/
inductive OrderIdOutcome where
  | raised
  | value (order_id : Option Int)
  | responded (r : Response)
deriving DecidableEq, Repr

/-- The function `getOrderById` given the response already sent on `res` (none when none was).
Sending on a `res` that has answered raises; outside the try block (the validation) the
exception leaves the function, inside it the catch block logs it and the function returns
undefined. When nothing was sent before, the function answers 400 or 404 itself and returns
the response object. -/
def getOrderById (s : Store) (body : Body) (sent : Option Response) : OrderIdOutcome :=
  if validAssemblyBody body then
    match latestOrder (selectOrders s body.idcustomer) with
    | none =>
      match sent with
      | some _ => .value none
      | none => .responded .noOrdersFound
    | some o => .value (some o.idorders)
  else
    match sent with
    | some _ => .raised
    | none => .responded .validation

/-- The loop of `preparePaymentReceipt` on its variable `totalAmount`: each item adds its
price times quantity, then the campaign stage runs on the sum and, when it succeeds,
replaces it by its finalAmount. A missing product raises. -/
def prepareLoop (now : Nat) (s : Store) : List CartItem → Rat → Except Thrown Rat
  | [], totalAmount => .ok totalAmount
  | item :: rest, totalAmount =>
    match selectProducts s item.productId with
    | [] => .error (.productNotFound item.productId)
    | product :: _ =>
      let totalAmount1 := totalAmount + product.price * item.quantity
      let result := processCampaignDetect now s product.category totalAmount1
      match result.success, result.finalAmount with
      | true, some finalAmount => prepareLoop now s rest finalAmount
      | _, _ => prepareLoop now s rest totalAmount1

/-- The function `preparePaymentReceipt`; a NULL cart makes `cart.length` raise. -/
def preparePaymentReceipt (now : Nat) (s : Store) (idcustomer : Int) : Except Thrown Rat :=
  match selectUsers s idcustomer with
  | [] => .error .customerNotFound
  | user :: _ =>
    match user.cart with
    | none => .error .invalidCart
    | some [] => .error .cartEmpty
    | some (item :: rest) => prepareLoop now s (item :: rest) 0

/-- The schema of `/api/pay`: idcustomer an integer at least 1, currency of length 3 and
description of at least 8 characters, both required, promotionCode optional and non-empty. -/
def validPayBody (b : Body) : Bool :=
  decide (1 ≤ b.idcustomer)
    && (match b.currency with
        | some v => jsLength v == 3
        | none => false)
    && (match b.description with
        | some v => decide (8 ≤ jsLength v)
        | none => false)
    && optionalField (fun v => decide (1 ≤ jsLength v)) b.promotionCode

/-- The variable `total` of `/api/pay`: `result.finalAmount` of the promotion code stage when
a code is supplied (`if (promotionCode)`: a non-empty string), `totalAmount` otherwise. -/
def payTotal (now : Nat) (s : Store) (promotionCode : Option String) (totalAmount : Rat) : Option Rat :=
  match promotionCode with
  | none => some totalAmount
  | some code =>
    if code = "" then some totalAmount
    else (processPromotionCodeDetect now s code totalAmount).finalAmount

/-- The handler of `POST /api/pay`. Its steps follow the source one by one: the total, the
promotion code, the simulated charge, `processCartToOrder` on the same `req` and `res`,
`getOrderById`, `savePaymentReceipt`, and the final answer. An exception goes to the catch
block, whose own `res.status(500).json` raises and is swallowed when `processCartToOrder`
has answered already; the response reported is the first one sent. When `getOrderById`
answers by itself its return value is the response object, which no receipt row can hold:
the insert is refused and that answer stands. -/
def pay (now : Nat) (s : Store) (req : Body) : Store × Response :=
  if validPayBody req then
    match preparePaymentReceipt now s req.idcustomer with
    | .error e => (s, .paymentFailed e)
    | .ok totalAmount =>
      let paymentData : PaymentData :=
        { total := payTotal now s req.promotionCode totalAmount,
          currency := req.currency.getD "", description := req.description.getD "" }
      match simulatePayPalPayment paymentData with
      | .error e => (s, .paymentFailed e)
      | .ok payment =>
        match processCartToOrder now s req with
        | (s1, sent) =>
          match getOrderById s1 req sent with
          | .raised => (s1, sent.getD (.paymentFailed .headersSent))
          | .responded r => (s1, r)
          | .value order_id =>
            match savePaymentReceipt now s1 payment req.idcustomer order_id with
            | (s2, receipt) => (s2, sent.getD (.paymentSuccessful receipt))
  else (s, .validation)

/-- The function `getOrderById` with the choice of the first row of `ORDER BY time DESC
LIMIT 1` as a parameter: the source fixes the query, and which row of greatest time the
database returns when several rows share it is left to the database. With `latestOrder`
for the choice this is `getOrderById`. -/
def getOrderByIdWith (pick : List Order → Option Order) (s : Store) (body : Body)
    (sent : Option Response) : OrderIdOutcome :=
  if validAssemblyBody body then
    match pick (selectOrders s body.idcustomer) with
    | none =>
      match sent with
      | some _ => .value none
      | none => .responded .noOrdersFound
    | some o => .value (some o.idorders)
  else
    match sent with
    | some _ => .raised
    | none => .responded .validation

/-- The handler of `POST /api/pay` with the choice of the query of `getOrderById` as a
parameter; its steps are those of `pay`. -/
def payWith (pick : List Order → Option Order) (now : Nat) (s : Store) (req : Body) :
    Store × Response :=
  if validPayBody req then
    match preparePaymentReceipt now s req.idcustomer with
    | .error e => (s, .paymentFailed e)
    | .ok totalAmount =>
      let paymentData : PaymentData :=
        { total := payTotal now s req.promotionCode totalAmount,
          currency := req.currency.getD "", description := req.description.getD "" }
      match simulatePayPalPayment paymentData with
      | .error e => (s, .paymentFailed e)
      | .ok payment =>
        match processCartToOrder now s req with
        | (s1, sent) =>
          match getOrderByIdWith pick s1 req sent with
          | .raised => (s1, sent.getD (.paymentFailed .headersSent))
          | .responded r => (s1, r)
          | .value order_id =>
            match savePaymentReceipt now s1 payment req.idcustomer order_id with
            | (s2, receipt) => (s2, sent.getD (.paymentSuccessful receipt))
  else (s, .validation)

/-- The arguments that the loop of `preparePaymentReceipt` hands to `processCampaignDetect`,
one per cart item in cart order: the value of `totalAmount` right after
`totalAmount += product.price * quantity`. The loop is the one of `prepareLoop`; a missing
product ends it. -/
def campaignInputs (now : Nat) (s : Store) : List CartItem → Rat → List Rat
  | [], _ => []
  | item :: rest, totalAmount =>
    match selectProducts s item.productId with
    | [] => []
    | product :: _ =>
      let totalAmount1 := totalAmount + product.price * item.quantity
      let result := processCampaignDetect now s product.category totalAmount1
      match result.success, result.finalAmount with
      | true, some finalAmount => totalAmount1 :: campaignInputs now s rest finalAmount
      | _, _ => totalAmount1 :: campaignInputs now s rest totalAmount1

/-! ## The discount stages on arbitrary arguments -/

/-- A JavaScript number: a finite value (taken exactly), NaN, Infinity or -Infinity. -/
inductive JsNumber where
  | finite (x : Rat)
  | nan
  | infinity
  | negInfinity
deriving DecidableEq, Repr

/-- The comparison `x <= 0`; it is false for NaN. -/
def JsNumber.leZero : JsNumber → Bool
  | .finite x => decide (x ≤ 0)
  | .nan => false
  | .infinity => false
  | .negInfinity => true

/-- The product `x * r` for a finite factor r. -/
def JsNumber.mul (x : JsNumber) (r : Rat) : JsNumber :=
  match x with
  | .finite a => .finite (a * r)
  | .nan => .nan
  | .infinity => if 0 < r then .infinity else if r < 0 then .negInfinity else .nan
  | .negInfinity => if 0 < r then .negInfinity else if r < 0 then .infinity else .nan

/-- The quotient `x / 100`. -/
def JsNumber.div100 : JsNumber → JsNumber
  | .finite a => .finite (a / 100)
  | .nan => .nan
  | .infinity => .infinity
  | .negInfinity => .negInfinity

/-- The sum `x + y`. -/
def JsNumber.add : JsNumber → JsNumber → JsNumber
  | .finite a, .finite b => .finite (a + b)
  | .finite _, .nan => .nan
  | .finite _, .infinity => .infinity
  | .finite _, .negInfinity => .negInfinity
  | .nan, _ => .nan
  | .infinity, .finite _ => .infinity
  | .infinity, .nan => .nan
  | .infinity, .infinity => .infinity
  | .infinity, .negInfinity => .nan
  | .negInfinity, .finite _ => .negInfinity
  | .negInfinity, .nan => .nan
  | .negInfinity, .infinity => .nan
  | .negInfinity, .negInfinity => .negInfinity

/-- The difference `x - y`. -/
def JsNumber.sub : JsNumber → JsNumber → JsNumber
  | .finite a, .finite b => .finite (a - b)
  | .finite _, .nan => .nan
  | .finite _, .infinity => .negInfinity
  | .finite _, .negInfinity => .infinity
  | .nan, _ => .nan
  | .infinity, .finite _ => .infinity
  | .infinity, .nan => .nan
  | .infinity, .infinity => .nan
  | .infinity, .negInfinity => .infinity
  | .negInfinity, .finite _ => .negInfinity
  | .negInfinity, .nan => .nan
  | .negInfinity, .infinity => .negInfinity
  | .negInfinity, .negInfinity => .nan

/-- A JavaScript value handed to a discount stage; `typeof` is number exactly for num. -/
inductive JsValue where
  | undefined
  | null
  | bool (b : Bool)
  | num (x : JsNumber)
  | str (s : String)
  | object
deriving DecidableEq, Repr

/-- The result object of a discount stage called on arbitrary arguments: its amounts are
JavaScript numbers, undefined (none) on the results with success false. -/
structure JsDetectResult where
  success : Bool
  message : DetectMessage
  originalAmount : Option JsNumber
  discountAmount : Option JsNumber
  finalAmount : Option JsNumber
deriving DecidableEq, Repr

/-- A result with success false and the given message. -/
def JsDetectResult.failure (m : DetectMessage) : JsDetectResult :=
  { success := false, message := m, originalAmount := none, discountAmount := none, finalAmount := none }

/-- A result with finite amounts, as a result on arbitrary arguments. -/
def DetectResult.toJs (r : DetectResult) : JsDetectResult :=
  { success := r.success, message := r.message,
    originalAmount := r.originalAmount.map JsNumber.finite,
    discountAmount := r.discountAmount.map JsNumber.finite,
    finalAmount := r.finalAmount.map JsNumber.finite }

/-- The discount of a promotion row on a JavaScript number. -/
def promotionDiscountJs (promotion : PromotionCode) (totalAmount : JsNumber) : JsNumber :=
  match promotion.promotion_type with
  | some .percentage => (totalAmount.mul promotion.promotion_amount).div100
  | some .fixed => .finite promotion.promotion_amount
  | none => .finite 0

/-- The function `processPromotionCodeDetect` on arbitrary arguments and with a store query
that may reject (queryFails). The whole body sits in a try block whose catch block returns
the result with success false. The first guard raises unless the code is a non-blank
string; the second, `typeof totalAmount !== 'number' || totalAmount <= 0`, raises unless
the total is a number for which `<= 0` is false, which lets NaN and Infinity pass; a
rejected query raises as well. The rest is the body of `processPromotionCodeDetect` in
JavaScript arithmetic. -/
def processPromotionCodeDetectJs (now : Nat) (s : Store) (queryFails : Bool)
    (promotionCode totalAmount : JsValue) : JsDetectResult :=
  match promotionCode, totalAmount with
  | .str code, .num amount =>
    if isBlank code then .failure .errorOccurred
    else if amount.leZero then .failure .errorOccurred
    else if queryFails then .failure .errorOccurred
    else
      match selectPromotionCodes s code with
      | [] => .failure .nothingFound
      | promotion :: _ =>
        let currentDate : JsDate := some now
        let startDate : JsDate := none
        let endDate : JsDate := some promotion.end_date
        let usage_count : Option Int := none
        if JsDate.lt currentDate startDate || JsDate.lt endDate currentDate then .failure .expired
        else if promotion.status = .inactive then .failure .inactive
        else if (promotion.usage_limit != none && promotion.usage_limit != some 0) && usage_count == some 0 then
          .failure .usageLimitReached
        else
          let discountAmount := promotionDiscountJs promotion amount
          { success := true, message := .applied, originalAmount := some amount,
            discountAmount := some discountAmount, finalAmount := some (amount.sub discountAmount) }
  | _, _ => .failure .errorOccurred

/-- What one campaign adds to `discountAmount` for a JavaScript number. -/
def campaignContributionJs (campaign : Campaign) (totalAmount : JsNumber) : JsNumber :=
  match campaign.campaign_type with
  | .percentage => (totalAmount.mul campaign.campaign_amount).div100
  | .fixed => .finite campaign.campaign_amount

/-- The loop of `processCampaignDetect` in JavaScript arithmetic. -/
def campaignLoopJs (now : Nat) (totalAmount : JsNumber) :
    List Campaign → JsNumber × JsNumber → JsNumber × JsNumber
  | [], acc => acc
  | campaign :: rest, (discountAmount, finalAmount) =>
    if now < campaign.start_date ∨ now > campaign.end_date then
      campaignLoopJs now totalAmount rest (discountAmount, finalAmount)
    else if campaign.status = .inactive then
      campaignLoopJs now totalAmount rest (discountAmount, finalAmount)
    else if campaign.usage_limit = some 0 then
      campaignLoopJs now totalAmount rest (discountAmount, finalAmount)
    else
      let discountAmount1 := discountAmount.add (campaignContributionJs campaign totalAmount)
      campaignLoopJs now totalAmount rest (discountAmount1, totalAmount.sub discountAmount1)

/-- The function `processCampaignDetect` on arbitrary arguments and with a store query that
may reject (queryFails); its two guards and its try and catch blocks are those of the
promotion code stage, so NaN and Infinity pass here as well. -/
def processCampaignDetectJs (now : Nat) (s : Store) (queryFails : Bool)
    (productCategory totalAmount : JsValue) : JsDetectResult :=
  match productCategory, totalAmount with
  | .str category, .num amount =>
    if isBlank category then .failure .errorOccurred
    else if amount.leZero then .failure .errorOccurred
    else if queryFails then .failure .errorOccurred
    else
      match selectCampaigns s category with
      | [] => .failure .nothingFound
      | campaign :: rest =>
        let (discountAmount, finalAmount) :=
          campaignLoopJs now amount (campaign :: rest) (.finite 0, amount)
        { success := true, message := .applied, originalAmount := some amount,
          discountAmount := some discountAmount, finalAmount := some finalAmount }
  | _, _ => .failure .errorOccurred

/-! ## Promotion upsert: `/api/promotionCode/addAndUpdate` -/

/-- The request body of `/api/promotionCode/addAndUpdate`; status and promotionType are
already one of the strings the schema admits. -/
structure PromotionRequest where
  promotionCode : String
  stateDate : Nat
  endDate : Nat
  usageLimit : Option Int
  status : Status
  promotionType : Option DiscountType
  promotionAmount : Rat
deriving DecidableEq, Repr

/-- The schema of `/api/promotionCode/addAndUpdate`: a code of at least 1 character and a usage
limit that is null or an integer at least 1. -/
def validPromotionRequest (r : PromotionRequest) : Bool :=
  decide (1 ≤ jsLength r.promotionCode)
    && (match r.usageLimit with
        | none => true
        | some n => decide (1 ≤ n))

/-- The row that the INSERT and the UPDATE of the upsert write. -/
def PromotionRequest.row (r : PromotionRequest) : PromotionCode :=
  { promotion_code := r.promotionCode, state_date := r.stateDate, end_date := r.endDate,
    usage_limit := r.usageLimit, status := r.status, promotion_type := r.promotionType,
    promotion_amount := r.promotionAmount }

/-- The handler of `POST /api/promotionCode/addAndUpdate`: an existing code is updated in
place, a new one is inserted. -/
def promotionUpsert (s : Store) (r : PromotionRequest) : Store × Response :=
  if validPromotionRequest r then
    match selectPromotionCodes s r.promotionCode with
    | [] => ({ s with promotion_codes := s.promotion_codes ++ [r.row] }, .promotionAdded)
    | _ :: _ =>
      ({ s with promotion_codes :=
          s.promotion_codes.map (fun p => if p.promotion_code = r.promotionCode then r.row else p) },
        .promotionUpdated)
  else (s, .validation)

/-! ## Order completion: `/api/order/complete` -/

/-- The rows of `SELECT * FROM orders WHERE idorders = ? AND idcustomer = ?`. -/
def selectOrder (s : Store) (orderId customerId : Int) : List Order :=
  s.orders.filter (fun o => o.idorders = orderId ∧ o.idcustomer = customerId)

/-- What the formatter (`escape` of sqlstring, called by `query`) writes for the parameter
`order.order`, which the handler passes as the parsed value, without `JSON.stringify`. An
array becomes the comma separated list of its elements, a string as a quoted string and an
object as the quoted text [object Object] (`arrayToList`); a bare object becomes the list
of its assignments (`objectToValues`). -/
def formatOrderParameter : OrderData → List SqlExpr
  | .arr entries =>
    entries.map (fun e =>
      match e with
      | .text item => .pairText item
      | .obj _ => .objectText)
  | .single item => [.assignment "productId" item.productId, .assignment "quantity" item.quantity]

/-- Whether column order_details takes the one expression written for it. The JSON text of a
pair is taken by any column; the text [object Object] is not JSON and is refused by a JSON
column; an assignment names a column that the table does not have. The type of
order_details is declared outside the source: jsonColumn says whether it is JSON. -/
def insertAccepts (jsonColumn : Bool) : SqlExpr → Bool
  | .pairText _ => true
  | .objectText => !jsonColumn
  | .assignment _ _ => false

/-- The handler of `POST /api/order/complete`. The INSERT names three columns and has three
placeholders; the second one receives `order.order` as parsed, so the statement that
reaches the database holds one value per expression of `formatOrderParameter`. With any
number of expressions other than one the value count does not match the column count, the
query rejects and the catch block answers 500; with one expression the row is inserted
when the column takes it, and the order row is then deleted from orders. -/
def orderComplete (jsonColumn : Bool) (s : Store) (customerId orderId : Int) : Store × Response :=
  if 1 ≤ orderId ∧ 1 ≤ customerId then
    match selectOrder s orderId customerId with
    | [] => (s, .orderNotFound)
    | order :: _ =>
      match formatOrderParameter order.order with
      | [details] =>
        if insertAccepts jsonColumn details then
          ({ s with
              orders_copmleted := s.orders_copmleted ++
                [{ idcustomer := customerId, order_details := details, order_time := order.time }]
              orders := s.orders.filter (fun o => ¬ (o.idorders = orderId ∧ o.idcustomer = customerId)) },
            .orderCompleted)
        else (s, .serverError)
      | _ => (s, .serverError)
  else (s, .validation)

/-! ## Return workflow -/

/-- The rows of `SELECT * FROM return_requests WHERE idcustomer = ? AND idorder = ?`. -/
def selectReturns (s : Store) (customerId orderId : Int) : List ReturnRequest :=
  s.return_requests.filter (fun r => r.idcustomer = customerId ∧ r.idorder = orderId)

/-- The handler of `POST /api/return/demand/add`: the order must be an open order of the
customer; the request is inserted with status pending. Reason is a non-empty string of at
most 255 characters, description is optional, may be null or empty, at most 500 characters. -/
def returnCreate (now : Nat) (s : Store) (customerId orderId : Int) (reason : String)
    (description : Option String) : Store × Response :=
  if 1 ≤ customerId ∧ 1 ≤ orderId ∧ 1 ≤ jsLength reason ∧ jsLength reason ≤ 255
      ∧ optionalField (fun d => decide (jsLength d ≤ 500)) description = true then
    match selectOrder s orderId customerId with
    | [] => (s, .returnOrderNotFound)
    | _ :: _ =>
      ({ s with return_requests := s.return_requests ++
          [{ idcustomer := customerId, idorder := orderId, reason := reason,
             description := description, request_date := now, status := "pending",
             completion_date := none }] },
        .returnCreated)
  else (s, .validation)

/-- The handler of `PUT /api/return/demand/status/set`: the status must be one of pending,
approved and rejected; it is written to every request of the pair. -/
def returnSetStatus (s : Store) (customerId orderId : Int) (status : String) : Store × Response :=
  if 1 ≤ customerId ∧ 1 ≤ orderId
      ∧ (status = "pending" ∨ status = "approved" ∨ status = "rejected") then
    match selectReturns s customerId orderId with
    | [] => (s, .returnNotFound)
    | _ :: _ =>
      ({ s with return_requests := s.return_requests.map (fun r =>
          if r.idcustomer = customerId ∧ r.idorder = orderId then { r with status := status } else r) },
        .returnStatusUpdated)
  else (s, .validation)

/-- The request body of `/api/return/complete`. -/
structure ReturnCompletion where
  customerId : Int
  orderId : Int
  amount : Rat
  currency : String
  description : String
  paymentMethod : String
deriving DecidableEq, Repr

/-- The schema of `/api/return/complete`: ids at least 1, a positive amount, non-empty currency
and description, and a payment method that is paypal or credit_card. -/
def validReturnCompletion (r : ReturnCompletion) : Bool :=
  decide (1 ≤ r.customerId) && decide (1 ≤ r.orderId) && decide (0 < r.amount)
    && decide (1 ≤ jsLength r.currency) && decide (1 ≤ jsLength r.description)
    && (r.paymentMethod == "paypal" || r.paymentMethod == "credit_card")

/-- The handler of `POST /api/return/complete`: it looks for a request of the pair whose
status is approved (404 when there is none) and then sets status completed and the
completion date on every request of the pair. The refund that follows is simulated and
logged only; it changes neither the store nor the response. -/
def returnComplete (now : Nat) (s : Store) (r : ReturnCompletion) : Store × Response :=
  if validReturnCompletion r then
    match (selectReturns s r.customerId r.orderId).filter (fun q => q.status = "approved") with
    | [] => (s, .returnNotApproved)
    | _ :: _ =>
      ({ s with return_requests := s.return_requests.map (fun q =>
          if q.idcustomer = r.customerId ∧ q.idorder = r.orderId then
            { q with status := "completed", completion_date := some now }
          else q) },
        .returnCompleted)
  else (s, .validation)

/-- The argument of `simulateReturnPayment`. -/
structure ReturnData where
  amount : Rat
  currency : String
  description : String
  paymentMethod : String
deriving DecidableEq, Repr

/-- The two errors with which `simulateReturnPayment` rejects: Refund amount cannot be zero,
and Invalid refund amount. -/
inductive RefundError where
  | zeroRefund
  | invalidAmount
deriving DecidableEq, Repr

/-- The object `simulatedResponse` of `simulateReturnPayment`, flattened. -/
structure RefundResponse where
  transactionId : String
  state : String
  method : String
  total : Rat
  currency : String
  description : String
  completedAt : Nat
deriving DecidableEq, Repr

/-- The function `simulateReturnPayment` at time now: it resolves for an amount above 0,
rejects with the zero refund error for the amount 0 and with the invalid amount error
below 0. An empty payment method is reported as unknown. -/
def simulateReturnPayment (now : Nat) (returnData : ReturnData) : Except RefundError RefundResponse :=
  if returnData.amount > 0 then
    .ok { transactionId := "SIMULATED_RETURN_PAYMENT_ID", state := "completed",
          method := if returnData.paymentMethod = "" then "unknown" else returnData.paymentMethod,
          total := returnData.amount, currency := returnData.currency,
          description := returnData.description, completedAt := now }
  else if returnData.amount = 0 then .error .zeroRefund
  else .error .invalidAmount

/-- The handler of `POST /api/return/complete` with the refund step made explicit and the
refund function as a parameter: the third component is the outcome that
`processReturnPayment` logs, none when the handler answers before reaching the refund. The
source runs it with `simulateReturnPayment`. -/
def returnCompleteWith (refund : ReturnData → Except RefundError RefundResponse) (now : Nat)
    (s : Store) (r : ReturnCompletion) :
    Store × Response × Option (Except RefundError RefundResponse) :=
  if validReturnCompletion r then
    match (selectReturns s r.customerId r.orderId).filter (fun q => q.status = "approved") with
    | [] => (s, .returnNotApproved, none)
    | _ :: _ =>
      ({ s with return_requests := s.return_requests.map (fun q =>
          if q.idcustomer = r.customerId ∧ q.idorder = r.orderId then
            { q with status := "completed", completion_date := some now }
          else q) },
        .returnCompleted,
        some (refund { amount := r.amount, currency := r.currency, description := r.description,
                       paymentMethod := r.paymentMethod }))
  else (s, .validation, none)

/-! ## Cart store: `/api/cart/add`, `/api/cart/update`, `/api/cart/delete/oneAll` -/

/-- The map callback of the cart handlers: the item of the product id gets the new quantity. -/
def replaceQuantity (idorder newQuantity : Int) (item : CartItem) : CartItem :=
  if item.productId = idorder then { item with quantity := newQuantity } else item

/-- The store after `UPDATE users SET cart = JSON_ARRAY_APPEND(cart, '$', CAST(? AS JSON))
WHERE id = ?`: the item is appended to the cart of the customer; a NULL cart stays NULL
(JSON_ARRAY_APPEND of NULL is NULL). -/
def appendCart (s : Store) (id : Int) (item : CartItem) : Store :=
  { s with users := s.users.map (fun u =>
      if u.id = id then { u with cart := u.cart.map (fun cart => cart ++ [item]) } else u) }

/-- The handler of `POST /api/cart/add`: the product must exist and have at least the asked
quantity in stock, the customer must exist; an item of that product id gets the new
quantity, otherwise the item is appended. The handler reads the cart as `cart || []`. -/
def cartAdd (s : Store) (idcustomer idorder newQuantity : Int) : Store × Response :=
  if 1 ≤ idcustomer ∧ 1 ≤ idorder ∧ 0 ≤ newQuantity then
    match selectProducts s idorder with
    | [] => (s, .productMissing)
    | product :: _ =>
      if newQuantity > product.quantity then (s, .notEnoughStock)
      else
        match selectUsers s idcustomer with
        | [] => (s, .customerNotFound)
        | user :: _ =>
          let cart := user.cart.getD []
          let updatedCart := cart.map (replaceQuantity idorder newQuantity)
          if cart.any (fun item => item.productId = idorder) then
            (setCart s idcustomer updatedCart, .cartUpdated updatedCart)
          else
            (appendCart s idcustomer { productId := idorder, quantity := newQuantity }, .cartItemAdded)
  else (s, .validation)

/-- The handler of `PUT /api/cart/update`. A missing product makes `product.quantity` raise
and a NULL cart makes `cart.map` raise (the cart is read as `cart || '[]'`, a string): both
are answered 500. -/
def cartUpdate (s : Store) (idcustomer idorder newQuantity : Int) : Store × Response :=
  if 1 ≤ idcustomer ∧ 1 ≤ idorder ∧ 0 ≤ newQuantity then
    match selectProducts s idorder with
    | [] => (s, .serverError)
    | product :: _ =>
      if newQuantity > product.quantity then (s, .notEnoughStock)
      else
        match selectUsers s idcustomer with
        | [] => (s, .customerNotFound)
        | user :: _ =>
          match user.cart with
          | none => (s, .serverError)
          | some cart =>
            let updatedCart := cart.map (replaceQuantity idorder newQuantity)
            if cart.any (fun item => item.productId = idorder) then
              (setCart s idcustomer updatedCart, .cartUpdated updatedCart)
            else (s, .orderNotInCart)
  else (s, .validation)

/-- The purpose of a cart delete request: one product id, or the whole cart. -/
inductive Purpose where
  | one (idorder : Int)
  | all
deriving DecidableEq, Repr

/-- The handler of `DELETE /api/cart/delete/oneAll`. For the purpose all the cart is set to the
empty list (the test on `result.affectedRows` reads a property of the result pair that does
not exist, so no 404 is sent); for the purpose one the items of the product id are filtered
out, and 404 is answered when the cart keeps its length. A NULL cart makes `cart.filter`
raise, answered 500. -/
def cartDelete (s : Store) (idcustomer : Int) (purpose : Purpose) : Store × Response :=
  match purpose with
  | .all =>
    if 1 ≤ idcustomer then (setCart s idcustomer [], .cartCleared) else (s, .validation)
  | .one idorder =>
    if 1 ≤ idcustomer ∧ 1 ≤ idorder then
      match selectUsers s idcustomer with
      | [] => (s, .customerNotFound)
      | user :: _ =>
        match user.cart with
        | none => (s, .serverError)
        | some cart =>
          let updatedCart := cart.filter (fun item => item.productId ≠ idorder)
          if updatedCart.length = cart.length then (s, .orderNotInCart)
          else (setCart s idcustomer updatedCart, .cartItemRemoved updatedCart)
    else (s, .validation)

/-! ## Predicates used in the statements -/

/-- Every product row has a stock that is not negative. -/
def StockNonneg (s : Store) : Prop :=
  ∀ p ∈ s.products, 0 ≤ p.quantity

/-- Every cart item and every order item has a quantity that is not negative. -/
def QuantitiesNonneg (s : Store) : Prop :=
  (∀ u ∈ s.users, ∀ i ∈ u.cart.getD [], 0 ≤ i.quantity)
    ∧ ∀ o ∈ s.orders, ∀ i ∈ o.order.items, 0 ≤ i.quantity

/-- One run of a stock-changing operation, whatever it answered: order assembly (by itself or
inside `/api/pay`), `/api/order/add`, `/api/order/update`. -/
inductive StockStep : Store → Store → Prop where
  | assemble (now : Nat) (s : Store) (body : Body) :
      StockStep s (processCartToOrder now s body).1
  | payment (now : Nat) (s : Store) (req : Body) :
      StockStep s (pay now s req).1
  | add (now : Nat) (s : Store) (idcustomer idproduct quantity : Int) :
      StockStep s (orderAdd now s idcustomer idproduct quantity).1
  | update (s : Store) (idcustomer idorder newQuantity : Int) :
      StockStep s (orderUpdate s idcustomer idorder newQuantity).1

/-- The total quantity that the items of a cart segment ask of one product id. -/
def demand (cart : List CartItem) (id : Int) : Int :=
  ((cart.filter (fun i => i.productId = id)).map CartItem.quantity).sum

/-- The stock of a product id that is left once the items of a cart segment have been
served from the store: its stock minus their demand (none when the product is missing). -/
def available (s : Store) (served : List CartItem) (id : Int) : Option Int :=
  (stock s id).map (fun q => q - demand served id)

/-- A small store for the examples: customer 1 has two of product 1 in the cart, product 1
costs 10 and has 5 in stock, customer 2 owns an order of one piece of product 1, and the
code SAVE10PC takes 10 percent off. -/
def exampleStore : Store :=
  { users := [{ id := 1, cart := some [{ productId := 1, quantity := 2 }] }]
    products := [{ idproducts := 1, category := "toys", price := 10, quantity := 5 }]
    orders := [{ idorders := 1, idcustomer := 2,
                 order := .arr [.obj { productId := 1, quantity := 1 }], time := 3 }]
    payments := []
    promotion_codes := [{ promotion_code := "SAVE10PC", state_date := 0, end_date := 100,
                          usage_limit := none, status := .active,
                          promotion_type := some .percentage, promotion_amount := 10 }]
    campaigns := []
    nextOrderId := 2
    nextPaymentId := 1 }

/-- The request of customer 1 with no optional field. -/
def exampleBody : Body :=
  { idcustomer := 1, currency := none, description := none, promotionCode := none }

/-- A store in which customer 1 has carted two of product 1 (5 in stock) and then nine of
product 2 (4 in stock). -/
def shortStockStore : Store :=
  { users := [{ id := 1, cart := some [{ productId := 1, quantity := 2 }, { productId := 2, quantity := 9 }] }]
    products := [{ idproducts := 1, category := "toys", price := 10, quantity := 5 },
                 { idproducts := 2, category := "books", price := 4, quantity := 4 }]
    orders := []
    payments := []
    promotion_codes := []
    campaigns := []
    nextOrderId := 1
    nextPaymentId := 1 }

/-- A store in which customer 1 has carted nine of product 2, of which 4 are in stock. -/
def singleShortStore : Store :=
  { shortStockStore with users := [{ id := 1, cart := some [{ productId := 2, quantity := 9 }] }] }

/-- A store in which customer 1 has carted two pieces of a product whose price is 0. -/
def zeroPriceStore : Store :=
  { exampleStore with products := [{ idproducts := 1, category := "toys", price := 0, quantity := 5 }] }

/-- A pay request of customer 1 in USD, with or without a promotion code. -/
def examplePay (promotionCode : Option String) : Body :=
  { idcustomer := 1, currency := some "USD", description := some "order 0001",
    promotionCode := promotionCode }

/-- The receipt of customer 1 paying the example cart with the code SAVE10PC at time 5. -/
def exampleReceipt : Receipt :=
  { id := 1, order_id := some 2, customer_id := 1, payment_id := "SIMULATED_PAYMENT_ID",
    payment_status := "approved", payment_method := "paypal", total_amount := some 18,
    currency := "USD", description := "order 0001", payment_date := 5 }

/-- The spec's applicable promotion code at time now: status active, usage limit null or
above 0, and now inside the window from the start date (column state_date) to the end date. -/
def PromotionCode.applicable (now : Nat) (p : PromotionCode) : Bool :=
  (p.status == .active)
    && (match p.usage_limit with
        | none => true
        | some n => decide (0 < n))
    && decide (p.state_date ≤ now) && decide (now ≤ p.end_date)

/-- A promotion code whose code string is one space: active, unlimited, open from 0 to 100,
10 percent. -/
def blankCode : PromotionCode :=
  { promotion_code := " ", state_date := 0, end_date := 100, usage_limit := none,
    status := .active, promotion_type := some .percentage, promotion_amount := 10 }

/-- The example store with the blank code as its only promotion code. -/
def blankCodeStore : Store :=
  { exampleStore with promotion_codes := [blankCode] }

/-- The campaigns that the specification counts at time now: inside their window from start date to
end date, not inactive, and with a usage limit that is not 0. -/
def Campaign.eligible (now : Nat) (c : Campaign) : Bool :=
  decide (c.start_date ≤ now) && decide (now ≤ c.end_date) && (c.status != .inactive)
    && (c.usage_limit != some 0)

/-- The discount that the specification states for an input amount: the sum over the eligible
campaigns of the amount of a fixed one and of amount percent of the input for a percentage
one. -/
def eligibleDiscount (now : Nat) (totalAmount : Rat) (campaigns : List Campaign) : Rat :=
  ((campaigns.filter (Campaign.eligible now)).map (fun c =>
    match c.campaign_type with
    | .fixed => c.campaign_amount
    | .percentage => totalAmount * c.campaign_amount / 100)).sum

/-- A campaign of 10 percent valid for the category made of two spaces. -/
def blankCategoryCampaign : Campaign :=
  { campaign_name := "spring", start_date := 0, end_date := 100, usage_limit := none,
    status := .active, valid_categories := some "  ", campaign_type := .percentage,
    campaign_amount := 10 }

/-- The example store with the campaign for the blank category. -/
def blankCategoryStore : Store :=
  { exampleStore with campaigns := [blankCategoryCampaign] }

/-- Three campaigns for toys: 10 percent, a fixed 5, and an inactive 50 percent. -/
def toyCampaigns : List Campaign :=
  [{ campaign_name := "ten", start_date := 0, end_date := 100, usage_limit := none,
     status := .active, valid_categories := some "games,toys", campaign_type := .percentage,
     campaign_amount := 10 },
   { campaign_name := "five", start_date := 0, end_date := 100, usage_limit := some 3,
     status := .active, valid_categories := some "toys", campaign_type := .fixed,
     campaign_amount := 5 },
   { campaign_name := "half", start_date := 0, end_date := 100, usage_limit := none,
     status := .inactive, valid_categories := some "toys", campaign_type := .percentage,
     campaign_amount := 50 }]

/-- The example store with the three toy campaigns. -/
def campaignStore : Store :=
  { exampleStore with campaigns := toyCampaigns }

/-- The undiscounted subtotal of a cart segment: the sum of price times quantity over its
items, with the prices of the catalog (a missing product counts 0). -/
def undiscountedSubtotal (s : Store) (cart : List CartItem) : Rat :=
  (cart.map (fun i =>
    match selectProducts s i.productId with
    | [] => 0
    | product :: _ => product.price * i.quantity)).sum

/-- The cart of two toys (product 1, price 10) followed by one book (product 2, price 4). -/
def compoundCart : List CartItem :=
  [{ productId := 1, quantity := 2 }, { productId := 2, quantity := 1 }]

/-- A store in which customer 1 holds the compound cart and one campaign gives 10 percent on
toys. -/
def compoundStore : Store :=
  { users := [{ id := 1, cart := some compoundCart }]
    products := [{ idproducts := 1, category := "toys", price := 10, quantity := 5 },
                 { idproducts := 2, category := "books", price := 4, quantity := 4 }]
    orders := []
    payments := []
    promotion_codes := []
    campaigns := [{ campaign_name := "ten", start_date := 0, end_date := 100, usage_limit := none,
                    status := .active, valid_categories := some "toys",
                    campaign_type := .percentage, campaign_amount := 10 }]
    nextOrderId := 1
    nextPaymentId := 1 }

/-- An upsert request for a 10 percent code whose window opens at time 50. -/
def futureCodeRequest : PromotionRequest :=
  { promotionCode := "LATER10X", stateDate := 50, endDate := 100, usageLimit := none,
    status := .active, promotionType := some .percentage, promotionAmount := 10 }

/-- The example store with one more promotion code, USEDUP10: active, inside its window,
10 percent, with usage limit 0. -/
def exhaustedCodeStore : Store :=
  { exampleStore with
    promotion_codes := [{ promotion_code := "USEDUP10", state_date := 0, end_date := 100,
                          usage_limit := some 0, status := .active,
                          promotion_type := some .percentage, promotion_amount := 10 }] }

/-- The short stock store in which customer 1 already owns order 1, created at time 3. -/
def earlierOrderStore : Store :=
  { shortStockStore with
    orders := [{ idorders := 1, idcustomer := 1,
                 order := .arr [.obj { productId := 1, quantity := 1 }], time := 3 }]
    nextOrderId := 2 }

/-- The receipt that a pay of 56 USD by customer 1 at time 5 stores, for a given order id. -/
def strayReceipt (order_id : Option Int) : Receipt :=
  { id := 1, order_id := order_id, customer_id := 1, payment_id := "SIMULATED_PAYMENT_ID",
    payment_status := "approved", payment_method := "paypal", total_amount := some 56,
    currency := "USD", description := "order 0001", payment_date := 5 }

/-- A store in which customer 2 owns order 1 with one piece of product 1 followed by three
pieces of product 2, product 2 having 10 in stock. -/
def twoItemOrderStore : Store :=
  { shortStockStore with
    products := [{ idproducts := 1, category := "toys", price := 10, quantity := 5 },
                 { idproducts := 2, category := "books", price := 4, quantity := 10 }]
    orders := [{ idorders := 1, idcustomer := 2,
                 order := .arr [.obj { productId := 1, quantity := 1 }, .obj { productId := 2, quantity := 3 }],
                 time := 3 }]
    nextOrderId := 2 }

/-- A completion request of customer 2 for order 1 with a refund of 10 USD by paypal. -/
def exampleCompletion : ReturnCompletion :=
  { customerId := 2, orderId := 1, amount := 10, currency := "USD", description := "refund",
    paymentMethod := "paypal" }

/-- The example store after customer 2 asked for the return of order 1 at time 6. -/
def pendingReturnStore : Store :=
  (returnCreate 6 exampleStore 2 1 "broken" none).1

/-- The example store after customer 2 asked for the return of order 1, the request was
approved, and customer 2 asked for the return of order 1 a second time. -/
def mixedReturnStore : Store :=
  (returnCreate 8 (returnSetStatus pendingReturnStore 2 1 "approved").1 2 1 "broken again" none).1

/-- One run of an operation of the return workflow: create, setStatus or complete. -/
inductive ReturnStep : Store → Store → Prop where
  | create (now : Nat) (s : Store) (customerId orderId : Int) (reason : String)
      (description : Option String) :
      ReturnStep s (returnCreate now s customerId orderId reason description).1
  | setStatus (s : Store) (customerId orderId : Int) (status : String) :
      ReturnStep s (returnSetStatus s customerId orderId status).1
  | complete (now : Nat) (s : Store) (r : ReturnCompletion) :
      ReturnStep s (returnComplete now s r).1

/-- One run of a cart operation: upsert, update or delete. -/
inductive CartStep : Store → Store → Prop where
  | add (s : Store) (idcustomer idorder newQuantity : Int) :
      CartStep s (cartAdd s idcustomer idorder newQuantity).1
  | update (s : Store) (idcustomer idorder newQuantity : Int) :
      CartStep s (cartUpdate s idcustomer idorder newQuantity).1
  | delete (s : Store) (idcustomer : Int) (purpose : Purpose) :
      CartStep s (cartDelete s idcustomer purpose).1

/-- The cart of every customer has pairwise distinct product ids. -/
def CartsDistinct (s : Store) : Prop :=
  ∀ c, (((cartOf s c).getD []).map CartItem.productId).Nodup

/-- The stage of the specification's recurrence: the finalAmount of the campaign stage when
it succeeds, the unchanged input when it does not. -/
def recurrenceStage (now : Nat) (s : Store) (category : String) (input : Rat) : Rat :=
  if (processCampaignDetect now s category input).success then
    (processCampaignDetect now s category input).finalAmount.getD input
  else input

/-- The specification's recurrence for the pre-promotion total, as a left fold over the cart
from 0: each item turns the total T into the stage of its category on T plus price times
quantity (an item whose product is missing leaves T as it is). -/
def recurrenceTotal (now : Nat) (s : Store) (cart : List CartItem) : Rat :=
  cart.foldl (fun total item =>
    match selectProducts s item.productId with
    | [] => total
    | product :: _ => recurrenceStage now s product.category (total + product.price * item.quantity)) 0

/-- The example store after customer 2 asked for the return of order 1, was approved, and the
return was completed at time 9. -/
def completedReturnStore : Store :=
  (returnComplete 9 (returnSetStatus pendingReturnStore 2 1 "approved").1 exampleCompletion).1

/-- The example store with the promotion code SAVE10, which has six characters. -/
def shortCodeStore : Store :=
  { exampleStore with
    promotion_codes := [{ promotion_code := "SAVE10", state_date := 0, end_date := 100,
                          usage_limit := none, status := .active,
                          promotion_type := some .percentage, promotion_amount := 10 }] }

/-- A store in which customer 2 owns two open orders and customer 3 owns one. -/
def severalOrdersStore : Store :=
  { twoItemOrderStore with
    orders := [{ idorders := 1, idcustomer := 2,
                 order := .arr [.obj { productId := 2, quantity := 3 }], time := 3 },
               { idorders := 2, idcustomer := 3,
                 order := .arr [.obj { productId := 2, quantity := 1 }], time := 4 },
               { idorders := 3, idcustomer := 2,
                 order := .arr [.obj { productId := 1, quantity := 1 }], time := 5 }]
    nextOrderId := 4 }

/-- The example store with the empty cart for customer 1. -/
def emptyCartStore : Store :=
  { exampleStore with users := [{ id := 1, cart := some [] }] }

/-- A choice that `ORDER BY time DESC LIMIT 1` admits: no row for no rows, otherwise one of
the rows, whose time no row exceeds. -/
def LatestChoice (pick : List Order → Option Order) : Prop :=
  pick [] = none
    ∧ ∀ rows, rows ≠ [] → ∃ o, pick rows = some o ∧ o ∈ rows ∧ ∀ o1 ∈ rows, o1.time ≤ o.time

/-- Every usage limit stored in table promotion_codes is NULL or at least 1. -/
def LimitsPositive (s : Store) : Prop :=
  ∀ p ∈ s.promotion_codes, ∀ n, p.usage_limit = some n → 1 ≤ n

/-- One operation as far as table promotion_codes goes: a run of the upsert, valid or not,
or any other operation, which writes no row of the table (the two DELETE statements of
`/api/promotionCode/delete` remove rows, everything else leaves the table alone). -/
inductive PromotionStep : Store → Store → Prop where
  | upsert (s : Store) (r : PromotionRequest) : PromotionStep s (promotionUpsert s r).1
  | other (s s1 : Store) (h : ∀ p ∈ s1.promotion_codes, p ∈ s.promotion_codes) :
      PromotionStep s s1

/-- An upsert request for the code ONCE10PC with usage limit 1: active, 10 percent. -/
def limitedCodeRequest : PromotionRequest :=
  { promotionCode := "ONCE10PC", stateDate := 0, endDate := 100, usageLimit := some 1,
    status := .active, promotionType := some .percentage, promotionAmount := 10 }

/-- The example store with the cart of customer 1 NULL, as the INSERT of the registration
leaves it (the statement names name, email, password and birthyear only). -/
def nullCartStore : Store :=
  { exampleStore with users := [{ id := 1, cart := none }] }

/-! ## Lemmas on the store -/

theorem selectProducts_setProductQuantity_head (ps : List Product) (id id1 q : Int) :
    ((ps.map (fun p => if p.idproducts = id then { p with quantity := q } else p)).filter
        (fun p => p.idproducts = id1)).head?.map Product.quantity
      = if id1 = id then ((ps.filter (fun p => p.idproducts = id1)).head?).map (fun _ => q)
        else ((ps.filter (fun p => p.idproducts = id1)).head?).map Product.quantity := by
  induction ps with
  | nil => simp
  | cons p ps ih =>
    have hid : (if p.idproducts = id then ({ p with quantity := q } : Product) else p).idproducts
        = p.idproducts := by
      split <;> rfl
    simp only [List.map_cons, List.filter_cons, hid]
    by_cases hp1 : p.idproducts = id1
    · simp only [hp1, decide_True, if_true, List.head?_cons, Option.map_some']
      by_cases h1 : id1 = id
      · simp [h1]
      · simp [h1]
    · simp only [hp1, decide_False]
      exact ih

theorem stock_setProductQuantity (s : Store) (id id1 q : Int) :
    stock (setProductQuantity s id q) id1
      = if id1 = id then (stock s id1).map (fun _ => q) else stock s id1 := by
  unfold stock selectProducts setProductQuantity
  simp only [selectProducts_setProductQuantity_head s.products id id1 q, Option.map_map]
  rfl

theorem stock_of_select {s : Store} {id : Int} {product : Product} {rest : List Product}
    (h : selectProducts s id = product :: rest) : stock s id = some product.quantity := by
  simp [stock, h]

theorem stock_of_select_nil {s : Store} {id : Int} (h : selectProducts s id = []) :
    stock s id = none := by
  simp [stock, h]

theorem mem_of_select {s : Store} {id : Int} {product : Product} {rest : List Product}
    (h : selectProducts s id = product :: rest) : product ∈ s.products := by
  have : product ∈ selectProducts s id := by rw [h]; exact List.mem_cons_self _ _
  exact (List.mem_filter.mp this).1

theorem stockNonneg_setProductQuantity {s : Store} (h : StockNonneg s) (id : Int) {q : Int}
    (hq : 0 ≤ q) : StockNonneg (setProductQuantity s id q) := by
  intro p hp
  simp only [setProductQuantity, List.mem_map] at hp
  obtain ⟨p0, hp0, rfl⟩ := hp
  by_cases hid : p0.idproducts = id
  · simpa [hid] using hq
  · simpa [hid] using h p0 hp0

/-! ## Lemmas on the assembly loop -/

/-- The assembly loop writes to table products only. -/
theorem assembleLoop_frame (cart : List CartItem) : ∀ (s : Store) (acc : List OrderEntry) (tot : Rat),
    (assembleLoop s cart acc tot).1.users = s.users
      ∧ (assembleLoop s cart acc tot).1.orders = s.orders
      ∧ (assembleLoop s cart acc tot).1.payments = s.payments
      ∧ (assembleLoop s cart acc tot).1.promotion_codes = s.promotion_codes
      ∧ (assembleLoop s cart acc tot).1.campaigns = s.campaigns
      ∧ (assembleLoop s cart acc tot).1.nextOrderId = s.nextOrderId
      ∧ (assembleLoop s cart acc tot).1.nextPaymentId = s.nextPaymentId := by
  induction cart with
  | nil => intro s acc tot; simp [assembleLoop]
  | cons item rest ih =>
    intro s acc tot
    simp only [assembleLoop]
    split
    · simp
    · split
      · simp
      · exact ih _ _ _

/-- The assembly loop keeps every stock non-negative. -/
theorem assembleLoop_stockNonneg (cart : List CartItem) : ∀ (s : Store) (acc : List OrderEntry)
    (tot : Rat), StockNonneg s → StockNonneg (assembleLoop s cart acc tot).1 := by
  induction cart with
  | nil => intro s acc tot h; simpa [assembleLoop] using h
  | cons item rest ih =>
    intro s acc tot h
    simp only [assembleLoop]
    split
    · exact h
    · split
      · exact h
      · rename_i product _ _ hgt
        exact ih _ _ _ (stockNonneg_setProductQuantity h _ (by omega))

/-- When the assembly loop ends well, `updatedCart` is its start value followed by the text
entries of the cart items, in cart order. -/
theorem assembleLoop_entries (cart : List CartItem) : ∀ (s s1 : Store) (acc uc : List OrderEntry)
    (tot t : Rat), assembleLoop s cart acc tot = (s1, .ok (uc, t)) →
      uc = acc ++ cart.map OrderEntry.text := by
  induction cart with
  | nil =>
    intro s s1 acc uc tot t h
    simp only [assembleLoop, Prod.mk.injEq, Except.ok.injEq] at h
    simp [h.2.1]
  | cons item rest ih =>
    intro s s1 acc uc tot t h
    simp only [assembleLoop] at h
    split at h
    · simp at h
    · split at h
      · simp at h
      · have := ih _ _ _ _ _ _ h
        simp [this]

theorem demand_nil (id : Int) : demand [] id = 0 := by
  simp [demand]

theorem demand_cons (item : CartItem) (cart : List CartItem) (id : Int) :
    demand (item :: cart) id = (if item.productId = id then item.quantity else 0) + demand cart id := by
  unfold demand
  by_cases h : item.productId = id <;> simp [List.filter_cons, h]

theorem available_nil (s : Store) (id : Int) : available s [] id = stock s id := by
  simp [available, demand_nil]

/-- Serving one item first and a segment after it is serving the longer segment. -/
theorem available_step {s : Store} {item : CartItem} {q : Int}
    (hsel : stock s item.productId = some q) (served : List CartItem) (id : Int) :
    available (setProductQuantity s item.productId (q - item.quantity)) served id
      = available s (item :: served) id := by
  unfold available
  rw [stock_setProductQuantity, demand_cons]
  by_cases h : id = item.productId
  · subst h
    simp only [if_true, hsel, Option.map_some', Option.some.injEq]
    omega
  · have h2 : ¬ item.productId = id := fun e => h e.symm
    simp [h, h2]

/-- What the assembly loop does, item by item: it serves a first segment `served` of the cart,
each item of it being within the stock left by the items before it; it ends well when that
segment is the whole cart, and otherwise the item after the segment is missing from the
catalog or asks for more than what is left, and the loop answers for that item. -/
theorem assembleLoop_spec (cart : List CartItem) : ∀ (s : Store) (acc : List OrderEntry) (tot : Rat),
    ∃ served : List CartItem,
      (∀ id, stock (assembleLoop s cart acc tot).1 id = available s served id)
      ∧ (∀ a x b, served = a ++ x :: b →
          ∃ v, available s a x.productId = some v ∧ x.quantity ≤ v)
      ∧ ((served = cart
            ∧ ∃ t, (assembleLoop s cart acc tot).2 = .ok (acc ++ cart.map OrderEntry.text, t))
          ∨ ∃ bad post, cart = served ++ bad :: post
            ∧ ((available s served bad.productId = none
                  ∧ (assembleLoop s cart acc tot).2 = .error (.productNotFound bad.productId))
                ∨ ∃ v, available s served bad.productId = some v ∧ v < bad.quantity
                  ∧ (assembleLoop s cart acc tot).2 = .error (.notEnoughStockFor bad.productId))) := by
  induction cart with
  | nil =>
    intro s acc tot
    refine ⟨[], fun id => by simp [assembleLoop, available_nil], ?_, Or.inl ⟨rfl, tot, by simp [assembleLoop]⟩⟩
    intro a x b h
    simp at h
  | cons item rest ih =>
    intro s acc tot
    simp only [assembleLoop]
    split
    · rename_i hsel
      refine ⟨[], fun id => by simp [available_nil], ?_, Or.inr ⟨item, rest, rfl, Or.inl ⟨?_, rfl⟩⟩⟩
      · intro a x b h
        simp at h
      · rw [available_nil]
        exact stock_of_select_nil hsel
    · rename_i product others hsel
      have hstock := stock_of_select hsel
      split
      · rename_i hgt
        refine ⟨[], fun id => by simp [available_nil], ?_,
          Or.inr ⟨item, rest, rfl, Or.inr ⟨product.quantity, ?_, hgt, rfl⟩⟩⟩
        · intro a x b h
          simp at h
        · rw [available_nil]
          exact hstock
      · rename_i hle
        obtain ⟨served, h1, h2, h3⟩ := ih (setProductQuantity s item.productId (product.quantity - item.quantity))
          (acc ++ [OrderEntry.text item]) (tot + product.price * item.quantity)
        refine ⟨item :: served, ?_, ?_, ?_⟩
        · intro id
          rw [h1 id, available_step hstock]
        · intro a x b h
          cases a with
          | nil =>
            simp only [List.nil_append, List.cons.injEq] at h
            refine ⟨product.quantity, ?_, ?_⟩
            · rw [available_nil, ← h.1]
              exact hstock
            · rw [← h.1]
              omega
          | cons a0 a1 =>
            simp only [List.cons_append, List.cons.injEq] at h
            obtain ⟨v, hv, hxv⟩ := h2 a1 x b h.2
            rw [available_step hstock, h.1] at hv
            exact ⟨v, hv, hxv⟩
        · rcases h3 with ⟨hall, t, ht⟩ | ⟨bad, post, hsplit, hbad⟩
          · left
            refine ⟨by rw [hall], t, ?_⟩
            rw [ht]
            simp
          · right
            refine ⟨bad, post, by rw [hsplit]; rfl, ?_⟩
            rcases hbad with ⟨hnone, hr⟩ | ⟨v, hv, hlt, hr⟩
            · left
              rw [available_step hstock] at hnone
              exact ⟨hnone, hr⟩
            · right
              rw [available_step hstock] at hv
              exact ⟨v, hv, hlt, hr⟩

/-! ## The operations keep stocks and quantities non-negative -/

theorem mem_of_selectUsers {s : Store} {id : Int} {user : User} {rest : List User}
    (h : selectUsers s id = user :: rest) : user ∈ s.users := by
  have : user ∈ selectUsers s id := by rw [h]; exact List.mem_cons_self _ _
  exact (List.mem_filter.mp this).1

theorem mem_of_selectOrders {s : Store} {id : Int} {row : Order} {rest : List Order}
    (h : selectOrders s id = row :: rest) : row ∈ s.orders := by
  have : row ∈ selectOrders s id := by rw [h]; exact List.mem_cons_self _ _
  exact (List.mem_filter.mp this).1

theorem quantitiesNonneg_of_frame {s s1 : Store} (hu : s1.users = s.users)
    (ho : s1.orders = s.orders) (h : QuantitiesNonneg s) : QuantitiesNonneg s1 := by
  unfold QuantitiesNonneg
  rw [hu, ho]
  exact h

theorem quantitiesNonneg_setCart_nil {s : Store} (h : QuantitiesNonneg s) (id : Int) :
    QuantitiesNonneg (setCart s id []) := by
  refine ⟨?_, h.2⟩
  intro u hu i hi
  simp only [setCart, List.mem_map] at hu
  obtain ⟨u0, hu0, rfl⟩ := hu
  by_cases hid : u0.id = id
  · simp [hid] at hi
  · simp only [hid, if_false] at hi
    exact h.1 u0 hu0 i hi

theorem quantitiesNonneg_insertOrder {s : Store} (h : QuantitiesNonneg s) (now : Nat) (id : Int)
    (data : OrderData) (hd : ∀ i ∈ data.items, 0 ≤ i.quantity) :
    QuantitiesNonneg (insertOrder now s id data) := by
  refine ⟨h.1, ?_⟩
  intro o ho i hi
  simp only [insertOrder, List.mem_append, List.mem_singleton] at ho
  rcases ho with ho | rfl
  · exact h.2 o ho i hi
  · exact hd i hi

theorem processCartToOrder_nonneg (now : Nat) (s : Store) (body : Body) (h1 : StockNonneg s)
    (h2 : QuantitiesNonneg s) :
    StockNonneg (processCartToOrder now s body).1 ∧ QuantitiesNonneg (processCartToOrder now s body).1 := by
  unfold processCartToOrder
  split
  · split
    · exact ⟨h1, h2⟩
    · rename_i user _ husers
      split
      · exact ⟨h1, h2⟩
      · exact ⟨h1, h2⟩
      · rename_i item rest hcart
        have hframe := assembleLoop_frame (item :: rest) s [] 0
        have hstock := assembleLoop_stockNonneg (item :: rest) s [] 0 h1
        split
        · rename_i s1 r heq
          rw [heq] at hframe hstock
          exact ⟨hstock, quantitiesNonneg_of_frame hframe.1 hframe.2.1 h2⟩
        · rename_i s1 uc tt heq
          have huc := assembleLoop_entries _ _ _ _ _ _ _ heq
          rw [heq] at hframe hstock
          have hq1 : QuantitiesNonneg s1 := quantitiesNonneg_of_frame hframe.1 hframe.2.1 h2
          refine ⟨hstock, quantitiesNonneg_setCart_nil (quantitiesNonneg_insertOrder hq1 _ _ _ ?_) _⟩
          intro i hi
          have hmem := mem_of_selectUsers husers
          have hcartq := h2.1 user hmem
          rw [hcart] at hcartq
          simp only [OrderData.items, huc, List.nil_append, List.map_map, List.mem_map] at hi
          obtain ⟨i0, hi0, rfl⟩ := hi
          exact hcartq i0 hi0
  · exact ⟨h1, h2⟩

theorem orderAdd_nonneg (now : Nat) (s : Store) (idcustomer idproduct quantity : Int)
    (h1 : StockNonneg s) (h2 : QuantitiesNonneg s) :
    StockNonneg (orderAdd now s idcustomer idproduct quantity).1
      ∧ QuantitiesNonneg (orderAdd now s idcustomer idproduct quantity).1 := by
  unfold orderAdd
  split
  · rename_i hvalid
    split
    · exact ⟨h1, h2⟩
    · split
      · exact ⟨h1, h2⟩
      · rename_i hgt
        constructor
        · exact stockNonneg_setProductQuantity (s := insertOrder now s idcustomer _) h1 _ (by omega)
        · have := quantitiesNonneg_insertOrder h2 now idcustomer (.single ⟨idproduct, quantity⟩)
            (by intro i hi; simp only [OrderData.items, List.mem_singleton] at hi; subst hi; simp; omega)
          exact quantitiesNonneg_of_frame rfl rfl this
  · exact ⟨h1, h2⟩

theorem quantitiesNonneg_setOrders {s : Store} (h : QuantitiesNonneg s) (id : Int)
    (data : OrderData) (hd : ∀ i ∈ data.items, 0 ≤ i.quantity) :
    QuantitiesNonneg (setOrders s id data) := by
  refine ⟨h.1, ?_⟩
  intro o ho i hi
  simp only [setOrders, List.mem_map] at ho
  obtain ⟨o0, ho0, rfl⟩ := ho
  by_cases hid : o0.idcustomer = id
  · simp only [hid, if_true] at hi
    exact hd i hi
  · simp only [hid, if_false] at hi
    exact h.2 o0 ho0 i hi

theorem updateEntry_quantity_nonneg (idorder newQuantity : Int) (hq : 0 ≤ newQuantity)
    (e : OrderEntry) (he : 0 ≤ e.item.quantity) :
    0 ≤ (updateEntry idorder newQuantity e).item.quantity := by
  cases e with
  | obj item =>
    simp only [updateEntry]
    split
    · simpa [OrderEntry.item] using hq
    · exact he
  | text item => exact he

theorem orderUpdate_nonneg (s : Store) (idcustomer idorder newQuantity : Int)
    (h1 : StockNonneg s) (h2 : QuantitiesNonneg s) :
    StockNonneg (orderUpdate s idcustomer idorder newQuantity).1
      ∧ QuantitiesNonneg (orderUpdate s idcustomer idorder newQuantity).1 := by
  unfold orderUpdate
  split
  · rename_i hvalid
    split
    · exact ⟨h1, h2⟩
    · split
      · exact ⟨h1, h2⟩
      · rename_i hgt
        split
        · exact ⟨h1, h2⟩
        · rename_i row _ hrows
          have hrow := h2.2 row (mem_of_selectOrders hrows)
          split
          · exact ⟨h1, h2⟩
          · rename_i cart hcart
            rw [hcart] at hrow
            simp only [OrderData.items, List.mem_map, forall_exists_index, and_imp,
              forall_apply_eq_imp_iff₂] at hrow
            have hnew : QuantitiesNonneg
                (setOrders s idcustomer (.arr (cart.map (updateEntry idorder newQuantity)))) := by
              apply quantitiesNonneg_setOrders h2
              intro i hi
              simp only [OrderData.items, List.map_map, List.mem_map, Function.comp] at hi
              obtain ⟨e, he, rfl⟩ := hi
              exact updateEntry_quantity_nonneg _ _ hvalid.2.2 e (hrow e he)
            simp only
            split
            · split
              · rename_i first hfirst
                have hmem : OrderEntry.obj first ∈ cart := List.mem_of_mem_head? hfirst
                have hfq : 0 ≤ first.quantity := hrow _ hmem
                constructor
                · exact stockNonneg_setProductQuantity (s := setOrders s idcustomer _) h1 _ (by omega)
                · exact quantitiesNonneg_of_frame rfl rfl hnew
              · exact ⟨h1, hnew⟩
            · exact ⟨h1, h2⟩
  · exact ⟨h1, h2⟩

theorem pay_nonneg (now : Nat) (s : Store) (req : Body) (h1 : StockNonneg s)
    (h2 : QuantitiesNonneg s) :
    StockNonneg (pay now s req).1 ∧ QuantitiesNonneg (pay now s req).1 := by
  have hp := processCartToOrder_nonneg now s req h1 h2
  unfold pay
  split
  · split
    · exact ⟨h1, h2⟩
    · simp only
      split
      · exact ⟨h1, h2⟩
      · split
        · exact hp
        · exact hp
        · exact ⟨hp.1, quantitiesNonneg_of_frame rfl rfl hp.2⟩
  · exact ⟨h1, h2⟩

/-! ## Lemmas on `processCartToOrder` -/

theorem demand_append (a b : List CartItem) (id : Int) :
    demand (a ++ b) id = demand a id + demand b id := by
  induction a with
  | nil => simp [demand_nil]
  | cons x a ih =>
    rw [List.cons_append, demand_cons, demand_cons, ih]
    omega

theorem demand_nonneg (cart : List CartItem) (id : Int) (h : ∀ i ∈ cart, 0 ≤ i.quantity) :
    0 ≤ demand cart id := by
  induction cart with
  | nil => simp [demand_nil]
  | cons x cart ih =>
    rw [demand_cons]
    have hx := h x (List.mem_cons_self _ _)
    have hrest := ih (fun i hi => h i (List.mem_cons_of_mem _ hi))
    split <;> omega

theorem demand_of_not_mem (cart : List CartItem) (id : Int)
    (h : id ∉ cart.map CartItem.productId) : demand cart id = 0 := by
  induction cart with
  | nil => simp [demand_nil]
  | cons x cart ih =>
    simp only [List.map_cons, List.mem_cons, not_or] at h
    have hx : ¬ x.productId = id := fun e => h.1 e.symm
    rw [demand_cons, ih h.2, if_neg hx]
    rfl

theorem demand_of_nodup (cart : List CartItem) (h : (cart.map CartItem.productId).Nodup)
    (item : CartItem) (hi : item ∈ cart) : demand cart item.productId = item.quantity := by
  induction cart with
  | nil => simp at hi
  | cons x cart ih =>
    simp only [List.map_cons, List.nodup_cons] at h
    rw [demand_cons]
    rcases List.mem_cons.mp hi with rfl | hmem
    · rw [demand_of_not_mem cart _ h.1]
      simp
    · have hne : ¬ x.productId = item.productId := by
        intro e
        exact h.1 (e ▸ List.mem_map_of_mem CartItem.productId hmem)
      rw [if_neg hne, ih h.2 hmem]
      simp

/-- On a validated request of a customer whose cart is a non-empty list, `processCartToOrder`
is its loop followed, when the loop ends well, by the order insert and the cart reset. -/
theorem processCartToOrder_eq (now : Nat) (s : Store) (body : Body) (cart : List CartItem)
    (hv : validAssemblyBody body = true) (hc : cartOf s body.idcustomer = some cart)
    (hne : cart ≠ []) :
    processCartToOrder now s body =
      match assembleLoop s cart [] 0 with
      | (s1, .error r) => (s1, some r)
      | (s1, .ok (updatedCart, _)) =>
        (setCart (insertOrder now s1 body.idcustomer (.arr updatedCart)) body.idcustomer [], none) := by
  unfold processCartToOrder
  rw [if_pos hv]
  unfold cartOf at hc
  cases hsel : selectUsers s body.idcustomer with
  | nil => simp [hsel] at hc
  | cons user others =>
    simp only [hsel, List.head?_cons, Option.some_bind] at hc
    simp only [hc]
    cases cart with
    | nil => exact absurd rfl hne
    | cons item rest => rfl

theorem stock_setCart_insertOrder (now : Nat) (s : Store) (c : Int) (data : OrderData)
    (cart : List CartItem) (id : Int) :
    stock (setCart (insertOrder now s c data) c cart) id = stock s id := rfl

theorem head_cart_after_update (us : List User) (c : Int) (cart : List CartItem)
    (h : us.filter (fun u => u.id = c) ≠ []) :
    ((us.map (fun u => if u.id = c then { u with cart := some cart } else u)).filter
        (fun u => u.id = c)).head?.bind User.cart = some cart := by
  induction us with
  | nil => simp at h
  | cons u us ih =>
    by_cases hu : u.id = c
    · simp [List.filter_cons, hu]
    · have h2 : us.filter (fun u => u.id = c) ≠ [] := by
        simpa [List.filter_cons, hu] using h
      simpa [List.filter_cons, hu] using ih h2

theorem cartOf_setCart (s : Store) (c : Int) (cart : List CartItem)
    (h : selectUsers s c ≠ []) : cartOf (setCart s c cart) c = some cart :=
  head_cart_after_update s.users c cart h

theorem selectUsers_ne_nil_of_cartOf {s : Store} {c : Int} {cart : List CartItem}
    (h : cartOf s c = some cart) : selectUsers s c ≠ [] := by
  intro hnil
  simp [cartOf, hnil] at h

/-! ## C1: stock never goes negative -/

/-- C1. Stock non-negativity is an invariant: from any store in which every product stock and
every cart and order item quantity is at least 0, after any finite sequence of runs of the
stock-changing operations (order assembly by `processCartToOrder`, alone or inside
`/api/pay`, `/api/order/add`, `/api/order/update`), successful or not, every product stock
is still at least 0. -/
theorem stock_nonneg_invariant (s s1 : Store) (h1 : StockNonneg s) (h2 : QuantitiesNonneg s)
    (hrun : Relation.ReflTransGen StockStep s s1) : StockNonneg s1 := by
  have key : StockNonneg s1 ∧ QuantitiesNonneg s1 := by
    induction hrun with
    | refl => exact ⟨h1, h2⟩
    | tail _ hstep ih =>
      cases hstep with
      | assemble now _ body => exact processCartToOrder_nonneg now _ body ih.1 ih.2
      | payment now _ req => exact pay_nonneg now _ req ih.1 ih.2
      | add now _ c p q => exact orderAdd_nonneg now _ c p q ih.1 ih.2
      | update _ c o q => exact orderUpdate_nonneg _ c o q ih.1 ih.2
  exact key.1

/-- C1 on a run of three successful operations: customer 1 assembles the cart (stock 5 to 3),
orders two more pieces (3 to 1), and customer 2 lowers an order from one piece to none
(1 to 2). -/
theorem stock_nonneg_invariant_witness :
    (processCartToOrder 5 exampleStore exampleBody).2 = none
      ∧ (orderAdd 6 (processCartToOrder 5 exampleStore exampleBody).1 1 1 2).2 = .orderAdded
      ∧ (orderUpdate (orderAdd 6 (processCartToOrder 5 exampleStore exampleBody).1 1 1 2).1 2 1 0).2
          = .orderUpdated [.obj { productId := 1, quantity := 0 }]
      ∧ stock (orderUpdate (orderAdd 6 (processCartToOrder 5 exampleStore exampleBody).1 1 1 2).1 2 1 0).1 1
          = some 2
      ∧ StockNonneg
          (orderUpdate (orderAdd 6 (processCartToOrder 5 exampleStore exampleBody).1 1 1 2).1 2 1 0).1 :=
  ⟨by decide!, by decide!, by decide!, by decide!,
    stock_nonneg_invariant exampleStore _ (by unfold StockNonneg; decide!)
      (by unfold QuantitiesNonneg; decide!)
      (((Relation.ReflTransGen.single (StockStep.assemble 5 exampleStore exampleBody)).tail
        (StockStep.add 6 _ 1 1 2)).tail (StockStep.update _ 2 1 0))⟩

/-! ## C2 to C5: order assembly -/

/-- C2. For a validated assembly request of a customer whose cart is non-empty, has pairwise
distinct product ids and whose every item names an existing product with quantity at most
its current stock, `processCartToOrder` succeeds (it sends no error response), afterwards each
carted product has its previous stock minus the carted quantity, and the stock of every
product id that is not in the cart is unchanged. -/
theorem assembly_decrements_stock (now : Nat) (s : Store) (body : Body) (cart : List CartItem)
    (hv : validAssemblyBody body = true) (hc : cartOf s body.idcustomer = some cart)
    (hne : cart ≠ []) (hnd : (cart.map CartItem.productId).Nodup)
    (hin : ∀ item ∈ cart, ∃ q, stock s item.productId = some q ∧ item.quantity ≤ q) :
    (processCartToOrder now s body).2 = none
      ∧ (∀ item ∈ cart, ∀ q, stock s item.productId = some q →
          stock (processCartToOrder now s body).1 item.productId = some (q - item.quantity))
      ∧ ∀ id, id ∉ cart.map CartItem.productId →
          stock (processCartToOrder now s body).1 id = stock s id := by
  rw [processCartToOrder_eq now s body cart hv hc hne]
  obtain ⟨served, h1, _, h3⟩ := assembleLoop_spec cart s [] 0
  rcases h3 with ⟨hall, t, ht⟩ | ⟨bad, post, hsplit, hbad⟩
  · subst hall
    have hpair : assembleLoop s served [] 0
        = ((assembleLoop s served [] 0).1, .ok ([] ++ served.map OrderEntry.text, t)) :=
      Prod.ext rfl ht
    rw [hpair]
    simp only [stock_setCart_insertOrder]
    refine ⟨trivial, ?_, ?_⟩
    · intro item hi q hq
      rw [h1, available, hq, demand_of_nodup served hnd item hi]
      rfl
    · intro id hid
      rw [h1, available, demand_of_not_mem served id hid]
      simp
  · exfalso
    have hbadmem : bad ∈ cart := by rw [hsplit]; simp
    obtain ⟨q, hq, hle⟩ := hin bad hbadmem
    have hnotin : bad.productId ∉ served.map CartItem.productId := by
      rw [hsplit, List.map_append, List.map_cons] at hnd
      have := (List.nodup_append.mp hnd).2.2
      intro hmem
      exact this hmem (List.mem_cons_self _ _)
    have hav : available s served bad.productId = some q := by
      rw [available, hq, demand_of_not_mem served _ hnotin]
      simp
    rcases hbad with ⟨hnone, _⟩ | ⟨v, hv2, hlt, _⟩
    · rw [hav] at hnone
      exact Option.noConfusion hnone
    · rw [hav] at hv2
      have : q = v := Option.some.inj hv2
      omega

/-- C2 on the spec scenario: the cart holds two of product 1, which has 5 in stock; the
assembly succeeds and product 1 ends with 3. -/
theorem assembly_decrements_stock_witness :
    (processCartToOrder 5 exampleStore exampleBody).2 = none
      ∧ stock (processCartToOrder 5 exampleStore exampleBody).1 1 = some 3 :=
  have h := assembly_decrements_stock 5 exampleStore exampleBody [{ productId := 1, quantity := 2 }]
    (by decide!) (by decide!) (by decide!) (by decide!)
    (by intro item hi; exact ⟨5, by simp at hi; subst hi; decide!, by simp at hi; subst hi; decide!⟩)
  ⟨h.1, h.2.1 { productId := 1, quantity := 2 } (by simp) 5 (by decide!)⟩

/-- C3 as stated fails on the spec scenario: customer 1 holds two pieces of product 1, the
assembly succeeds, and the item list of the one order that customer 1 then owns is not the
list of the pairs of the cart: it holds one string, the JSON text of the pair, which the
order handlers do not read as a pair (`/api/order/update` for product 1 answers 404 Order
not found in cart). -/
theorem assembly_items_not_pairs_counterexample :
    (processCartToOrder 5 exampleStore exampleBody).2 = none
      ∧ (selectOrders (processCartToOrder 5 exampleStore exampleBody).1 1).map Order.order
          = [.arr [.text { productId := 1, quantity := 2 }]]
      ∧ (selectOrders (processCartToOrder 5 exampleStore exampleBody).1 1).map Order.order
          ≠ [.arr [.obj { productId := 1, quantity := 2 }]]
      ∧ (orderUpdate (processCartToOrder 5 exampleStore exampleBody).1 1 1 1).2 = .orderNotInCart := by
  decide!

/-- C3, amended. Whenever `processCartToOrder` succeeds for a customer whose cart was the
list cart, table orders is the old table followed by exactly one new row: it is owned by
that customer, its item list holds, in cart order, one text entry per cart item (the JSON
string of its pair of productId and quantity), and its time is the clock reading; no entry
of that list is an object with a productId; and the customer then has the empty cart. -/
theorem assembly_adds_one_order (now : Nat) (s : Store) (body : Body) (cart : List CartItem)
    (hc : cartOf s body.idcustomer = some cart)
    (hok : (processCartToOrder now s body).2 = none) :
    (processCartToOrder now s body).1.orders
        = s.orders ++ [{ idorders := s.nextOrderId, idcustomer := body.idcustomer,
                         order := .arr (cart.map OrderEntry.text), time := now }]
      ∧ (∀ e ∈ cart.map OrderEntry.text, ∀ id, entryMatches id e = false)
      ∧ cartOf (processCartToOrder now s body).1 body.idcustomer = some [] := by
  have hv : validAssemblyBody body = true := by
    by_contra hnv
    simp [processCartToOrder, hnv] at hok
  have hne : cart ≠ [] := by
    rintro rfl
    unfold cartOf at hc
    unfold processCartToOrder at hok
    rw [if_pos hv] at hok
    cases hsel : selectUsers s body.idcustomer with
    | nil => simp [hsel] at hc
    | cons user others =>
      simp only [hsel, List.head?_cons, Option.some_bind] at hc
      simp [hsel, hc] at hok
  rw [processCartToOrder_eq now s body cart hv hc hne] at hok ⊢
  have hframe := assembleLoop_frame cart s [] 0
  split at hok
  · simp at hok
  · rename_i s1 uc tt heq
    have huc := assembleLoop_entries _ _ _ _ _ _ _ heq
    rw [heq] at hframe
    simp only [List.nil_append] at huc
    subst huc
    simp only at hframe
    refine ⟨?_, ?_, ?_⟩
    · simp only [setCart, insertOrder, hframe.2.1, hframe.2.2.2.2.2.1]
    · intro e he id
      obtain ⟨item, _, rfl⟩ := List.mem_map.mp he
      rfl
    · apply cartOf_setCart
      have hsel := selectUsers_ne_nil_of_cartOf hc
      unfold selectUsers at hsel ⊢
      simpa [insertOrder, hframe.1] using hsel

/-- C3 on the spec scenario: the order table gains the one order of customer 1, which holds
the string of the pair of the cart, and the cart is empty afterwards. -/
theorem assembly_adds_one_order_witness :
    (processCartToOrder 5 exampleStore exampleBody).1.orders
        = exampleStore.orders ++
            [{ idorders := 2, idcustomer := 1,
               order := .arr [.text { productId := 1, quantity := 2 }], time := 5 }]
      ∧ cartOf (processCartToOrder 5 exampleStore exampleBody).1 1 = some [] :=
  have h := assembly_adds_one_order 5 exampleStore exampleBody [{ productId := 1, quantity := 2 }]
    (by decide!) (by decide!)
  ⟨h.1, h.2.2⟩

theorem select_of_stock {s : Store} {id q : Int} (h : stock s id = some q) :
    ∃ product others, selectProducts s id = product :: others ∧ product.quantity = q := by
  unfold stock at h
  cases hsel : selectProducts s id with
  | nil => simp [hsel] at h
  | cons product others =>
    refine ⟨product, others, rfl, ?_⟩
    simpa [hsel] using h

/-- C4. For a validated assembly request of a customer whose cart is a single item that asks
for more than the current stock of its existing product, `processCartToOrder` answers 400
Not enough quantity in stock for that product id and the store is left as it was: the stock
is unchanged, no order is created and the cart is unchanged. -/
theorem assembly_single_item_insufficient (now : Nat) (s : Store) (body : Body) (item : CartItem)
    (q : Int) (hv : validAssemblyBody body = true)
    (hc : cartOf s body.idcustomer = some [item])
    (hq : stock s item.productId = some q) (hlt : q < item.quantity) :
    processCartToOrder now s body = (s, some (.notEnoughStockFor item.productId)) := by
  rw [processCartToOrder_eq now s body [item] hv hc (by simp)]
  obtain ⟨product, others, hsel, hpq⟩ := select_of_stock hq
  have hgt : item.quantity > product.quantity := by omega
  simp [assembleLoop, hsel, hgt]

/-- C4 on a cart of nine pieces of product 2, of which 4 are in stock. -/
theorem assembly_single_item_insufficient_witness :
    processCartToOrder 5 singleShortStore exampleBody
      = (singleShortStore, some (.notEnoughStockFor 2)) :=
  assembly_single_item_insufficient 5 singleShortStore exampleBody { productId := 2, quantity := 9 } 4
    (by decide!) (by decide!) (by decide!) (by decide!)

/-- C5. No rollback: for a validated assembly request of a customer whose cart has
non-negative quantities, a first item within stock and some later item that is missing from
the catalog or asks for more than its stock, `processCartToOrder` fails on an item after the
first (the first one in cart order that cannot be served: missing, or asking for more than
what the items before it left), and in the resulting store the stock of every product has
been lowered by the quantities of the items served before the failing one, table orders is
unchanged and the customer still has the whole cart. -/
theorem assembly_no_rollback (now : Nat) (s : Store) (body : Body) (first : CartItem)
    (rest : List CartItem) (hv : validAssemblyBody body = true)
    (hc : cartOf s body.idcustomer = some (first :: rest))
    (hq : ∀ i ∈ first :: rest, 0 ≤ i.quantity)
    (hfirst : ∃ q, stock s first.productId = some q ∧ first.quantity ≤ q)
    (hlater : ∃ later ∈ rest, stock s later.productId = none
        ∨ ∃ q, stock s later.productId = some q ∧ q < later.quantity) :
    ∃ served bad post, first :: rest = served ++ bad :: post ∧ served ≠ []
      ∧ (((processCartToOrder now s body).2 = some (.productNotFound bad.productId)
            ∧ stock s bad.productId = none)
          ∨ ((processCartToOrder now s body).2 = some (.notEnoughStockFor bad.productId)
            ∧ ∃ q, stock s bad.productId = some q ∧ q - demand served bad.productId < bad.quantity))
      ∧ (∀ id, stock (processCartToOrder now s body).1 id
            = (stock s id).map (fun q => q - demand served id))
      ∧ (processCartToOrder now s body).1.orders = s.orders
      ∧ cartOf (processCartToOrder now s body).1 body.idcustomer = some (first :: rest) := by
  rw [processCartToOrder_eq now s body (first :: rest) hv hc (by simp)]
  have hframe := assembleLoop_frame (first :: rest) s [] 0
  obtain ⟨served, h1, h2, h3⟩ := assembleLoop_spec (first :: rest) s [] 0
  obtain ⟨q0, hq0, hle0⟩ := hfirst
  rcases h3 with ⟨hall, _, _⟩ | ⟨bad, post, hsplit, hbad⟩
  · exfalso
    obtain ⟨later, hmem, hl⟩ := hlater
    obtain ⟨a, b, hab⟩ := List.append_of_mem hmem
    obtain ⟨v, hv2, hxv⟩ := h2 (first :: a) later b (by rw [hall, hab]; rfl)
    have hdem : 0 ≤ demand (first :: a) later.productId := by
      apply demand_nonneg
      intro i hi
      apply hq
      rw [hab]
      rcases List.mem_cons.mp hi with rfl | hi
      · exact List.mem_cons_self _ _
      · exact List.mem_cons_of_mem _ (List.mem_append_left _ hi)
    unfold available at hv2
    rcases hl with hnone | ⟨q, hsome, hlt⟩
    · simp [hnone] at hv2
    · rw [hsome] at hv2
      have : q - demand (first :: a) later.productId = v := Option.some.inj hv2
      omega
  · have hne : served ≠ [] := by
      rintro rfl
      simp only [List.nil_append, List.cons.injEq] at hsplit
      rw [available_nil, ← hsplit.1, hq0] at hbad
      rcases hbad with ⟨hnone, _⟩ | ⟨v, hv2, hlt, _⟩
      · exact Option.noConfusion hnone
      · have : q0 = v := Option.some.inj hv2
        omega
    have hstore : (assembleLoop s (first :: rest) [] 0).1.users = s.users := hframe.1
    refine ⟨served, bad, post, hsplit, hne, ?_⟩
    rcases hbad with ⟨hnone, hr⟩ | ⟨v, hv2, hlt, hr⟩
    · have hpair : assembleLoop s (first :: rest) [] 0
          = ((assembleLoop s (first :: rest) [] 0).1, .error (.productNotFound bad.productId)) :=
        Prod.ext rfl hr
      rw [hpair]
      refine ⟨Or.inl ⟨rfl, ?_⟩, h1, hframe.2.1, ?_⟩
      · simpa [available] using hnone
      · unfold cartOf selectUsers at hc ⊢
        simp only
        rw [hstore]
        exact hc
    · have hpair : assembleLoop s (first :: rest) [] 0
          = ((assembleLoop s (first :: rest) [] 0).1, .error (.notEnoughStockFor bad.productId)) :=
        Prod.ext rfl hr
      rw [hpair]
      refine ⟨Or.inr ⟨rfl, ?_⟩, h1, hframe.2.1, ?_⟩
      · unfold available at hv2
        cases hsb : stock s bad.productId with
        | none => simp [hsb] at hv2
        | some q =>
          rw [hsb] at hv2
          have : q - demand served bad.productId = v := Option.some.inj hv2
          exact ⟨q, rfl, by omega⟩
      · unfold cartOf selectUsers at hc ⊢
        simp only
        rw [hstore]
        exact hc

/-- C5 on a cart of two of product 1 (5 in stock) followed by nine of product 2 (4 in stock):
the assembly fails on product 2, product 1 is left with 3, no order exists and the cart is
whole. -/
theorem assembly_no_rollback_witness :
    (processCartToOrder 5 shortStockStore exampleBody).2 = some (.notEnoughStockFor 2)
      ∧ stock (processCartToOrder 5 shortStockStore exampleBody).1 1 = some 3
      ∧ (processCartToOrder 5 shortStockStore exampleBody).1.orders = []
      ∧ cartOf (processCartToOrder 5 shortStockStore exampleBody).1 1
          = some [{ productId := 1, quantity := 2 }, { productId := 2, quantity := 9 }] :=
  have h := assembly_no_rollback 5 shortStockStore exampleBody { productId := 1, quantity := 2 }
    [{ productId := 2, quantity := 9 }] (by decide!) (by decide!) (by decide!)
    ⟨5, by decide!, by decide!⟩
    ⟨{ productId := 2, quantity := 9 }, by simp, Or.inr ⟨4, by decide!, by decide!⟩⟩
  match h with
  | ⟨_, _, _, _, _, _, _, ho, hcart⟩ => ⟨by decide!, by decide!, ho, hcart⟩

/-! ## C6, C7, C9: payment -/

theorem assembleLoop_error_kind (cart : List CartItem) : ∀ (s : Store) (acc : List OrderEntry)
    (tot : Rat) (r : Response), (assembleLoop s cart acc tot).2 = .error r →
      (∃ id, r = .productNotFound id) ∨ ∃ id, r = .notEnoughStockFor id := by
  induction cart with
  | nil => intro s acc tot r h; simp [assembleLoop] at h
  | cons item rest ih =>
    intro s acc tot r h
    simp only [assembleLoop] at h
    split at h
    · simp only [Except.error.injEq] at h
      exact Or.inl ⟨_, h.symm⟩
    · split at h
      · simp only [Except.error.injEq] at h
        exact Or.inr ⟨_, h.symm⟩
      · exact ih _ _ _ _ h

/-- The function `processCartToOrder` never sends the answer of a successful payment. -/
theorem processCartToOrder_not_paymentSuccessful (now : Nat) (s : Store) (body : Body)
    (receipt : Receipt) : (processCartToOrder now s body).2 ≠ some (.paymentSuccessful receipt) := by
  unfold processCartToOrder
  split
  · split
    · simp
    · split
      · simp
      · simp
      · rename_i item rest _
        split
        · rename_i s1 r heq
          have hk := assembleLoop_error_kind (item :: rest) s [] 0 r (by rw [heq])
          rcases hk with ⟨id, rfl⟩ | ⟨id, rfl⟩ <;> simp
        · simp
  · simp

/-- The function `processCartToOrder` leaves table payments and its counter alone. -/
theorem processCartToOrder_payments (now : Nat) (s : Store) (body : Body) :
    (processCartToOrder now s body).1.payments = s.payments
      ∧ (processCartToOrder now s body).1.nextPaymentId = s.nextPaymentId := by
  unfold processCartToOrder
  split
  · split
    · exact ⟨rfl, rfl⟩
    · split
      · exact ⟨rfl, rfl⟩
      · exact ⟨rfl, rfl⟩
      · rename_i item rest _
        have hframe := assembleLoop_frame (item :: rest) s [] 0
        split
        · rename_i s1 r heq
          rw [heq] at hframe
          exact ⟨hframe.2.2.1, hframe.2.2.2.2.2.2⟩
        · rename_i s1 uc tt heq
          rw [heq] at hframe
          exact ⟨hframe.2.2.1, hframe.2.2.2.2.2.2⟩
  · exact ⟨rfl, rfl⟩

/-- A result of the promotion code stage that carries a finalAmount comes from a stored row
of that code and is the input minus the discount of that row. -/
theorem promotionDetect_final {now : Nat} {s : Store} {code : String} {A t : Rat}
    (h : (processPromotionCodeDetect now s code A).finalAmount = some t) :
    ∃ promotion others, selectPromotionCodes s code = promotion :: others
      ∧ t = A - promotionDiscount promotion A := by
  unfold processPromotionCodeDetect at h
  split at h
  · simp [DetectResult.failure] at h
  · split at h
    · simp [DetectResult.failure] at h
    · split at h
      · simp [DetectResult.failure] at h
      · rename_i promotion others hsel
        simp only at h
        split at h
        · simp [DetectResult.failure] at h
        · split at h
          · simp [DetectResult.failure] at h
          · split at h
            · simp [DetectResult.failure] at h
            · simp only [Option.some.injEq] at h
              exact ⟨promotion, others, hsel, h.symm⟩

/-- C6. For every successful pay (the answer 200 Payment successful with a receipt): the
returned receipt is the one row added to table payments; its total is the amount charged,
which is the post-campaign cart total C of `preparePaymentReceipt` when no promotion code is
supplied, and C minus the discount of the stored code when one is supplied (the amount of a
fixed code, C times the amount over 100 for a percentage code); its currency and description
are those of the request and its status is approved. -/
theorem pay_receipt_total (now : Nat) (s : Store) (req : Body) (receipt : Receipt)
    (h : (pay now s req).2 = .paymentSuccessful receipt) :
    ∃ C, preparePaymentReceipt now s req.idcustomer = .ok C
      ∧ (pay now s req).1.payments = s.payments ++ [receipt]
      ∧ receipt.total_amount = payTotal now s req.promotionCode C
      ∧ (req.promotionCode = none → receipt.total_amount = some C)
      ∧ (∀ code, req.promotionCode = some code →
          ∃ promotion others, selectPromotionCodes s code = promotion :: others
            ∧ receipt.total_amount = some (C - promotionDiscount promotion C)
            ∧ (promotion.promotion_type = some .fixed →
                receipt.total_amount = some (C - promotion.promotion_amount))
            ∧ (promotion.promotion_type = some .percentage →
                receipt.total_amount = some (C - C * promotion.promotion_amount / 100)))
      ∧ some receipt.currency = req.currency
      ∧ some receipt.description = req.description
      ∧ receipt.payment_status = "approved" := by
  unfold pay at h ⊢
  split at h
  swap
  · simp at h
  rename_i hvalid
  rw [if_pos hvalid]
  cases hprep : preparePaymentReceipt now s req.idcustomer with
  | error e => simp [hprep] at h
  | ok C =>
    simp only [hprep] at h ⊢
    by_cases hpos : jsPositive (payTotal now s req.promotionCode C) = true
    swap
    · simp [simulatePayPalPayment, hpos] at h
    simp only [simulatePayPalPayment, hpos, if_true] at h ⊢
    have hnot := processCartToOrder_not_paymentSuccessful now s req receipt
    have hpayments := processCartToOrder_payments now s req
    have hcur : some (req.currency.getD "") = req.currency := by
      cases hc : req.currency with
      | none => simp [validPayBody, hc] at hvalid
      | some v => rfl
    have hdesc : some (req.description.getD "") = req.description := by
      cases hd : req.description with
      | none => simp [validPayBody, hd] at hvalid
      | some v => rfl
    cases hget : getOrderById (processCartToOrder now s req).1 req (processCartToOrder now s req).2 with
    | raised =>
      simp only [hget] at h
      cases hsent : (processCartToOrder now s req).2 with
      | none => simp [hsent] at h
      | some r =>
        rw [hsent] at h hnot
        simp only [Option.getD_some] at h
        exact absurd (congrArg some h) hnot
    | responded r =>
      simp only [hget] at h
      subst h
      unfold getOrderById at hget
      split at hget
      · split at hget
        · split at hget <;> simp at hget
        · simp at hget
      · split at hget <;> simp at hget
    | value order_id =>
      simp only [hget] at h ⊢
      cases hsent : (processCartToOrder now s req).2 with
      | some r =>
        rw [hsent] at h hnot
        simp only [Option.getD_some] at h
        exact absurd (congrArg some h) hnot
      | none =>
        rw [hsent] at h
        simp only [Option.getD_none, Response.paymentSuccessful.injEq] at h
        subst h
        refine ⟨C, rfl, ?_, rfl, ?_, ?_, hcur, hdesc, rfl⟩
        · simp only [savePaymentReceipt, hpayments.1, hpayments.2]
        · intro hnone
          simp [savePaymentReceipt, payTotal, hnone]
        · intro code hcode
          have hne : code ≠ "" := by
            rintro rfl
            simp [validPayBody, hcode, optionalField, jsLength] at hvalid
          have htotal : payTotal now s req.promotionCode C
              = (processPromotionCodeDetect now s code C).finalAmount := by
            simp [payTotal, hcode, hne]
          rw [htotal] at hpos
          cases hfin : (processPromotionCodeDetect now s code C).finalAmount with
          | none => simp [hfin, jsPositive] at hpos
          | some t =>
            obtain ⟨promotion, others, hsel, ht⟩ := promotionDetect_final hfin
            refine ⟨promotion, others, hsel, ?_, ?_, ?_⟩
            · simp [savePaymentReceipt, htotal, hfin, ht]
            · intro hty
              simp [savePaymentReceipt, htotal, hfin, ht, promotionDiscount, hty]
            · intro hty
              simp [savePaymentReceipt, htotal, hfin, ht, promotionDiscount, hty]

/-- C6 on the example cart (two pieces at 10) paid with the 10 percent code SAVE10PC: the pay
succeeds, the receipt of 18 USD is the one row added to table payments. -/
theorem pay_receipt_total_witness :
    (pay 5 exampleStore (examplePay (some "SAVE10PC"))).2 = .paymentSuccessful exampleReceipt
      ∧ preparePaymentReceipt 5 exampleStore 1 = .ok 20
      ∧ (pay 5 exampleStore (examplePay (some "SAVE10PC"))).1.payments
          = exampleStore.payments ++ [exampleReceipt] :=
  have h := pay_receipt_total 5 exampleStore (examplePay (some "SAVE10PC")) exampleReceipt (by decide!)
  match h with
  | ⟨_, _, hp, _⟩ => ⟨by decide!, by decide!, hp⟩

/-- C7. For every validated pay request whose computed total is not greater than 0 (the
variable `total`, after the campaign and promotion code stages, is undefined or at most 0),
pay answers 500 Payment failed with the error Simulated payment error and the store is left
as it was: no order, no receipt, the cart and every stock unchanged. -/
theorem pay_nonpositive_total_fails (now : Nat) (s : Store) (req : Body) (C : Rat)
    (hv : validPayBody req = true)
    (hC : preparePaymentReceipt now s req.idcustomer = .ok C)
    (hnp : ∀ t, payTotal now s req.promotionCode C = some t → t ≤ 0) :
    pay now s req = (s, .paymentFailed .simulatedPaymentError) := by
  have hpos : jsPositive (payTotal now s req.promotionCode C) = false := by
    cases ht : payTotal now s req.promotionCode C with
    | none => rfl
    | some t =>
      have := hnp t ht
      simp only [jsPositive, decide_eq_false_iff_not, not_lt]
      exact this
  unfold pay
  rw [if_pos hv]
  simp [hC, simulatePayPalPayment, hpos]

/-- C7 on a cart whose only item has price 0: the total is 0 and the pay fails, the store
being unchanged. -/
theorem pay_nonpositive_total_fails_witness :
    preparePaymentReceipt 5 zeroPriceStore 1 = .ok 0
      ∧ pay 5 zeroPriceStore (examplePay none) = (zeroPriceStore, .paymentFailed .simulatedPaymentError) :=
  ⟨by decide!,
    pay_nonpositive_total_fails 5 zeroPriceStore (examplePay none) 0 (by decide!) (by decide!)
      (by intro t ht; simp only [payTotal, examplePay, Option.some.injEq] at ht; rw [← ht])⟩

/-- C9, the code at the failing input: the cart total is 20, the code UNKNOWN1 is not stored,
the promotion code stage answers with success false and no finalAmount, `/api/pay` takes
that missing finalAmount as the total, and the charge is refused: the pay fails with
Simulated payment error, where the specification has it charge 20 and return a receipt
of 20. -/
theorem pay_unknown_code_fails :
    preparePaymentReceipt 5 exampleStore 1 = .ok 20
      ∧ processPromotionCodeDetect 5 exampleStore "UNKNOWN1" 20 = .failure .nothingFound
      ∧ payTotal 5 exampleStore (some "UNKNOWN1") 20 = none
      ∧ pay 5 exampleStore (examplePay (some "UNKNOWN1"))
          = (exampleStore, .paymentFailed .simulatedPaymentError) := by
  decide!

/-! ## C8: the promotion code stage -/

/-- C8 as stated fails on a code made of whitespace: the stored code of one space is
applicable (active, unlimited, inside its window) and the amount 100 is positive, yet the
stage rejects the code string before any lookup and answers with success false. -/
theorem promotion_blank_code_counterexample :
    (0 : Rat) < 100
      ∧ selectPromotionCodes blankCodeStore " " = [blankCode]
      ∧ blankCode.applicable 5 = true
      ∧ (processPromotionCodeDetect 5 blankCodeStore " " 100).success = false := by
  decide!

/-- C8, amended. For every positive amount A and every applicable promotion code whose code
string is not blank, `processPromotionCodeDetect` answers with success true and
originalAmount A; for a percentage code of amount p the discountAmount is A times p over 100
and the finalAmount is A minus that; for a fixed code of amount d the discountAmount is d
and the finalAmount is A minus d. -/
theorem promotion_code_discount (now : Nat) (s : Store) (code : String) (A : Rat)
    (promotion : PromotionCode) (others : List PromotionCode)
    (hcode : isBlank code = false) (hA : 0 < A)
    (hsel : selectPromotionCodes s code = promotion :: others)
    (happ : promotion.applicable now = true) :
    (processPromotionCodeDetect now s code A).success = true
      ∧ (processPromotionCodeDetect now s code A).originalAmount = some A
      ∧ (promotion.promotion_type = some .percentage →
          (processPromotionCodeDetect now s code A).discountAmount
              = some (A * promotion.promotion_amount / 100)
            ∧ (processPromotionCodeDetect now s code A).finalAmount
              = some (A - A * promotion.promotion_amount / 100))
      ∧ (promotion.promotion_type = some .fixed →
          (processPromotionCodeDetect now s code A).discountAmount = some promotion.promotion_amount
            ∧ (processPromotionCodeDetect now s code A).finalAmount
              = some (A - promotion.promotion_amount)) := by
  simp only [PromotionCode.applicable, Bool.and_eq_true, beq_iff_eq, decide_eq_true_eq] at happ
  obtain ⟨⟨⟨hstatus, _⟩, _⟩, hend⟩ := happ
  have hA2 : ¬ A ≤ 0 := not_le.mpr hA
  have hend2 : ¬ promotion.end_date < now := not_lt.mpr hend
  have hres : processPromotionCodeDetect now s code A
      = { success := true, message := .applied, originalAmount := some A,
          discountAmount := some (promotionDiscount promotion A),
          finalAmount := some (A - promotionDiscount promotion A) } := by
    simp [processPromotionCodeDetect, hcode, hA2, hsel, JsDate.lt, hend2, hstatus]
  rw [hres]
  refine ⟨rfl, rfl, ?_, ?_⟩
  · intro hty
    simp [promotionDiscount, hty]
  · intro hty
    simp [promotionDiscount, hty]

/-- C8 on the spec scenario: a percentage code of 10 applied to 100 gives the finalAmount 90. -/
theorem promotion_code_discount_witness :
    (processPromotionCodeDetect 5 exampleStore "SAVE10PC" 100).success = true
      ∧ (processPromotionCodeDetect 5 exampleStore "SAVE10PC" 100).finalAmount = some 90 :=
  have h := promotion_code_discount 5 exampleStore "SAVE10PC" 100
    { promotion_code := "SAVE10PC", state_date := 0, end_date := 100, usage_limit := none,
      status := .active, promotion_type := some .percentage, promotion_amount := 10 } []
    (by decide!) (by decide!) (by decide!) (by decide!)
  ⟨h.1, by rw [(h.2.2.1 rfl).2]; norm_num⟩

/-! ## C10: the campaign stage -/

/-- The campaign loop adds the stated discount of its campaigns to `discountAmount` and keeps
`finalAmount` equal to the input minus `discountAmount`. -/
theorem campaignLoop_eq (now : Nat) (T : Rat) (campaigns : List Campaign) : ∀ (d : Rat),
    campaignLoop now T campaigns (d, T - d)
      = (d + eligibleDiscount now T campaigns, T - (d + eligibleDiscount now T campaigns)) := by
  induction campaigns with
  | nil => intro d; simp [campaignLoop, eligibleDiscount]
  | cons c rest ih =>
    intro d
    simp only [campaignLoop]
    split
    · rename_i hdate
      have hel : Campaign.eligible now c = false := by
        simp only [Campaign.eligible, Bool.and_eq_false_iff, decide_eq_false_iff_not, not_le]
        rcases hdate with h | h
        · exact Or.inl (Or.inl (Or.inl h))
        · exact Or.inl (Or.inl (Or.inr h))
      rw [ih d]
      simp [eligibleDiscount, List.filter_cons, hel]
    · rename_i hdate
      split
      · rename_i hst
        have hel : Campaign.eligible now c = false := by
          simp [Campaign.eligible, hst]
        rw [ih d]
        simp [eligibleDiscount, List.filter_cons, hel]
      · rename_i hst
        split
        · rename_i hlim
          have hel : Campaign.eligible now c = false := by
            simp [Campaign.eligible, hlim]
          rw [ih d]
          simp [eligibleDiscount, List.filter_cons, hel]
        · rename_i hlim
          have hel : Campaign.eligible now c = true := by
            simp only [not_or, not_lt] at hdate
            simp [Campaign.eligible, hdate.1, hdate.2, hst, hlim]
          rw [ih (d + campaignContribution c T)]
          have hcontrib : eligibleDiscount now T (c :: rest)
              = campaignContribution c T + eligibleDiscount now T rest := by
            simp only [eligibleDiscount, List.filter_cons, hel, if_true, List.map_cons, List.sum_cons]
            cases hty : c.campaign_type <;> simp [campaignContribution, hty]
          rw [hcontrib]
          simp only [Prod.mk.injEq]
          constructor <;> ring

/-- C10 as stated fails on a category made of whitespace: the amount 100 is positive and the
list of campaigns matching the category of two spaces is not empty, yet the stage rejects
the category string before any lookup and answers with success false. -/
theorem campaign_blank_category_counterexample :
    (0 : Rat) < 100
      ∧ selectCampaigns blankCategoryStore "  " = [blankCategoryCampaign]
      ∧ Campaign.eligible 5 blankCategoryCampaign = true
      ∧ (processCampaignDetect 5 blankCategoryStore "  " 100).success = false := by
  decide!

/-- C10, amended. For every positive running total T and every category that is not blank
and has a non-empty list of matching campaigns, `processCampaignDetect` answers with success
true, originalAmount T, discountAmount the sum, over exactly the matching campaigns that are
inside their window, not inactive and with a usage limit other than 0, of the amount (fixed)
or of T times the amount over 100 (percentage, always on the same input T), and finalAmount
T minus that discountAmount; skipped campaigns add nothing. -/
theorem campaign_stage_discount (now : Nat) (s : Store) (category : String) (T : Rat)
    (hcat : isBlank category = false) (hT : 0 < T) (hne : selectCampaigns s category ≠ []) :
    processCampaignDetect now s category T
      = { success := true, message := .applied, originalAmount := some T,
          discountAmount := some (eligibleDiscount now T (selectCampaigns s category)),
          finalAmount := some (T - eligibleDiscount now T (selectCampaigns s category)) } := by
  have hT2 : ¬ T ≤ 0 := not_le.mpr hT
  unfold processCampaignDetect
  rw [hcat]
  simp only [Bool.false_eq_true, if_false, hT2]
  cases hsel : selectCampaigns s category with
  | nil => exact absurd hsel hne
  | cons c rest =>
    have hloop := campaignLoop_eq now T (c :: rest) 0
    simp only [sub_zero, zero_add] at hloop
    simp only [hloop]

/-- C10 on three campaigns for toys at the total 100: the 10 percent and the fixed 5 both
count (15 in all), the inactive one does not, and the finalAmount is 85. -/
theorem campaign_stage_discount_witness :
    selectCampaigns campaignStore "toys" = toyCampaigns
      ∧ eligibleDiscount 5 100 toyCampaigns = 15
      ∧ (processCampaignDetect 5 campaignStore "toys" 100).discountAmount = some 15
      ∧ (processCampaignDetect 5 campaignStore "toys" 100).finalAmount = some 85 :=
  have h := campaign_stage_discount 5 campaignStore "toys" 100 (by decide!) (by decide!) (by decide!)
  ⟨by decide!, by decide!, by rw [h]; decide!, by rw [h]; decide!⟩

/-! ## C11: the running total handed to the campaign stage -/

/-- C11 as stated fails once an earlier item got a campaign discount: in the compound cart
the toys (20) get 10 percent off, so the running total handed to the campaign stage for the
second item is 18 + 4 = 22, not the undiscounted subtotal 24 of the two items. -/
theorem campaign_input_counterexample :
    campaignInputs 5 compoundStore compoundCart 0 = [20, 22]
      ∧ undiscountedSubtotal compoundStore compoundCart = 24
      ∧ (campaignInputs 5 compoundStore compoundCart 0)[1]?
          ≠ some (undiscountedSubtotal compoundStore (compoundCart.take 2)) := by
  decide!

/-- C11, amended. In the loop of `preparePaymentReceipt`, for every cart and every position,
the running total handed to the campaign stage for the item at that position is the total
that the loop has reached over the items before it (each already replaced by the
finalAmount of its campaign stage when that stage succeeded) plus price times quantity of
the item; the items before it enter undiscounted only as long as no stage changed the
total. The statement holds from any start value of the total; the loop starts from 0. -/
theorem campaign_input_recurrence (now : Nat) (s : Store) (item : CartItem) (post : List CartItem)
    (product : Product) (others : List Product)
    (hsel : selectProducts s item.productId = product :: others) :
    ∀ (before : List CartItem) (start reached : Rat),
      prepareLoop now s before start = .ok reached →
      (campaignInputs now s (before ++ item :: post) start)[before.length]?
        = some (reached + product.price * item.quantity) := by
  intro before
  induction before with
  | nil =>
    intro start reached h
    simp only [prepareLoop, Except.ok.injEq] at h
    subst h
    simp only [List.nil_append, campaignInputs, hsel, List.length_nil]
    split <;> simp
  | cons x before ih =>
    intro start reached h
    cases hp : selectProducts s x.productId with
    | nil => simp [prepareLoop, hp] at h
    | cons p ps =>
      simp only [prepareLoop, hp] at h
      simp only [List.cons_append, campaignInputs, hp, List.length_cons]
      split at h
      · rename_i f hs hf
        simp only [hs, hf, List.getElem?_cons_succ]
        exact ih _ _ h
      · simp only [List.getElem?_cons_succ]
        exact ih _ _ h

/-- C11 on the compound cart: the loop reaches 18 over the toys, and the campaign stage of the
book is handed 18 + 4. -/
theorem campaign_input_recurrence_witness :
    prepareLoop 5 compoundStore [{ productId := 1, quantity := 2 }] 0 = .ok 18
      ∧ (campaignInputs 5 compoundStore compoundCart 0)[1]? = some (18 + 4 * 1) :=
  ⟨by decide!,
    campaign_input_recurrence 5 compoundStore { productId := 2, quantity := 1 } []
      { idproducts := 2, category := "books", price := 4, quantity := 4 } [] (by decide!)
      [{ productId := 1, quantity := 2 }] 0 18 (by decide!)⟩

/-! ## C12, C13: window start and usage limit of a promotion code -/

/-- C12, the code at the failing input: the code LATER10X is stored through the upsert with a
window that opens at 50; at time 5 the stage compares the clock with
`new Date(promotion.start_date)`, a property that the stored row does not have (the upsert
writes state_date), so the comparison is false and the code is applied: success true and
100 becomes 90, where the specification has a not-applicable result. -/
theorem promotion_start_date_not_checked :
    (promotionUpsert exampleStore futureCodeRequest).2 = .promotionAdded
      ∧ selectPromotionCodes (promotionUpsert exampleStore futureCodeRequest).1 "LATER10X"
          = [futureCodeRequest.row]
      ∧ 5 < futureCodeRequest.row.state_date
      ∧ processPromotionCodeDetect 5 (promotionUpsert exampleStore futureCodeRequest).1 "LATER10X" 100
          = { success := true, message := .applied, originalAmount := some 100,
              discountAmount := some 10, finalAmount := some 90 } := by
  decide!

/-- C13 as stated fails on a record with usage limit 0: the stored code USEDUP10 has usage
limit 0 and is otherwise active and inside its window; the test
`promotion.usage_limit && promotion.usage_count === 0` is false for a limit of 0, so the
stage applies the code: success true and 100 becomes 90. The upsert refuses to write such a
record. -/
theorem promotion_usage_limit_zero_applied :
    (selectPromotionCodes exhaustedCodeStore "USEDUP10").map PromotionCode.usage_limit = [some 0]
      ∧ processPromotionCodeDetect 5 exhaustedCodeStore "USEDUP10" 100
          = { success := true, message := .applied, originalAmount := some 100,
              discountAmount := some 10, finalAmount := some 90 }
      ∧ promotionUpsert exampleStore
          { promotionCode := "USEDUP10", stateDate := 0, endDate := 100, usageLimit := some 0,
            status := .active, promotionType := some .percentage, promotionAmount := 10 }
          = (exampleStore, .validation) := by
  decide!

/-- The upsert keeps every stored usage limit NULL or at least 1. -/
theorem promotionUpsert_limits {s : Store} (h : LimitsPositive s) (r : PromotionRequest) :
    LimitsPositive (promotionUpsert s r).1 := by
  unfold promotionUpsert
  by_cases hv : validPromotionRequest r = true
  · have hrow : ∀ n, r.row.usage_limit = some n → 1 ≤ n := by
      intro n hn
      simp only [validPromotionRequest, Bool.and_eq_true] at hv
      have h2 := hv.2
      simp only [PromotionRequest.row] at hn
      rw [hn] at h2
      simpa using h2
    rw [if_pos hv]
    cases hsel : selectPromotionCodes s r.promotionCode with
    | nil =>
      intro p hp n hn
      simp only [List.mem_append, List.mem_singleton] at hp
      rcases hp with hp | hp
      · exact h p hp n hn
      · subst hp
        exact hrow n hn
    | cons found rest =>
      intro p hp n hn
      simp only [List.mem_map] at hp
      obtain ⟨p0, hp0, hp1⟩ := hp
      by_cases hc : p0.promotion_code = r.promotionCode
      · rw [if_pos hc] at hp1
        subst hp1
        exact hrow n hn
      · rw [if_neg hc] at hp1
        subst hp1
        exact h p0 hp0 n hn
  · rw [if_neg hv]
    exact h

/-- C13, amended. No promotion code record with usage limit 0 is written through the API:
in every store reached from one whose usage limits are NULL or at least 1 (such as one
without promotion codes) by runs of the upsert and of operations that write no promotion
code, every stored usage limit is NULL or at least 1, none is 0, and every code that the
promotion code stage applies (success true) has a usage limit that is NULL or nonzero. -/
theorem promotion_usage_limit_never_zero (s s1 : Store) (h0 : LimitsPositive s)
    (hrun : Relation.ReflTransGen PromotionStep s s1) :
    LimitsPositive s1
      ∧ (∀ p ∈ s1.promotion_codes, p.usage_limit ≠ some 0)
      ∧ ∀ now code total, (processPromotionCodeDetect now s1 code total).success = true →
          ∃ p rest, selectPromotionCodes s1 code = p :: rest
            ∧ (p.usage_limit = none ∨ ∃ n, p.usage_limit = some n ∧ n ≠ 0) := by
  have hinv : LimitsPositive s1 := by
    induction hrun with
    | refl => exact h0
    | tail _ hstep ih =>
      cases hstep with
      | upsert r => exact promotionUpsert_limits ih r
      | other _ hsub => exact fun p hp n hn => ih p (hsub p hp) n hn
  refine ⟨hinv, ?_, ?_⟩
  · intro p hp hzero
    have := hinv p hp 0 hzero
    omega
  · intro now code total hok
    cases hsel : selectPromotionCodes s1 code with
    | nil =>
      exfalso
      unfold processPromotionCodeDetect at hok
      rw [hsel] at hok
      split at hok
      · simp [DetectResult.failure] at hok
      · split at hok <;> simp [DetectResult.failure] at hok
    | cons p rest =>
      refine ⟨p, rest, rfl, ?_⟩
      have hp : p ∈ s1.promotion_codes := by
        have : p ∈ selectPromotionCodes s1 code := by rw [hsel]; exact List.mem_cons_self _ _
        exact (List.mem_filter.mp this).1
      cases hlim : p.usage_limit with
      | none => exact Or.inl rfl
      | some n =>
        refine Or.inr ⟨n, rfl, ?_⟩
        have := hinv p hp n hlim
        omega

/-- C13 on the store reached from a store without promotion codes by the upsert of ONCE10PC
with usage limit 1 (a second upsert with usage limit 0 is refused): the stage applies the
code, whose usage limit is 1. -/
theorem promotion_usage_limit_never_zero_witness :
    (processPromotionCodeDetect 5
        (promotionUpsert { exampleStore with promotion_codes := [] } limitedCodeRequest).1
        "ONCE10PC" 100).success = true
      ∧ ∃ p rest,
          selectPromotionCodes
              (promotionUpsert { exampleStore with promotion_codes := [] } limitedCodeRequest).1
              "ONCE10PC" = p :: rest
            ∧ (p.usage_limit = none ∨ ∃ n, p.usage_limit = some n ∧ n ≠ 0) :=
  ⟨by decide!,
    (promotion_usage_limit_never_zero { exampleStore with promotion_codes := [] } _
      (fun p hp => by simp at hp)
      ((Relation.ReflTransGen.single
        (PromotionStep.upsert { exampleStore with promotion_codes := [] } limitedCodeRequest)).tail
        (PromotionStep.upsert _ { limitedCodeRequest with usageLimit := some 0 }))).2.2
      5 "ONCE10PC" 100 (by decide!)⟩

/-! ## C14: the discount stages on arbitrary arguments, NaN included -/

/-- On a finite amount the discount in JavaScript arithmetic is the exact one. -/
theorem promotionDiscountJs_finite (promotion : PromotionCode) (A : Rat) :
    promotionDiscountJs promotion (.finite A) = .finite (promotionDiscount promotion A) := by
  unfold promotionDiscountJs promotionDiscount
  cases promotion.promotion_type with
  | none => rfl
  | some ty => cases ty <;> rfl

/-- On a code that is a string and a finite total, with a working query, the promotion code
stage on arbitrary arguments is the function used in the payment flow. -/
theorem processPromotionCodeDetectJs_finite (now : Nat) (s : Store) (c : String) (A : Rat) :
    processPromotionCodeDetectJs now s false (.str c) (.num (.finite A))
      = (processPromotionCodeDetect now s c A).toJs := by
  unfold processPromotionCodeDetectJs processPromotionCodeDetect
  simp only [JsNumber.leZero, decide_eq_true_eq, Bool.false_eq_true, if_false,
    promotionDiscountJs_finite, JsNumber.sub]
  split
  · rfl
  · split
    · rfl
    · cases selectPromotionCodes s c with
      | nil => rfl
      | cons promotion rest =>
        simp only
        split
        · rfl
        · split
          · rfl
          · split <;> rfl

/-- On finite amounts the campaign loop in JavaScript arithmetic is the exact one. -/
theorem campaignLoopJs_finite (now : Nat) (T : Rat) (campaigns : List Campaign) :
    ∀ d f : Rat, campaignLoopJs now (.finite T) campaigns (.finite d, .finite f)
      = (.finite (campaignLoop now T campaigns (d, f)).1,
         .finite (campaignLoop now T campaigns (d, f)).2) := by
  induction campaigns with
  | nil => intro d f; rfl
  | cons c rest ih =>
    intro d f
    simp only [campaignLoopJs, campaignLoop]
    split
    · exact ih d f
    · split
      · exact ih d f
      · split
        · exact ih d f
        · have hc : campaignContributionJs c (.finite T) = .finite (campaignContribution c T) := by
            unfold campaignContributionJs campaignContribution
            cases c.campaign_type <;> rfl
          simp only [hc, JsNumber.add, JsNumber.sub]
          exact ih _ _

/-- On a category that is a string and a finite total, with a working query, the campaign
stage on arbitrary arguments is the function used in the payment flow. -/
theorem processCampaignDetectJs_finite (now : Nat) (s : Store) (c : String) (A : Rat) :
    processCampaignDetectJs now s false (.str c) (.num (.finite A))
      = (processCampaignDetect now s c A).toJs := by
  unfold processCampaignDetectJs processCampaignDetect
  simp only [JsNumber.leZero, decide_eq_true_eq, Bool.false_eq_true, if_false]
  split
  · rfl
  · split
    · rfl
    · cases selectCampaigns s c with
      | nil => rfl
      | cons campaign rest =>
        simp only [campaignLoopJs_finite]
        rfl

/-- Both discount stages return a result record on every pair of arguments, whether or not
the store query rejects. The result has success true only when the code (the category) is
a non-blank string, the total is a number for which `<= 0` is false, the query did not
reject and it found a row; and when the campaign stage answers success false the loop of
`preparePaymentReceipt` goes on with its running total unchanged. -/
theorem discount_stages_success (now : Nat) (s : Store) (queryFails : Bool)
    (code category total : JsValue) :
    ((processPromotionCodeDetectJs now s queryFails code total).success = true →
        ∃ c x, code = .str c ∧ total = .num x ∧ isBlank c = false ∧ x.leZero = false
          ∧ queryFails = false ∧ selectPromotionCodes s c ≠ [])
      ∧ ((processCampaignDetectJs now s queryFails category total).success = true →
        ∃ c x, category = .str c ∧ total = .num x ∧ isBlank c = false ∧ x.leZero = false
          ∧ queryFails = false ∧ selectCampaigns s c ≠ [])
      ∧ ∀ (item : CartItem) (rest : List CartItem) (running : Rat) (product : Product)
          (others : List Product), selectProducts s item.productId = product :: others →
          (processCampaignDetect now s product.category (running + product.price * item.quantity)).success
            = false →
          prepareLoop now s (item :: rest) running
            = prepareLoop now s rest (running + product.price * item.quantity) := by
  refine ⟨?_, ?_, ?_⟩
  · intro h
    unfold processPromotionCodeDetectJs at h
    split at h
    · rename_i c x
      split at h
      · simp [JsDetectResult.failure] at h
      · rename_i hblank
        split at h
        · simp [JsDetectResult.failure] at h
        · rename_i hpos
          split at h
          · simp [JsDetectResult.failure] at h
          · rename_i hq
            refine ⟨c, x, rfl, rfl, by simpa using hblank, by simpa using hpos, by simpa using hq, ?_⟩
            intro hnil
            simp [hnil, JsDetectResult.failure] at h
    · simp [JsDetectResult.failure] at h
  · intro h
    unfold processCampaignDetectJs at h
    split at h
    · rename_i c x
      split at h
      · simp [JsDetectResult.failure] at h
      · rename_i hblank
        split at h
        · simp [JsDetectResult.failure] at h
        · rename_i hpos
          split at h
          · simp [JsDetectResult.failure] at h
          · rename_i hq
            refine ⟨c, x, rfl, rfl, by simpa using hblank, by simpa using hpos, by simpa using hq, ?_⟩
            intro hnil
            simp [hnil, JsDetectResult.failure] at h
    · simp [JsDetectResult.failure] at h
  · intro item rest running product others hsel hfail
    simp [prepareLoop, hsel, hfail]

/-- C14, the code at the failing input. The total NaN is a value of type number for which
`NaN <= 0` is false, so it passes the guard that raises Total amount must be a positive
number: for the stored code SAVE10PC the promotion code stage answers success true with
the amounts NaN, and so does the campaign stage for the category toys, where the
specification has success false for a total that is not a number. A missing or blank
code, a total that is a string, the total 0, an unknown code, a failing lookup and a
category without campaign all give success false. -/
theorem discount_stage_accepts_nan :
    processPromotionCodeDetectJs 5 exampleStore false (.str "SAVE10PC") (.num .nan)
        = { success := true, message := .applied, originalAmount := some .nan,
            discountAmount := some .nan, finalAmount := some .nan }
      ∧ processCampaignDetectJs 5 campaignStore false (.str "toys") (.num .nan)
        = { success := true, message := .applied, originalAmount := some .nan,
            discountAmount := some .nan, finalAmount := some .nan }
      ∧ (processPromotionCodeDetectJs 5 exampleStore false .undefined (.num (.finite 100))).success = false
      ∧ (processPromotionCodeDetectJs 5 exampleStore false (.str " ") (.num (.finite 100))).success = false
      ∧ (processPromotionCodeDetectJs 5 exampleStore false (.str "SAVE10PC") (.str "100")).success = false
      ∧ (processPromotionCodeDetectJs 5 exampleStore false (.str "SAVE10PC") (.num (.finite 0))).success = false
      ∧ (processPromotionCodeDetectJs 5 exampleStore false (.str "UNKNOWN1") (.num (.finite 100))).success = false
      ∧ (processPromotionCodeDetectJs 5 exampleStore true (.str "SAVE10PC") (.num (.finite 100))).success = false
      ∧ (processCampaignDetectJs 5 campaignStore false (.str "books") (.num (.finite 100))).success = false := by
  decide!

/-! ## C15, C16: the order a receipt refers to -/

/-- A successful `processCartToOrder` appends one order row with the next order id, the
customer of the request and the clock reading. -/
theorem processCartToOrder_orders_ok (now : Nat) (s : Store) (body : Body)
    (hok : (processCartToOrder now s body).2 = none) :
    ∃ data, (processCartToOrder now s body).1.orders
      = s.orders ++ [{ idorders := s.nextOrderId, idcustomer := body.idcustomer,
                       order := data, time := now }] := by
  unfold processCartToOrder at hok ⊢
  by_cases hv : validAssemblyBody body = true
  swap
  · simp [hv] at hok
  rw [if_pos hv] at hok ⊢
  cases hsel : selectUsers s body.idcustomer with
  | nil => simp [hsel] at hok
  | cons user others =>
    simp only [hsel] at hok ⊢
    cases hcart : user.cart with
    | none => simp [hcart] at hok
    | some cart =>
      cases cart with
      | nil => simp [hcart] at hok
      | cons item rest =>
        simp only [hcart] at hok ⊢
        have hframe := assembleLoop_frame (item :: rest) s [] 0
        cases heq : assembleLoop s (item :: rest) [] 0 with
        | mk s1 res =>
          rw [heq] at hframe
          simp only at hframe
          cases res with
          | error r => simp [heq] at hok
          | ok pr =>
            simp only [heq]
            exact ⟨.arr pr.1, by simp only [setCart, insertOrder, hframe.2.1, hframe.2.2.2.2.2.1]⟩

/-- The choice made by `latestOrder` is one that the query admits. -/
theorem latestOrder_choice : LatestChoice latestOrder := by
  refine ⟨rfl, ?_⟩
  intro rows
  induction rows with
  | nil => intro h; exact absurd rfl h
  | cons o rest ih =>
    intro _
    cases hrest : rest with
    | nil =>
      refine ⟨o, by simp [latestOrder], List.mem_cons_self _ _, ?_⟩
      intro o1 ho1
      simp only [List.mem_singleton] at ho1
      rw [ho1]
    | cons o2 rest2 =>
      obtain ⟨best, hbest, hmem, hmax⟩ := ih (by rw [hrest]; simp)
      rw [hrest] at hbest hmem hmax
      by_cases hlt : o.time < best.time
      · refine ⟨best, by rw [latestOrder, hbest]; simp [hlt], List.mem_cons_of_mem _ hmem, ?_⟩
        intro o1 ho1
        rcases List.mem_cons.mp ho1 with h1 | h1
        · rw [h1]; exact Nat.le_of_lt hlt
        · exact hmax o1 h1
      · refine ⟨o, by rw [latestOrder, hbest]; simp [hlt], List.mem_cons_self _ _, ?_⟩
        intro o1 ho1
        rcases List.mem_cons.mp ho1 with h1 | h1
        · rw [h1]
        · exact Nat.le_trans (hmax o1 h1) (Nat.le_of_not_lt hlt)

/-- The handler `pay` is `payWith` for the choice made by `latestOrder`. -/
theorem payWith_latestOrder (now : Nat) (s : Store) (req : Body) :
    payWith latestOrder now s req = pay now s req := rfl

/-- Every admitted choice returns the row appended last when every other row is older. -/
theorem choice_append_new {pick : List Order → Option Order} (hpick : LatestChoice pick)
    (l : List Order) (n : Order) (h : ∀ o ∈ l, o.time < n.time) : pick (l ++ [n]) = some n := by
  obtain ⟨o, ho, hmem, hmax⟩ := hpick.2 (l ++ [n]) (by simp)
  rcases List.mem_append.mp hmem with hl | hn
  · have h1 := h o hl
    have h2 := hmax n (by simp)
    omega
  · simp only [List.mem_singleton] at hn
    rw [ho, hn]

/-- C15 as stated fails when an earlier order of the customer carries the time of the new
one. Customer 1 orders one piece of product 1 through `/api/order/add` at time 5 (order 2)
and pays the cart at time 5: the assembly creates order 3, the rows of greatest time of
customer 1 are orders 2 and 3, the lookup by time takes the first of them, which the query
admits, and the receipt refers to order 2. -/
theorem pay_receipt_order_counterexample :
    (orderAdd 5 exampleStore 1 1 1).2 = .orderAdded
      ∧ (pay 5 (orderAdd 5 exampleStore 1 1 1).1 (examplePay none)).2
        = .paymentSuccessful { exampleReceipt with order_id := some 2, total_amount := some 20 }
      ∧ (pay 5 (orderAdd 5 exampleStore 1 1 1).1 (examplePay none)).1.orders.map
          (fun o => (o.idorders, o.idcustomer, o.time))
        = [(1, 2, 3), (2, 1, 5), (3, 1, 5)]
      ∧ LatestChoice latestOrder :=
  ⟨by decide!, by decide!, by decide!, latestOrder_choice⟩

/-- C15, amended. For every successful pay of a customer all of whose earlier orders have a
creation time before that of the payment, and whichever row of greatest time the lookup of
`getOrderById` returns, the receipt refers to the order that the assembly step of this
payment created (the one row added to table orders, which is then the customer's most
recent order), and its customer is the paying customer. -/
theorem pay_receipt_order (pick : List Order → Option Order) (hpick : LatestChoice pick)
    (now : Nat) (s : Store) (req : Body) (receipt : Receipt)
    (h : (payWith pick now s req).2 = .paymentSuccessful receipt)
    (hearlier : ∀ o ∈ s.orders, o.idcustomer = req.idcustomer → o.time < now) :
    receipt.order_id = some s.nextOrderId
      ∧ (∃ data, (payWith pick now s req).1.orders
          = s.orders ++ [{ idorders := s.nextOrderId, idcustomer := req.idcustomer,
                           order := data, time := now }])
      ∧ receipt.customer_id = req.idcustomer := by
  unfold payWith at h ⊢
  split at h
  swap
  · simp at h
  rename_i hvalid
  rw [if_pos hvalid]
  cases hprep : preparePaymentReceipt now s req.idcustomer with
  | error e => simp [hprep] at h
  | ok C =>
    simp only [hprep] at h ⊢
    by_cases hpos : jsPositive (payTotal now s req.promotionCode C) = true
    swap
    · simp [simulatePayPalPayment, hpos] at h
    simp only [simulatePayPalPayment, hpos, if_true] at h ⊢
    have hnot := processCartToOrder_not_paymentSuccessful now s req receipt
    cases hget : getOrderByIdWith pick (processCartToOrder now s req).1 req
        (processCartToOrder now s req).2 with
    | raised =>
      simp only [hget] at h
      cases hsent : (processCartToOrder now s req).2 with
      | none => simp [hsent] at h
      | some r =>
        rw [hsent] at h hnot
        simp only [Option.getD_some] at h
        exact absurd (congrArg some h) hnot
    | responded r =>
      simp only [hget] at h
      subst h
      unfold getOrderByIdWith at hget
      split at hget
      · split at hget
        · split at hget <;> simp at hget
        · simp at hget
      · split at hget <;> simp at hget
    | value order_id =>
      simp only [hget] at h ⊢
      cases hsent : (processCartToOrder now s req).2 with
      | some r =>
        rw [hsent] at h hnot
        simp only [Option.getD_some] at h
        exact absurd (congrArg some h) hnot
      | none =>
        rw [hsent] at h
        simp only [Option.getD_none, Response.paymentSuccessful.injEq] at h
        subst h
        obtain ⟨data, horders⟩ := processCartToOrder_orders_ok now s req hsent
        have hsel : selectOrders (processCartToOrder now s req).1 req.idcustomer
            = selectOrders s req.idcustomer
              ++ [{ idorders := s.nextOrderId, idcustomer := req.idcustomer,
                    order := data, time := now }] := by
          simp [selectOrders, horders, List.filter_append]
        have hlatest := choice_append_new hpick (selectOrders s req.idcustomer)
          { idorders := s.nextOrderId, idcustomer := req.idcustomer, order := data, time := now }
          (by
            intro o ho
            have hmem := List.mem_filter.mp ho
            exact hearlier o hmem.1 (by simpa using hmem.2))
        refine ⟨?_, ⟨data, ?_⟩, rfl⟩
        · unfold getOrderByIdWith at hget
          rw [hsel, hlatest, hsent] at hget
          split at hget
          · simp only [OrderIdOutcome.value.injEq] at hget
            simp [savePaymentReceipt, ← hget]
          · simp at hget
        · simp only [savePaymentReceipt, horders]

/-- C15 on a customer with an earlier order: customer 1 orders one piece of product 1 through
`/api/order/add` at time 4 (order 2) and pays the cart at time 5; the assembly creates
order 3 and the receipt refers to it. -/
theorem pay_receipt_order_witness :
    (selectOrders (orderAdd 4 exampleStore 1 1 1).1 1).map (fun o => (o.idorders, o.time))
        = [(2, 4)]
      ∧ (pay 5 (orderAdd 4 exampleStore 1 1 1).1 (examplePay (some "SAVE10PC"))).2
        = .paymentSuccessful { exampleReceipt with order_id := some 3 }
      ∧ (orderAdd 4 exampleStore 1 1 1).1.nextOrderId = 3
      ∧ ({ exampleReceipt with order_id := some 3 } : Receipt).order_id
        = some (orderAdd 4 exampleStore 1 1 1).1.nextOrderId :=
  have h := pay_receipt_order latestOrder latestOrder_choice 5 (orderAdd 4 exampleStore 1 1 1).1
    (examplePay (some "SAVE10PC")) { exampleReceipt with order_id := some 3 }
    (by decide!) (by decide!)
  ⟨by decide!, by decide!, by decide!, h.1⟩

/-- C16, the code at the failing input: customer 1 owns the earlier order 1 and has carted
nine pieces of product 2, of which 4 are in stock. The total 56 is charged, the assembly
then answers 400 Not enough quantity in stock and returns without raising, so `/api/pay`
goes on: `getOrderById` finds the earlier order 1 and a receipt of 56 referring to it is
stored, although no order was created and the answer is the 400 of the assembly. Without
an earlier order the receipt is stored all the same, with no order id. The specification
has no receipt in both cases. -/
theorem pay_receipt_after_failed_assembly :
    preparePaymentReceipt 5 earlierOrderStore 1 = .ok 56
      ∧ (processCartToOrder 5 earlierOrderStore (examplePay none)).2 = some (.notEnoughStockFor 2)
      ∧ (pay 5 earlierOrderStore (examplePay none)).2 = .notEnoughStockFor 2
      ∧ (pay 5 earlierOrderStore (examplePay none)).1.orders = earlierOrderStore.orders
      ∧ (pay 5 earlierOrderStore (examplePay none)).1.payments = [strayReceipt (some 1)]
      ∧ (pay 5 shortStockStore (examplePay none)).2 = .notEnoughStockFor 2
      ∧ (pay 5 shortStockStore (examplePay none)).1.payments = [strayReceipt none] := by
  decide!

/-! ## C17: the simulated charge -/

/-- C17. The simulated charge is a function of its argument alone: it approves exactly when
the total is above 0, the approval carrying the id SIMULATED_PAYMENT_ID, the state approved,
the method paypal and the total, currency and description of the argument; for a total that
is at most 0 (or undefined) it fails with Simulated payment error; equal arguments give
equal outcomes. -/
theorem simulated_charge_deterministic (d : PaymentData) :
    (∀ t, d.total = some t → 0 < t →
        simulatePayPalPayment d
          = .ok { id := "SIMULATED_PAYMENT_ID", state := "approved", payment_method := "paypal",
                  total := some t, currency := d.currency, description := d.description })
      ∧ (∀ t, d.total = some t → t ≤ 0 → simulatePayPalPayment d = .error .simulatedPaymentError)
      ∧ (d.total = none → simulatePayPalPayment d = .error .simulatedPaymentError)
      ∧ (∀ p, simulatePayPalPayment d = .ok p → ∃ t, d.total = some t ∧ 0 < t)
      ∧ ∀ d1, d1 = d → simulatePayPalPayment d1 = simulatePayPalPayment d := by
  refine ⟨?_, ?_, ?_, ?_, ?_⟩
  · intro t ht hpos
    simp [simulatePayPalPayment, ht, jsPositive, hpos]
  · intro t ht hle
    simp [simulatePayPalPayment, ht, jsPositive, not_lt.mpr hle]
  · intro hnone
    simp [simulatePayPalPayment, hnone, jsPositive]
  · intro p hp
    cases ht : d.total with
    | none => simp [simulatePayPalPayment, ht, jsPositive] at hp
    | some t =>
      refine ⟨t, rfl, ?_⟩
      by_contra hnot
      simp [simulatePayPalPayment, ht, jsPositive, hnot] at hp
  · intro d1 h
    rw [h]

/-- C17 on a charge of 20 USD, which is approved, and on a charge of 0, which is refused. -/
theorem simulated_charge_deterministic_witness :
    simulatePayPalPayment { total := some 20, currency := "USD", description := "order 0001" }
        = .ok { id := "SIMULATED_PAYMENT_ID", state := "approved", payment_method := "paypal",
                total := some 20, currency := "USD", description := "order 0001" }
      ∧ simulatePayPalPayment { total := some 0, currency := "USD", description := "order 0001" }
        = .error .simulatedPaymentError :=
  ⟨(simulated_charge_deterministic
      { total := some 20, currency := "USD", description := "order 0001" }).1 20 rfl (by decide!),
    (simulated_charge_deterministic
      { total := some 0, currency := "USD", description := "order 0001" }).2.1 0 rfl (by decide!)⟩

/-! ## C18: quantity edits of an order -/

/-- C18 as stated fails when the matched item is not the first item: the order of customer 2
holds one piece of product 1 and then three pieces of product 2, which has 10 in stock.
Setting product 2 to five pieces succeeds and stores the quantity 5, but the stock is
computed with `cart[0].quantity`, the quantity 1 of the first item, and becomes
10 - (5 - 1) = 6 where the previous quantity 3 of the matched item gives 10 - (5 - 3) = 8:
stock plus ordered quantity goes from 13 to 11. -/
theorem order_update_uses_first_item :
    (orderUpdate twoItemOrderStore 2 2 5).2
        = .orderUpdated [.obj { productId := 1, quantity := 1 }, .obj { productId := 2, quantity := 5 }]
      ∧ stock twoItemOrderStore 2 = some 10
      ∧ stock (orderUpdate twoItemOrderStore 2 2 5).1 2 = some 6
      ∧ (6 : Int) ≠ 10 - (5 - 3) := by
  decide!

/-- The order rows that the API writes cannot be edited: when the first order row of the
customer holds the bare pair stored by `/api/order/add`, or the strings stored by
`processCartToOrder`, `/api/order/update` does not answer with an updated list. -/
theorem orderUpdate_api_rows_fail (s : Store) (c o q : Int) (row : Order) (rest : List Order)
    (hrow : selectOrders s c = row :: rest)
    (hshape : (∃ item, row.order = .single item)
      ∨ ∃ items : List CartItem, row.order = .arr (items.map OrderEntry.text))
    (uc : List OrderEntry) : (orderUpdate s c o q).2 ≠ .orderUpdated uc := by
  intro h
  unfold orderUpdate at h
  by_cases hv : 1 ≤ c ∧ 1 ≤ o ∧ 0 ≤ q
  · simp only [hv, and_self, if_true] at h
    cases hp : selectProducts s o with
    | nil => simp [hp] at h
    | cons product others =>
      simp only [hp] at h
      by_cases hq : q > product.quantity
      · simp [hq] at h
      · simp only [hq, if_false, hrow] at h
        rcases hshape with ⟨item, hsingle⟩ | ⟨items, harr⟩
        · simp [hsingle] at h
        · have hany : (items.map OrderEntry.text).any (entryMatches o) = false := by
            rw [Bool.eq_false_iff]
            intro hh
            obtain ⟨e, he, hm⟩ := List.any_eq_true.mp hh
            obtain ⟨item, _, rfl⟩ := List.mem_map.mp he
            simp [entryMatches] at hm
          simp [harr, hany] at h
  · simp [hv] at h

/-- C18, amended. For every successful `/api/order/update` on an order whose first item is
the item of the given product id, the stored quantity of that item becomes newQuantity and
the stock of the product becomes stock - (newQuantity - previousQuantity), previousQuantity
being the quantity that the item held before, so that the stock plus the quantity of that
item is conserved. -/
theorem order_update_first_item (s : Store) (c o q st : Int) (uc : List OrderEntry)
    (row : Order) (rest : List Order) (first : CartItem) (tail : List OrderEntry)
    (h : (orderUpdate s c o q).2 = .orderUpdated uc)
    (hst : stock s o = some st)
    (hrow : selectOrders s c = row :: rest)
    (hcart : row.order = .arr (.obj first :: tail))
    (hfirst : first.productId = o) :
    uc = .obj { first with quantity := q } :: tail.map (updateEntry o q)
      ∧ stock (orderUpdate s c o q).1 o = some (st - (q - first.quantity))
      ∧ ∀ st1, stock (orderUpdate s c o q).1 o = some st1 → st1 + q = st + first.quantity := by
  obtain ⟨product, others, hp, hpq⟩ := select_of_stock hst
  have hmain : uc = .obj { first with quantity := q } :: tail.map (updateEntry o q)
      ∧ stock (orderUpdate s c o q).1 o = some (st - (q - first.quantity)) := by
    unfold orderUpdate at h ⊢
    by_cases hv : 1 ≤ c ∧ 1 ≤ o ∧ 0 ≤ q
    · simp only [hv, and_self, if_true, hp] at h ⊢
      by_cases hq : q > product.quantity
      · simp [hq] at h
      · simp only [hq, if_false, hrow, hcart] at h ⊢
        have hany : (OrderEntry.obj first :: tail).any (entryMatches o) = true := by
          simp [entryMatches, hfirst]
        simp only [hany, if_true, List.head?_cons, Response.orderUpdated.injEq] at h ⊢
        refine ⟨?_, ?_⟩
        · rw [← h]
          simp [updateEntry, hfirst]
        · rw [stock_setProductQuantity, if_pos rfl]
          have hs : stock (setOrders s c (.arr (List.map (updateEntry o q) (OrderEntry.obj first :: tail)))) o
              = stock s o := rfl
          rw [hs, hst, hpq]
          rfl
    · simp [hv] at h
  refine ⟨hmain.1, hmain.2, ?_⟩
  intro st1 h1
  rw [hmain.2] at h1
  have := Option.some.inj h1
  omega

/-- C18 on a store in which the first order of customer 2 starts with three pieces of product
2, which has 10 in stock: setting product 2 to five pieces stores 5 and leaves the stock
10 - (5 - 3) = 8. -/
theorem order_update_first_item_witness :
    (orderUpdate severalOrdersStore 2 2 5).2
        = .orderUpdated [.obj { productId := 2, quantity := 5 }]
      ∧ stock severalOrdersStore 2 = some 10
      ∧ stock (orderUpdate severalOrdersStore 2 2 5).1 2 = some 8 :=
  have h := order_update_first_item severalOrdersStore 2 2 5 10
    [.obj { productId := 2, quantity := 5 }]
    { idorders := 1, idcustomer := 2,
      order := .arr [.obj { productId := 2, quantity := 3 }], time := 3 }
    [{ idorders := 3, idcustomer := 2,
       order := .arr [.obj { productId := 1, quantity := 1 }], time := 5 }]
    { productId := 2, quantity := 3 } []
    (by decide!) (by decide!) (by decide!) rfl rfl
  ⟨by decide!, by decide!, h.2.1⟩

/-! ## C19: order completion -/

/-- What a completion does in each case, for a validated request: without an open order of
that id and customer it answers 404 and changes nothing; it succeeds exactly when the item
list of the order is formatted to one expression that the column takes, and then removes
the rows with that id and customer from table orders and adds one row with the customer,
that expression and the creation time to table orders_copmleted; in every other case it
answers 500 and changes nothing. -/
theorem orderComplete_cases (jsonColumn : Bool) (s : Store) (customerId orderId : Int)
    (hv : 1 ≤ orderId ∧ 1 ≤ customerId) :
    (selectOrder s orderId customerId = [] →
        orderComplete jsonColumn s customerId orderId = (s, .orderNotFound))
      ∧ (∀ order others, selectOrder s orderId customerId = order :: others →
          (∀ details, formatOrderParameter order.order = [details] →
              insertAccepts jsonColumn details = true →
              orderComplete jsonColumn s customerId orderId
                = ({ s with
                      orders_copmleted := s.orders_copmleted ++
                        [{ idcustomer := customerId, order_details := details,
                           order_time := order.time }]
                      orders := s.orders.filter
                        (fun o => ¬ (o.idorders = orderId ∧ o.idcustomer = customerId)) },
                    .orderCompleted))
          ∧ ((∀ details, formatOrderParameter order.order = [details] →
                insertAccepts jsonColumn details = false) →
              orderComplete jsonColumn s customerId orderId = (s, .serverError))) := by
  unfold orderComplete
  rw [if_pos hv]
  refine ⟨fun hsel => by simp [hsel], ?_⟩
  intro order others hsel
  simp only [hsel]
  refine ⟨?_, ?_⟩
  · intro details hfmt hacc
    simp [hfmt, hacc]
  · intro hno
    cases hfmt : formatOrderParameter order.order with
    | nil => rfl
    | cons details rest =>
      cases rest with
      | nil => simp [hno details hfmt]
      | cons d2 rest2 => rfl

/-- C19, the code at the failing input. Customer 1 turns the cart of two pieces of product 1
into order 2, whose item list holds the one string of that pair; `/api/order/complete`
hands the parsed list to the placeholder, the formatter writes its one element, and the
completion succeeds with a row that holds the pair alone, not the item list. The order of
two items made from the compound cart and the order made by `/api/order/add` are
formatted to two expressions: the INSERT is refused, the handler answers 500 and moves
nothing. Each holds whether or not order_details is a JSON column. -/
theorem order_complete_formats_parameter :
    (processCartToOrder 5 exampleStore exampleBody).1.orders
        = exampleStore.orders ++
            [{ idorders := 2, idcustomer := 1,
               order := .arr [.text { productId := 1, quantity := 2 }], time := 5 }]
      ∧ (∀ jsonColumn,
          (orderComplete jsonColumn (processCartToOrder 5 exampleStore exampleBody).1 1 2).2
              = .orderCompleted
            ∧ (orderComplete jsonColumn (processCartToOrder 5 exampleStore exampleBody).1 1 2).1.orders_copmleted
              = [{ idcustomer := 1, order_details := .pairText { productId := 1, quantity := 2 },
                   order_time := 5 }])
      ∧ (processCartToOrder 5 compoundStore exampleBody).1.orders
        = [{ idorders := 1, idcustomer := 1,
             order := .arr [.text { productId := 1, quantity := 2 },
                            .text { productId := 2, quantity := 1 }], time := 5 }]
      ∧ (∀ jsonColumn,
          orderComplete jsonColumn (processCartToOrder 5 compoundStore exampleBody).1 1 1
            = ((processCartToOrder 5 compoundStore exampleBody).1, .serverError))
      ∧ (orderAdd 4 exampleStore 1 1 1).2 = .orderAdded
      ∧ (∀ jsonColumn,
          orderComplete jsonColumn (orderAdd 4 exampleStore 1 1 1).1 1 2
            = ((orderAdd 4 exampleStore 1 1 1).1, .serverError)) := by
  refine ⟨by decide!, ?_, by decide!, ?_, by decide!, ?_⟩
  · intro jsonColumn
    cases jsonColumn <;> exact ⟨by decide!, by decide!⟩
  · intro jsonColumn
    cases jsonColumn <;> decide!
  · intro jsonColumn
    cases jsonColumn <;> decide!

/-! ## C20: completing a return request -/

/-- C20 as stated fails when the pair has several requests: customer 2 asks for the return of
order 1, the request is approved, and customer 2 asks a second time; the second request is
pending, yet the completion succeeds (it finds the approved one) and writes completed to
every request of the pair, the pending one included. -/
theorem return_complete_counterexample :
    mixedReturnStore.return_requests.map ReturnRequest.status = ["approved", "pending"]
      ∧ (returnComplete 9 mixedReturnStore exampleCompletion).2 = .returnCompleted
      ∧ (returnComplete 9 mixedReturnStore exampleCompletion).1.return_requests.map ReturnRequest.status
          = ["completed", "completed"] := by
  decide!

/-- C20, amended. When no return request of the customer and order has the status approved
(each one is pending, rejected or completed, or there is none), the completion fails, with
404 or with a validation error, and the store is unchanged, so every status stays as it
was. A validated completion succeeds exactly when some request of the pair is approved, and
then every request of the pair has the status completed. -/
theorem return_complete_requires_approved (now : Nat) (s : Store) (r : ReturnCompletion) :
    ((∀ q ∈ selectReturns s r.customerId r.orderId, q.status ≠ "approved") →
        returnComplete now s r = (s, .returnNotApproved)
          ∨ returnComplete now s r = (s, .validation))
      ∧ ((returnComplete now s r).2 = .returnCompleted →
          ∃ q ∈ selectReturns s r.customerId r.orderId, q.status = "approved")
      ∧ (validReturnCompletion r = true →
          (∃ q ∈ selectReturns s r.customerId r.orderId, q.status = "approved") →
          (returnComplete now s r).2 = .returnCompleted
            ∧ ∀ q ∈ selectReturns (returnComplete now s r).1 r.customerId r.orderId,
                q.status = "completed") := by
  have hnil : (∀ q ∈ selectReturns s r.customerId r.orderId, q.status ≠ "approved") →
      (selectReturns s r.customerId r.orderId).filter (fun q => q.status = "approved") = [] := by
    intro h
    rw [List.filter_eq_nil_iff]
    intro q hq
    simpa using h q hq
  refine ⟨?_, ?_, ?_⟩
  · intro h
    unfold returnComplete
    by_cases hv : validReturnCompletion r = true
    · left
      rw [if_pos hv, hnil h]
    · right
      rw [if_neg hv]
  · intro hok
    by_contra hnone
    have h : ∀ q ∈ selectReturns s r.customerId r.orderId, q.status ≠ "approved" := by
      intro q hq hst
      exact hnone ⟨q, hq, hst⟩
    unfold returnComplete at hok
    by_cases hv : validReturnCompletion r = true
    · rw [if_pos hv, hnil h] at hok
      simp at hok
    · rw [if_neg hv] at hok
      simp at hok
  · intro hv hex
    obtain ⟨q0, hq0, hst0⟩ := hex
    have hmem : q0 ∈ (selectReturns s r.customerId r.orderId).filter (fun q => q.status = "approved") :=
      List.mem_filter.mpr ⟨hq0, by simpa using hst0⟩
    unfold returnComplete
    rw [if_pos hv]
    cases hf : (selectReturns s r.customerId r.orderId).filter (fun q => q.status = "approved") with
    | nil => rw [hf] at hmem; simp at hmem
    | cons a rest =>
      refine ⟨rfl, ?_⟩
      intro q hq
      simp only [selectReturns, List.mem_filter, List.mem_map] at hq
      obtain ⟨⟨q1, _, hq1⟩, hpair⟩ := hq
      by_cases hp : q1.idcustomer = r.customerId ∧ q1.idorder = r.orderId
      · rw [if_pos hp] at hq1
        rw [← hq1]
      · rw [if_neg hp] at hq1
        rw [← hq1] at hpair
        exact absurd (by simpa using hpair) hp

/-- C20 on the spec scenario: completing while the only request is pending fails with 404 and
the status stays pending; once the request is approved the completion succeeds and the
status is completed. -/
theorem return_complete_requires_approved_witness :
    pendingReturnStore.return_requests.map ReturnRequest.status = ["pending"]
      ∧ returnComplete 9 pendingReturnStore exampleCompletion
          = (pendingReturnStore, .returnNotApproved)
      ∧ (returnComplete 9 (returnSetStatus pendingReturnStore 2 1 "approved").1 exampleCompletion).2
          = .returnCompleted
      ∧ (returnComplete 9 (returnSetStatus pendingReturnStore 2 1 "approved").1
            exampleCompletion).1.return_requests.map ReturnRequest.status = ["completed"] :=
  have h1 := (return_complete_requires_approved 9 pendingReturnStore exampleCompletion).1
    (by decide!)
  have h2 := (return_complete_requires_approved 9
    (returnSetStatus pendingReturnStore 2 1 "approved").1 exampleCompletion).2.2
    (by decide!)
    ⟨{ idcustomer := 2, idorder := 1, reason := "broken", description := none, request_date := 6,
       status := "approved", completion_date := none }, by decide!, by decide!⟩
  ⟨by decide!, h1.resolve_right (by decide!), h2.1, by decide!⟩

/-! ## C21 to C23: the return workflow as a state machine -/

/-- What `returnCreate` does to table return_requests: nothing, or one more pending row. -/
theorem returnCreate_requests (now : Nat) (s : Store) (c o : Int) (reason : String)
    (d : Option String) :
    ((returnCreate now s c o reason d).2 ≠ .returnCreated ∧ (returnCreate now s c o reason d).1 = s)
      ∨ ((returnCreate now s c o reason d).2 = .returnCreated
        ∧ (returnCreate now s c o reason d).1.return_requests
          = s.return_requests ++
              [{ idcustomer := c, idorder := o, reason := reason, description := d,
                 request_date := now, status := "pending", completion_date := none }]) := by
  unfold returnCreate
  split
  · cases hsel : selectOrder s o c with
    | nil => left; simp
    | cons a rest => right; simp
  · left; simp

/-- What `returnSetStatus` does to table return_requests: nothing, or it writes one of the
three admitted statuses to the rows of the pair. -/
theorem returnSetStatus_requests (s : Store) (c o : Int) (status : String) :
    ((returnSetStatus s c o status).2 ≠ .returnStatusUpdated ∧ (returnSetStatus s c o status).1 = s)
      ∨ ((returnSetStatus s c o status).2 = .returnStatusUpdated
        ∧ (status = "pending" ∨ status = "approved" ∨ status = "rejected")
        ∧ (returnSetStatus s c o status).1.return_requests
          = s.return_requests.map (fun r =>
              if r.idcustomer = c ∧ r.idorder = o then { r with status := status } else r)) := by
  unfold returnSetStatus
  split
  · rename_i hv
    cases hsel : selectReturns s c o with
    | nil => left; simp
    | cons a rest => right; exact ⟨by simp, hv.2.2, by simp⟩
  · left; simp

/-- What `returnComplete` does to table return_requests: nothing, or, some row of the pair
being approved, it writes completed to the rows of the pair. -/
theorem returnComplete_requests (now : Nat) (s : Store) (r : ReturnCompletion) :
    ((returnComplete now s r).2 ≠ .returnCompleted ∧ (returnComplete now s r).1 = s)
      ∨ ((returnComplete now s r).2 = .returnCompleted
        ∧ (∃ p ∈ selectReturns s r.customerId r.orderId, p.status = "approved")
        ∧ (returnComplete now s r).1.return_requests
          = s.return_requests.map (fun q =>
              if q.idcustomer = r.customerId ∧ q.idorder = r.orderId then
                { q with status := "completed", completion_date := some now }
              else q)) := by
  unfold returnComplete
  split
  · cases hsel : (selectReturns s r.customerId r.orderId).filter (fun q => q.status = "approved") with
    | nil => left; simp
    | cons a rest =>
      right
      have hmem : a ∈ (selectReturns s r.customerId r.orderId).filter (fun q => q.status = "approved") := by
        rw [hsel]; exact List.mem_cons_self _ _
      have hm := List.mem_filter.mp hmem
      exact ⟨by simp, ⟨a, hm.1, by simpa using hm.2⟩, by simp⟩
  · left; simp

/-- C21 as stated fails when the pair has several requests: from the example store, which has
no return request, customer 2 asks for the return of order 1, the request is approved, and
customer 2 asks once more; the completion then moves the second request, the one at
position 1, from pending straight to completed. -/
theorem return_pending_to_completed_counterexample :
    exampleStore.return_requests = []
      ∧ Relation.ReflTransGen ReturnStep exampleStore mixedReturnStore
      ∧ (mixedReturnStore.return_requests[1]?).map ReturnRequest.status = some "pending"
      ∧ ((returnComplete 9 mixedReturnStore exampleCompletion).1.return_requests[1]?).map
          ReturnRequest.status = some "completed" :=
  ⟨by decide!,
    ((Relation.ReflTransGen.single (ReturnStep.create 6 exampleStore 2 1 "broken" none)).tail
      (ReturnStep.setStatus _ 2 1 "approved")).tail (ReturnStep.create 8 _ 2 1 "broken again" none),
    by decide!, by decide!⟩

/-- C21, amended. In every step of the return workflow (create, setStatus, complete, each with
its own validation), a request that has the status completed after the step either had it
before the step, or the step is a completion for its customer and order run while some
request of that customer and order is approved. So setStatus never sets completed, a new
request never starts completed, and a pending or rejected request reaches completed only
through a completion that finds an approved request of the same pair. -/
theorem return_completed_only_by_complete (s s1 : Store) (hstep : ReturnStep s s1) (i : Nat)
    (q1 : ReturnRequest) (hq1 : s1.return_requests[i]? = some q1)
    (hdone : q1.status = "completed") :
    ∃ q, s.return_requests[i]? = some q ∧ q.idcustomer = q1.idcustomer ∧ q.idorder = q1.idorder
      ∧ (q.status = "completed"
        ∨ ∃ now r, s1 = (returnComplete now s r).1 ∧ r.customerId = q.idcustomer
            ∧ r.orderId = q.idorder
            ∧ ∃ p ∈ selectReturns s q.idcustomer q.idorder, p.status = "approved") := by
  cases hstep with
  | create now _ c o reason d =>
    rcases returnCreate_requests now s c o reason d with ⟨_, hsame⟩ | ⟨_, happ⟩
    · rw [hsame] at hq1
      exact ⟨q1, hq1, rfl, rfl, Or.inl hdone⟩
    · rw [happ, List.getElem?_append] at hq1
      split at hq1
      · exact ⟨q1, hq1, rfl, rfl, Or.inl hdone⟩
      · exfalso
        cases hidx : i - s.return_requests.length with
        | zero =>
          rw [hidx] at hq1
          simp only [List.getElem?_cons_zero, Option.some.injEq] at hq1
          rw [← hq1] at hdone
          simp only at hdone
          exact absurd hdone (by decide)
        | succ n =>
          rw [hidx] at hq1
          simp at hq1
  | setStatus _ c o status =>
    rcases returnSetStatus_requests s c o status with ⟨_, hsame⟩ | ⟨_, hst, hmap⟩
    · rw [hsame] at hq1
      exact ⟨q1, hq1, rfl, rfl, Or.inl hdone⟩
    · rw [hmap, List.getElem?_map] at hq1
      cases hq : s.return_requests[i]? with
      | none => rw [hq] at hq1; simp at hq1
      | some q =>
        rw [hq] at hq1
        simp only [Option.map_some', Option.some.injEq] at hq1
        by_cases hp : q.idcustomer = c ∧ q.idorder = o
        · exfalso
          rw [if_pos hp] at hq1
          rw [← hq1] at hdone
          simp only at hdone
          rcases hst with h | h | h <;> rw [h] at hdone <;> exact absurd hdone (by decide)
        · rw [if_neg hp] at hq1
          subst hq1
          exact ⟨q, rfl, rfl, rfl, Or.inl hdone⟩
  | complete now _ r =>
    rcases returnComplete_requests now s r with ⟨_, hsame⟩ | ⟨_, happ, hmap⟩
    · rw [hsame] at hq1
      exact ⟨q1, hq1, rfl, rfl, Or.inl hdone⟩
    · rw [hmap, List.getElem?_map] at hq1
      cases hq : s.return_requests[i]? with
      | none => rw [hq] at hq1; simp at hq1
      | some q =>
        rw [hq] at hq1
        simp only [Option.map_some', Option.some.injEq] at hq1
        by_cases hp : q.idcustomer = r.customerId ∧ q.idorder = r.orderId
        · rw [if_pos hp] at hq1
          subst hq1
          refine ⟨q, rfl, rfl, rfl, Or.inr ⟨now, r, rfl, hp.1.symm, hp.2.symm, ?_⟩⟩
          rw [hp.1, hp.2]
          exact happ
        · rw [if_neg hp] at hq1
          subst hq1
          exact ⟨q, rfl, rfl, rfl, Or.inl hdone⟩

/-- C21 on the approved request of customer 2 and order 1: the completion step brings it to
completed, and it was approved before the step. -/
theorem return_completed_only_by_complete_witness :
    ((returnSetStatus pendingReturnStore 2 1 "approved").1.return_requests[0]?).map
        ReturnRequest.status = some "approved"
      ∧ ∃ q, (returnSetStatus pendingReturnStore 2 1 "approved").1.return_requests[0]? = some q
          ∧ q.idcustomer = 2 ∧ q.idorder = 1
          ∧ (q.status = "completed"
            ∨ ∃ now r, completedReturnStore
                  = (returnComplete now (returnSetStatus pendingReturnStore 2 1 "approved").1 r).1
                ∧ r.customerId = q.idcustomer ∧ r.orderId = q.idorder
                ∧ ∃ p ∈ selectReturns (returnSetStatus pendingReturnStore 2 1 "approved").1
                    q.idcustomer q.idorder, p.status = "approved") :=
  ⟨by decide!,
    return_completed_only_by_complete (returnSetStatus pendingReturnStore 2 1 "approved").1
      completedReturnStore (ReturnStep.complete 9 _ exampleCompletion) 0
      { idcustomer := 2, idorder := 1, reason := "broken", description := none, request_date := 6,
        status := "completed", completion_date := some 9 }
      (by decide!) (by decide!)⟩

/-- C22 as stated fails for setStatus: the request of customer 2 and order 1 is completed,
and a setStatus with pending is accepted and puts it back to pending. -/
theorem return_completed_not_terminal_counterexample :
    completedReturnStore.return_requests.map ReturnRequest.status = ["completed"]
      ∧ (returnSetStatus completedReturnStore 2 1 "pending").2 = .returnStatusUpdated
      ∧ (returnSetStatus completedReturnStore 2 1 "pending").1.return_requests.map ReturnRequest.status
          = ["pending"] := by
  decide!

/-- C22, amended. Once a return request has the status completed, no create, no complete and
no setStatus for another customer or order changes its status; a setStatus for its own
customer and order that is accepted overwrites it with the given status (pending, approved
or rejected), so completed is terminal for complete and create only. -/
theorem return_completed_kept (s : Store) (i : Nat) (q : ReturnRequest)
    (hq : s.return_requests[i]? = some q) (hdone : q.status = "completed") :
    (∀ now c o reason d,
        ((returnCreate now s c o reason d).1.return_requests[i]?).map ReturnRequest.status
          = some "completed")
      ∧ (∀ now r,
        ((returnComplete now s r).1.return_requests[i]?).map ReturnRequest.status = some "completed")
      ∧ (∀ c o status, (c ≠ q.idcustomer ∨ o ≠ q.idorder) →
        ((returnSetStatus s c o status).1.return_requests[i]?).map ReturnRequest.status
          = some "completed")
      ∧ ∀ status, (returnSetStatus s q.idcustomer q.idorder status).2 = .returnStatusUpdated →
        ((returnSetStatus s q.idcustomer q.idorder status).1.return_requests[i]?).map
          ReturnRequest.status = some status := by
  have hlt : i < s.return_requests.length := by
    by_contra hge
    rw [List.getElem?_eq_none (not_lt.mp hge)] at hq
    exact Option.noConfusion hq
  refine ⟨?_, ?_, ?_, ?_⟩
  · intro now c o reason d
    rcases returnCreate_requests now s c o reason d with ⟨_, hsame⟩ | ⟨_, happ⟩
    · rw [hsame, hq]
      simp [hdone]
    · rw [happ, List.getElem?_append, if_pos hlt, hq]
      simp [hdone]
  · intro now r
    rcases returnComplete_requests now s r with ⟨_, hsame⟩ | ⟨_, _, hmap⟩
    · rw [hsame, hq]
      simp [hdone]
    · rw [hmap, List.getElem?_map, hq]
      by_cases hp : q.idcustomer = r.customerId ∧ q.idorder = r.orderId
      · simp [hp]
      · simp [hp, hdone]
  · intro c o status hother
    rcases returnSetStatus_requests s c o status with ⟨_, hsame⟩ | ⟨_, _, hmap⟩
    · rw [hsame, hq]
      simp [hdone]
    · rw [hmap, List.getElem?_map, hq]
      have hp : ¬ (q.idcustomer = c ∧ q.idorder = o) := by
        rintro ⟨h1, h2⟩
        rcases hother with h | h
        · exact h h1.symm
        · exact h h2.symm
      simp [hp, hdone]
  · intro status hok
    rcases returnSetStatus_requests s q.idcustomer q.idorder status with ⟨hne, _⟩ | ⟨_, _, hmap⟩
    · exact absurd hok hne
    · rw [hmap, List.getElem?_map, hq]
      simp

/-- C22 on the completed request of customer 2 and order 1: a second completion and a new
request leave it completed, while setStatus with rejected rewrites it. -/
theorem return_completed_kept_witness :
    ((returnComplete 10 completedReturnStore exampleCompletion).1.return_requests[0]?).map
        ReturnRequest.status = some "completed"
      ∧ ((returnCreate 10 completedReturnStore 2 1 "again" none).1.return_requests[0]?).map
        ReturnRequest.status = some "completed"
      ∧ ((returnSetStatus completedReturnStore 2 1 "rejected").1.return_requests[0]?).map
        ReturnRequest.status = some "rejected" :=
  have h := return_completed_kept completedReturnStore 0
    { idcustomer := 2, idorder := 1, reason := "broken", description := none, request_date := 6,
      status := "completed", completion_date := some 9 } (by decide!) (by decide!)
  ⟨h.2.1 10 exampleCompletion, h.1 10 2 1 "again" none, h.2.2.2 "rejected" (by decide!)⟩

/-- C23 as stated fails: from the example store, which has no return request, two runs of
create for the existing order 1 of customer 2 both succeed and leave two requests with the
same customer and order. -/
theorem return_requests_not_unique_counterexample :
    exampleStore.return_requests = []
      ∧ Relation.ReflTransGen ReturnStep exampleStore
          (returnCreate 7 pendingReturnStore 2 1 "broken" none).1
      ∧ (returnCreate 7 pendingReturnStore 2 1 "broken" none).2 = .returnCreated
      ∧ (returnCreate 7 pendingReturnStore 2 1 "broken" none).1.return_requests.map
          (fun q => (q.idcustomer, q.idorder)) = [(2, 1), (2, 1)] :=
  ⟨by decide!,
    (Relation.ReflTransGen.single (ReturnStep.create 6 exampleStore 2 1 "broken" none)).tail
      (ReturnStep.create 7 _ 2 1 "broken" none),
    by decide!, by decide!⟩

/-- C23, amended. Return requests are counted, not kept unique: every successful create adds
exactly one pending request for its customer and order, whether or not the pair has
requests already; an unsuccessful create changes nothing; setStatus and complete never add
or remove a request nor change the customer and order of one. So a pair has as many
requests as create succeeded for it, and at most one only while create succeeded at most
once. -/
theorem return_requests_counted (now : Nat) (s : Store) :
    (∀ c o reason d, (returnCreate now s c o reason d).2 = .returnCreated →
        (returnCreate now s c o reason d).1.return_requests
          = s.return_requests ++
              [{ idcustomer := c, idorder := o, reason := reason, description := d,
                 request_date := now, status := "pending", completion_date := none }])
      ∧ (∀ c o reason d, (returnCreate now s c o reason d).2 ≠ .returnCreated →
        (returnCreate now s c o reason d).1 = s)
      ∧ (∀ c o status,
        (returnSetStatus s c o status).1.return_requests.map (fun q => (q.idcustomer, q.idorder))
          = s.return_requests.map (fun q => (q.idcustomer, q.idorder)))
      ∧ ∀ r,
        (returnComplete now s r).1.return_requests.map (fun q => (q.idcustomer, q.idorder))
          = s.return_requests.map (fun q => (q.idcustomer, q.idorder)) := by
  refine ⟨?_, ?_, ?_, ?_⟩
  · intro c o reason d hok
    rcases returnCreate_requests now s c o reason d with ⟨hne, _⟩ | ⟨_, happ⟩
    · exact absurd hok hne
    · exact happ
  · intro c o reason d hne
    rcases returnCreate_requests now s c o reason d with ⟨_, hsame⟩ | ⟨hok, _⟩
    · exact hsame
    · exact absurd hok hne
  · intro c o status
    rcases returnSetStatus_requests s c o status with ⟨_, hsame⟩ | ⟨_, _, hmap⟩
    · rw [hsame]
    · rw [hmap, List.map_map]
      apply List.map_congr_left
      intro q _
      simp only [Function.comp]
      split <;> rfl
  · intro r
    rcases returnComplete_requests now s r with ⟨_, hsame⟩ | ⟨_, _, hmap⟩
    · rw [hsame]
    · rw [hmap, List.map_map]
      apply List.map_congr_left
      intro q _
      simp only [Function.comp]
      split <;> rfl

/-- C23 on the example store: the first create for order 1 of customer 2 adds one request, and
a create for an order that customer 2 does not own changes nothing. -/
theorem return_requests_counted_witness :
    (returnCreate 6 exampleStore 2 1 "broken" none).1.return_requests
        = exampleStore.return_requests ++
            [{ idcustomer := 2, idorder := 1, reason := "broken", description := none,
               request_date := 6, status := "pending", completion_date := none }]
      ∧ (returnCreate 6 exampleStore 2 7 "broken" none).1 = exampleStore :=
  ⟨(return_requests_counted 6 exampleStore).1 2 1 "broken" none (by decide!),
    (return_requests_counted 6 exampleStore).2.1 2 7 "broken" none (by decide!)⟩

/-! ## C24, C28: the cart store -/

theorem users_map_head (us : List User) (c c1 : Int) (f : User → User)
    (hf : ∀ u, (f u).id = u.id) :
    ((us.map (fun u => if u.id = c then f u else u)).filter (fun u => u.id = c1)).head?
      = if c1 = c then ((us.filter (fun u => u.id = c1)).head?).map f
        else (us.filter (fun u => u.id = c1)).head? := by
  induction us with
  | nil => simp
  | cons u us ih =>
    have hid : (if u.id = c then f u else u).id = u.id := by
      split
      · exact hf u
      · rfl
    simp only [List.map_cons, List.filter_cons, hid]
    by_cases hu1 : u.id = c1
    · simp only [hu1, decide_True, if_true, List.head?_cons]
      by_cases h1 : c1 = c
      · simp [h1]
      · simp [h1]
    · simp only [hu1, decide_False]
      exact ih

theorem cartOf_setCart_eq (s : Store) (c : Int) (cart : List CartItem) (c1 : Int) :
    cartOf (setCart s c cart) c1
      = if c1 = c then (if selectUsers s c = [] then none else some cart) else cartOf s c1 := by
  unfold cartOf selectUsers setCart
  simp only
  rw [users_map_head s.users c c1 (fun u => { u with cart := some cart }) (fun _ => rfl)]
  by_cases h1 : c1 = c
  · subst h1
    simp only [if_true]
    cases hsel : s.users.filter (fun u => u.id = c1) with
    | nil => simp
    | cons u rest => simp
  · simp only [if_neg h1]

theorem cartOf_appendCart (s : Store) (c : Int) (item : CartItem) (c1 : Int) :
    cartOf (appendCart s c item) c1
      = if c1 = c then (cartOf s c).map (fun cart => cart ++ [item]) else cartOf s c1 := by
  unfold cartOf selectUsers appendCart
  simp only
  rw [users_map_head s.users c c1 (fun u => { u with cart := u.cart.map (fun cart => cart ++ [item]) })
    (fun _ => rfl)]
  by_cases h1 : c1 = c
  · subst h1
    simp only [if_true]
    cases hsel : s.users.filter (fun u => u.id = c1) with
    | nil => simp
    | cons u rest => simp
  · simp only [if_neg h1]

theorem cartOf_of_selectUsers {s : Store} {c : Int} {user : User} {others : List User}
    (h : selectUsers s c = user :: others) : cartOf s c = user.cart := by
  simp [cartOf, h]

theorem replaceQuantity_productId (id q : Int) (item : CartItem) :
    (replaceQuantity id q item).productId = item.productId := by
  unfold replaceQuantity
  split <;> rfl

theorem map_replaceQuantity_ids (id q : Int) (cart : List CartItem) :
    (cart.map (replaceQuantity id q)).map CartItem.productId = cart.map CartItem.productId := by
  rw [List.map_map]
  apply List.map_congr_left
  intro item _
  exact replaceQuantity_productId id q item

/-- The cart upsert on a cart that is a list. For a validated request of an existing customer
whose cart is a list, with an existing product and a quantity within its stock: when the product id is in the cart, every
item of that id gets the new quantity while the other items and the order of the items stay;
otherwise the new cart is the old cart followed by the pair of product id and quantity; in
both cases table products, and so every stock, is unchanged, and so is the cart of every
other customer. -/
theorem cart_upsert (s : Store) (c id q st : Int) (cart : List CartItem)
    (hv : 1 ≤ c ∧ 1 ≤ id ∧ 0 ≤ q) (hst : stock s id = some st) (hq : q ≤ st)
    (hc : cartOf s c = some cart) :
    cartOf (cartAdd s c id q).1 c
        = some (if id ∈ cart.map CartItem.productId then
            cart.map (fun item => if item.productId = id then { item with quantity := q } else item)
          else cart ++ [{ productId := id, quantity := q }])
      ∧ (cartAdd s c id q).1.products = s.products
      ∧ ∀ c1, c1 ≠ c → cartOf (cartAdd s c id q).1 c1 = cartOf s c1 := by
  unfold stock at hst
  cases hsel : selectProducts s id with
  | nil => simp [hsel] at hst
  | cons product others =>
    simp only [hsel, List.head?_cons, Option.map_some', Option.some.injEq] at hst
    have hle : ¬ q > product.quantity := by omega
    cases husers : selectUsers s c with
    | nil => simp [cartOf, husers] at hc
    | cons user rest =>
      have hcart : user.cart = some cart := by
        rw [← cartOf_of_selectUsers husers]; exact hc
      have hne : selectUsers s c ≠ [] := by rw [husers]; simp
      unfold cartAdd
      rw [if_pos hv]
      simp only [hsel, hle, if_false, husers, hcart, Option.getD_some]
      by_cases hmem : id ∈ cart.map CartItem.productId
      · have hany : cart.any (fun item => decide (item.productId = id)) = true := by
          simp only [List.mem_map] at hmem
          obtain ⟨item, hi, hid⟩ := hmem
          exact List.any_eq_true.mpr ⟨item, hi, by simpa using hid⟩
        simp only [hany, if_true, if_pos hmem]
        refine ⟨?_, rfl, ?_⟩
        · rw [cartOf_setCart_eq, if_pos rfl, if_neg hne]
          rfl
        · intro c1 h1
          rw [cartOf_setCart_eq, if_neg h1]
      · have hany : cart.any (fun item => decide (item.productId = id)) = false := by
          rw [Bool.eq_false_iff]
          intro h
          obtain ⟨item, hi, hid⟩ := List.any_eq_true.mp h
          exact hmem (List.mem_map.mpr ⟨item, hi, by simpa using hid⟩)
        simp only [hany, Bool.false_eq_true, if_false, if_neg hmem]
        refine ⟨?_, rfl, ?_⟩
        · rw [cartOf_appendCart, if_pos rfl, hc]
          rfl
        · intro c1 h1
          rw [cartOf_appendCart, if_neg h1]

/-- The cart upsert on the example store, where customer 1 holds two pieces of product 1 (5 in
stock): asking for three pieces replaces the quantity, and the stock stays 5. -/
theorem cart_upsert_witness :
    cartOf (cartAdd exampleStore 1 1 3).1 1 = some [{ productId := 1, quantity := 3 }]
      ∧ stock (cartAdd exampleStore 1 1 3).1 1 = some 5 :=
  have h := cart_upsert exampleStore 1 1 3 5 [{ productId := 1, quantity := 2 }]
    (by decide) (by decide!) (by decide) (by decide!)
  ⟨h.1, by decide!⟩

/-- C24, the code at the failing input: customer 1 exists and has the cart NULL, product 1
has 5 in stock. The upsert of two pieces of product 1 reads the cart as `cart || []`, finds
no item of product 1 and runs `JSON_ARRAY_APPEND(cart, ...)`, which leaves NULL; the
handler answers 201 Item added to the cart successfully, and the cart is still NULL, where
the specification has the old cart with the pair appended. Asking again changes nothing
either. -/
theorem cart_upsert_null_cart :
    cartOf nullCartStore 1 = none
      ∧ selectUsers nullCartStore 1 = [{ id := 1, cart := none }]
      ∧ stock nullCartStore 1 = some 5
      ∧ cartAdd nullCartStore 1 1 2 = (nullCartStore, .cartItemAdded)
      ∧ Response.status .cartItemAdded = 201
      ∧ cartOf (cartAdd nullCartStore 1 1 2).1 1 ≠ some [{ productId := 1, quantity := 2 }]
      ∧ cartAdd (cartAdd nullCartStore 1 1 2).1 1 1 2 = (nullCartStore, .cartItemAdded) := by
  decide!

theorem cartsDistinct_setCart {s : Store} (h : CartsDistinct s) (c : Int) (cart : List CartItem)
    (hcart : (cart.map CartItem.productId).Nodup) : CartsDistinct (setCart s c cart) := by
  intro c1
  rw [cartOf_setCart_eq]
  by_cases h1 : c1 = c
  · rw [if_pos h1]
    split
    · simp
    · simpa using hcart
  · rw [if_neg h1]
    exact h c1

theorem cartsDistinct_appendCart {s : Store} (h : CartsDistinct s) (c : Int) (item : CartItem)
    (hnew : item.productId ∉ ((cartOf s c).getD []).map CartItem.productId) :
    CartsDistinct (appendCart s c item) := by
  intro c1
  rw [cartOf_appendCart]
  by_cases h1 : c1 = c
  · rw [if_pos h1]
    have hc := h c
    cases hcart : cartOf s c with
    | none => simp
    | some cart =>
      rw [hcart] at hc hnew
      simp only [Option.getD_some] at hc hnew
      simp only [Option.map_some', Option.getD_some, List.map_append, List.map_cons, List.map_nil]
      rw [List.nodup_append]
      refine ⟨hc, by simp, ?_⟩
      intro a ha hb
      simp only [List.mem_singleton] at hb
      subst hb
      exact hnew ha
  · rw [if_neg h1]
    exact h c1

theorem cartAdd_distinct (s : Store) (c id q : Int) (h : CartsDistinct s) :
    CartsDistinct (cartAdd s c id q).1 := by
  unfold cartAdd
  split
  swap
  · exact h
  cases hsel : selectProducts s id with
  | nil => exact h
  | cons product others =>
    simp only
    split
    · exact h
    · cases husers : selectUsers s c with
      | nil => exact h
      | cons user rest =>
        have hcartOf := cartOf_of_selectUsers husers
        have hc := h c
        rw [hcartOf] at hc
        simp only
        split
        · apply cartsDistinct_setCart h
          rw [map_replaceQuantity_ids]
          exact hc
        · rename_i hany
          apply cartsDistinct_appendCart h
          rw [hcartOf]
          intro hmem
          apply hany
          simp only [List.mem_map] at hmem
          obtain ⟨item, hi, hid⟩ := hmem
          exact List.any_eq_true.mpr ⟨item, hi, by simpa using hid⟩

theorem cartUpdate_distinct (s : Store) (c id q : Int) (h : CartsDistinct s) :
    CartsDistinct (cartUpdate s c id q).1 := by
  unfold cartUpdate
  split
  swap
  · exact h
  cases hsel : selectProducts s id with
  | nil => exact h
  | cons product others =>
    simp only
    split
    · exact h
    · cases husers : selectUsers s c with
      | nil => exact h
      | cons user rest =>
        have hcartOf := cartOf_of_selectUsers husers
        have hc := h c
        rw [hcartOf] at hc
        simp only
        cases hcart : user.cart with
        | none => exact h
        | some cart =>
          rw [hcart] at hc
          simp only
          split
          · apply cartsDistinct_setCart h
            rw [map_replaceQuantity_ids]
            simpa using hc
          · exact h

theorem cartDelete_distinct (s : Store) (c : Int) (purpose : Purpose) (h : CartsDistinct s) :
    CartsDistinct (cartDelete s c purpose).1 := by
  unfold cartDelete
  cases purpose with
  | all =>
    simp only
    split
    · exact cartsDistinct_setCart h c [] (by simp)
    · exact h
  | one idorder =>
    simp only
    split
    swap
    · exact h
    cases husers : selectUsers s c with
    | nil => exact h
    | cons user rest =>
      have hcartOf := cartOf_of_selectUsers husers
      have hc := h c
      rw [hcartOf] at hc
      simp only
      cases hcart : user.cart with
      | none => exact h
      | some cart =>
        rw [hcart] at hc
        simp only
        split
        · exact h
        · apply cartsDistinct_setCart h
          have hsub : (cart.filter (fun item => decide (item.productId ≠ idorder))).Sublist cart :=
            List.filter_sublist cart
          exact (hsub.map CartItem.productId).nodup (by simpa using hc)

/-- C28. Cart product ids stay distinct: if the cart of every customer has pairwise distinct
product ids, then so it is after any finite sequence of cart upserts, cart updates and cart
deletes (one or all), whether each of them succeeded or not; in particular every cart
reached from empty carts has pairwise distinct product ids. -/
theorem cart_ids_stay_distinct (s s1 : Store) (h : CartsDistinct s)
    (hrun : Relation.ReflTransGen CartStep s s1) : CartsDistinct s1 := by
  induction hrun with
  | refl => exact h
  | tail _ hstep ih =>
    cases hstep with
    | add c id q => exact cartAdd_distinct _ c id q ih
    | update c id q => exact cartUpdate_distinct _ c id q ih
    | delete c purpose => exact cartDelete_distinct _ c purpose ih

/-- C28 on a run from the empty cart of customer 1: product 1 is added, added again with
another quantity, and removed; the cart in between holds product 1 once. -/
theorem cart_ids_stay_distinct_witness :
    cartOf (cartAdd (cartAdd emptyCartStore 1 1 2).1 1 1 3).1 1 = some [{ productId := 1, quantity := 3 }]
      ∧ CartsDistinct (cartDelete (cartAdd (cartAdd emptyCartStore 1 1 2).1 1 1 3).1 1 (.one 1)).1 :=
  ⟨by decide!,
    cart_ids_stay_distinct emptyCartStore _
      (by
        intro c
        by_cases hc : c = 1
        · subst hc
          decide!
        · have : cartOf emptyCartStore c = none := by
            have hne : ¬ (1 : Int) = c := fun e => hc e.symm
            simp [cartOf, selectUsers, emptyCartStore, exampleStore, hne]
          rw [this]
          simp)
      (((Relation.ReflTransGen.single (CartStep.add emptyCartStore 1 1 2)).tail
        (CartStep.add _ 1 1 3)).tail (CartStep.delete _ 1 (.one 1)))⟩

/-! ## C25: the total accumulated by order assembly -/

theorem selectProducts_setProductQuantity_price (ps : List Product) (id id1 q : Int) :
    ((ps.map (fun p => if p.idproducts = id then { p with quantity := q } else p)).filter
        (fun p => p.idproducts = id1)).map Product.price
      = (ps.filter (fun p => p.idproducts = id1)).map Product.price := by
  induction ps with
  | nil => simp
  | cons p ps ih =>
    simp only [List.map_cons, List.filter_cons]
    generalize hp2 : (if p.idproducts = id then ({ p with quantity := q } : Product) else p) = p2
    have hid : p2.idproducts = p.idproducts := by
      rw [← hp2]
      split <;> rfl
    have hprice : p2.price = p.price := by
      rw [← hp2]
      split <;> rfl
    rw [hid]
    by_cases hp1 : p.idproducts = id1
    · simp only [hp1, decide_True, if_true, List.map_cons, hprice, ih]
    · simp only [hp1, decide_False]
      exact ih

theorem undiscountedSubtotal_setProductQuantity (s : Store) (id q : Int) (cart : List CartItem) :
    undiscountedSubtotal (setProductQuantity s id q) cart = undiscountedSubtotal s cart := by
  unfold undiscountedSubtotal
  congr 1
  apply List.map_congr_left
  intro item _
  have h := selectProducts_setProductQuantity_price s.products id item.productId q
  have h1 : (selectProducts (setProductQuantity s id q) item.productId).map Product.price
      = (selectProducts s item.productId).map Product.price := h
  cases ha : selectProducts (setProductQuantity s id q) item.productId with
  | nil =>
    cases hb : selectProducts s item.productId with
    | nil => rfl
    | cons b bs => rw [ha, hb] at h1; simp at h1
  | cons a as =>
    cases hb : selectProducts s item.productId with
    | nil => rw [ha, hb] at h1; simp at h1
    | cons b bs =>
      rw [ha, hb] at h1
      simp only [List.map_cons, List.cons.injEq] at h1
      simp only [h1.1]

/-- When the assembly loop ends well, `total_amount` is its start value plus the undiscounted
subtotal of the cart at the catalog prices. -/
theorem assembleLoop_total (cart : List CartItem) : ∀ (s s1 : Store) (acc uc : List OrderEntry)
    (tot t : Rat), assembleLoop s cart acc tot = (s1, .ok (uc, t)) →
      t = tot + undiscountedSubtotal s cart := by
  induction cart with
  | nil =>
    intro s s1 acc uc tot t h
    simp only [assembleLoop, Prod.mk.injEq, Except.ok.injEq] at h
    simp [undiscountedSubtotal, h.2.2]
  | cons item rest ih =>
    intro s s1 acc uc tot t h
    cases hsel : selectProducts s item.productId with
    | nil => simp [assembleLoop, hsel] at h
    | cons product others =>
      simp only [assembleLoop, hsel] at h
      split at h
      · simp at h
      · have := ih _ _ _ _ _ _ h
        rw [this, undiscountedSubtotal_setProductQuantity]
        simp only [undiscountedSubtotal, List.map_cons, List.sum_cons, hsel]
        ring

/-- C25. The total that order assembly accumulates (`total_amount`, started at 0) is, whenever
the loop ends well, the sum over the cart items of price times quantity at the catalog
prices, with no discount; and for a cart with pairwise distinct product ids whose items all
exist and are within stock the loop does end well with that total. -/
theorem assembly_total (s : Store) (cart : List CartItem) :
    (∀ s1 uc t, assembleLoop s cart [] 0 = (s1, .ok (uc, t)) → t = undiscountedSubtotal s cart)
      ∧ ((cart.map CartItem.productId).Nodup →
          (∀ item ∈ cart, ∃ q, stock s item.productId = some q ∧ item.quantity ≤ q) →
          ∃ s1 uc, assembleLoop s cart [] 0 = (s1, .ok (uc, undiscountedSubtotal s cart))) := by
  constructor
  · intro s1 uc t h
    have := assembleLoop_total cart s s1 [] uc 0 t h
    simpa using this
  · intro hnd hin
    obtain ⟨served, _, _, h3⟩ := assembleLoop_spec cart s [] 0
    rcases h3 with ⟨_, t, ht⟩ | ⟨bad, post, hsplit, hbad⟩
    · have hpair : assembleLoop s cart [] 0
          = ((assembleLoop s cart [] 0).1, .ok ([] ++ cart.map OrderEntry.text, t)) :=
        Prod.ext rfl ht
      have htot := assembleLoop_total cart s _ [] _ 0 t hpair
      refine ⟨(assembleLoop s cart [] 0).1, [] ++ cart.map OrderEntry.text, ?_⟩
      rw [hpair]
      simp only [zero_add] at htot
      rw [htot]
    · exfalso
      have hbadmem : bad ∈ cart := by rw [hsplit]; simp
      obtain ⟨q, hq, hle⟩ := hin bad hbadmem
      have hnotin : bad.productId ∉ served.map CartItem.productId := by
        rw [hsplit, List.map_append, List.map_cons] at hnd
        have := (List.nodup_append.mp hnd).2.2
        intro hmem
        exact this hmem (List.mem_cons_self _ _)
      have hav : available s served bad.productId = some q := by
        rw [available, hq, demand_of_not_mem served _ hnotin]
        simp
      rcases hbad with ⟨hnone, _⟩ | ⟨v, hv2, hlt, _⟩
      · rw [hav] at hnone
        exact Option.noConfusion hnone
      · rw [hav] at hv2
        have : q = v := Option.some.inj hv2
        omega

/-- C25 on the spec scenario: one item of quantity 2 at price 10 gives the total 20. -/
theorem assembly_total_witness :
    undiscountedSubtotal exampleStore [{ productId := 1, quantity := 2 }] = 20
      ∧ ∃ s1 uc, assembleLoop exampleStore [{ productId := 1, quantity := 2 }] [] 0
          = (s1, .ok (uc, undiscountedSubtotal exampleStore [{ productId := 1, quantity := 2 }])) :=
  ⟨by decide!,
    (assembly_total exampleStore [{ productId := 1, quantity := 2 }]).2 (by decide!)
      (by intro item hi; exact ⟨5, by simp at hi; subst hi; decide!, by simp at hi; subst hi; decide!⟩)⟩

/-! ## C26: the pre-promotion total as a recurrence -/

/-- The loop of `preparePaymentReceipt` from any start value is the left fold of the
recurrence step, when every product of the cart exists. -/
theorem prepareLoop_fold (now : Nat) (s : Store) (cart : List CartItem) : ∀ (start : Rat),
    (∀ item ∈ cart, selectProducts s item.productId ≠ []) →
    prepareLoop now s cart start
      = .ok (cart.foldl (fun total item =>
          match selectProducts s item.productId with
          | [] => total
          | product :: _ =>
            recurrenceStage now s product.category (total + product.price * item.quantity)) start) := by
  induction cart with
  | nil => intro start _; rfl
  | cons item rest ih =>
    intro start hex
    have hrest : ∀ i ∈ rest, selectProducts s i.productId ≠ [] :=
      fun i hi => hex i (List.mem_cons_of_mem _ hi)
    cases hsel : selectProducts s item.productId with
    | nil => exact absurd hsel (hex item (List.mem_cons_self _ _))
    | cons product others =>
      have key : ∀ (r : DetectResult) (T1 : Rat),
          (match r.success, r.finalAmount with
            | true, some finalAmount => prepareLoop now s rest finalAmount
            | _, _ => prepareLoop now s rest T1)
            = prepareLoop now s rest (if r.success then r.finalAmount.getD T1 else T1) := by
        rintro ⟨succ, msg, oa, da, fa⟩ T1
        cases succ <;> cases fa <;> rfl
      simp only [prepareLoop, hsel, List.foldl_cons]
      exact (key _ _).trans (ih _ hrest)

/-- C26. For a customer whose cart is a non-empty list of items whose products all exist,
`preparePaymentReceipt` returns the value of the recurrence T_0 = 0,
T_i = stage(category_i, T_(i-1) + price_i * quantity_i) after the last item; the stage returns
its input unchanged for a blank category, an input of at most 0 or a category without a
campaign, and otherwise the input minus the discount of the eligible campaigns on that
input. -/
theorem payment_total_recurrence (now : Nat) (s : Store) (c : Int) (cart : List CartItem)
    (hc : cartOf s c = some cart) (hne : cart ≠ [])
    (hex : ∀ item ∈ cart, selectProducts s item.productId ≠ []) :
    preparePaymentReceipt now s c = .ok (recurrenceTotal now s cart)
      ∧ (∀ category input,
          (isBlank category = true ∨ input ≤ 0 ∨ selectCampaigns s category = []) →
          recurrenceStage now s category input = input)
      ∧ (∀ category input, isBlank category = false → 0 < input →
          selectCampaigns s category ≠ [] →
          recurrenceStage now s category input
            = input - eligibleDiscount now input (selectCampaigns s category)) := by
  refine ⟨?_, ?_, ?_⟩
  · unfold preparePaymentReceipt
    cases hsel : selectUsers s c with
    | nil => simp [cartOf, hsel] at hc
    | cons user others =>
      have hcart : user.cart = some cart := by
        rw [← cartOf_of_selectUsers hsel]
        exact hc
      simp only [hcart]
      cases cart with
      | nil => exact absurd rfl hne
      | cons item rest =>
        simp only
        exact prepareLoop_fold now s (item :: rest) 0 hex
  · intro category input h
    unfold recurrenceStage processCampaignDetect
    rcases h with h | h | h
    · simp [h, DetectResult.failure]
    · by_cases hb : isBlank category = true
      · simp [hb, DetectResult.failure]
      · simp [hb, h, DetectResult.failure]
    · by_cases hb : isBlank category = true
      · simp [hb, DetectResult.failure]
      · by_cases hi : input ≤ 0
        · simp [hb, hi, DetectResult.failure]
        · simp [hb, hi, h, DetectResult.failure]
  · intro category input hb hpos hcamp
    unfold recurrenceStage processCampaignDetect
    cases hsel : selectCampaigns s category with
    | nil => exact absurd hsel hcamp
    | cons campaign rest =>
      have hloop := campaignLoop_eq now input (campaign :: rest) 0
      simp only [sub_zero, zero_add] at hloop
      simp [hb, not_le.mpr hpos, hloop]

/-- C26 on the compound cart: two toys at 10 with 10 percent on toys, then one book at 4, give
(0 + 20) * 0.9 + 4 = 22. -/
theorem payment_total_recurrence_witness :
    preparePaymentReceipt 5 compoundStore 1 = .ok 22
      ∧ recurrenceTotal 5 compoundStore compoundCart = 22 :=
  ⟨((payment_total_recurrence 5 compoundStore 1 compoundCart (by decide!) (by decide!)
      (by decide!)).1).trans (by decide!), by decide!⟩

/-! ## C27: a quantity edit rewrites every order of the customer -/

/-- C27. When `/api/order/update` answers with the updated list, that list is the item list
of the first order row of the customer with the map callback applied, and the orders table
afterwards is the old one in which every row of that customer holds this list and every
other row is as before. -/
theorem order_update_all_orders (s : Store) (c o q : Int) (uc : List OrderEntry)
    (h : (orderUpdate s c o q).2 = .orderUpdated uc) :
    (∃ row rest cart, selectOrders s c = row :: rest ∧ row.order = .arr cart
        ∧ uc = cart.map (updateEntry o q))
      ∧ (orderUpdate s c o q).1.orders
          = s.orders.map (fun x => if x.idcustomer = c then { x with order := .arr uc } else x)
      ∧ (∀ x ∈ (orderUpdate s c o q).1.orders, x.idcustomer = c → x.order = .arr uc)
      ∧ (∀ x ∈ s.orders, x.idcustomer ≠ c → x ∈ (orderUpdate s c o q).1.orders) := by
  have hmain : (∃ row rest cart, selectOrders s c = row :: rest ∧ row.order = .arr cart
        ∧ uc = cart.map (updateEntry o q))
      ∧ (orderUpdate s c o q).1.orders
          = s.orders.map (fun x => if x.idcustomer = c then { x with order := .arr uc } else x) := by
    unfold orderUpdate at h ⊢
    by_cases hv : 1 ≤ c ∧ 1 ≤ o ∧ 0 ≤ q
    · simp only [hv, and_self, if_true] at h ⊢
      cases hp : selectProducts s o with
      | nil => simp [hp] at h
      | cons product others =>
        simp only [hp] at h ⊢
        by_cases hq : q > product.quantity
        · simp [hq] at h
        · simp only [hq, if_false] at h ⊢
          cases hso : selectOrders s c with
          | nil => simp [hso] at h
          | cons row rest =>
            simp only [hso] at h ⊢
            cases hro : row.order with
            | single item => simp [hro] at h
            | arr cart =>
              simp only [hro] at h ⊢
              by_cases hany : cart.any (entryMatches o) = true
              · simp only [hany, if_true] at h ⊢
                cases hhead : cart.head? with
                | none => simp [hhead] at h
                | some first =>
                  cases first with
                  | text item => simp [hhead] at h
                  | obj first =>
                    simp only [hhead, Response.orderUpdated.injEq] at h ⊢
                    subst h
                    exact ⟨⟨row, rest, cart, rfl, hro, rfl⟩, rfl⟩
              · simp [hany] at h
    · simp [hv] at h
  refine ⟨hmain.1, hmain.2, ?_, ?_⟩
  · intro x hx hxc
    rw [hmain.2, List.mem_map] at hx
    obtain ⟨y, _, hy⟩ := hx
    by_cases hyc : y.idcustomer = c
    · rw [if_pos hyc] at hy
      rw [← hy]
    · rw [if_neg hyc] at hy
      rw [← hy] at hxc
      exact absurd hxc hyc
  · intro x hx hxc
    rw [hmain.2, List.mem_map]
    exact ⟨x, hx, if_neg hxc⟩

/-- C27 on a store in which customer 2 owns orders 1 and 3 and customer 3 owns order 2:
setting product 2 to quantity 5 reads order 1 and rewrites orders 1 and 3. -/
theorem order_update_all_orders_witness :
    (orderUpdate severalOrdersStore 2 2 5).2 = .orderUpdated [.obj { productId := 2, quantity := 5 }]
      ∧ (orderUpdate severalOrdersStore 2 2 5).1.orders
          = [{ idorders := 1, idcustomer := 2,
               order := .arr [.obj { productId := 2, quantity := 5 }], time := 3 },
             { idorders := 2, idcustomer := 3,
               order := .arr [.obj { productId := 2, quantity := 1 }], time := 4 },
             { idorders := 3, idcustomer := 2,
               order := .arr [.obj { productId := 2, quantity := 5 }], time := 5 }] :=
  ⟨by decide!,
    ((order_update_all_orders severalOrdersStore 2 2 5 [.obj { productId := 2, quantity := 5 }]
      (by decide!)).2.1).trans (by decide!)⟩

/-! ## C29: promotion codes of 1 to 7 characters -/

/-- C29. For a pay request whose promotionCode has between 1 and 7 characters: the rule of
`/api/pay` accepts the code, the schema of `processCartToOrder` and `getOrderById` rejects
the body, `processCartToOrder` answers 400 and changes nothing, and `/api/pay` leaves the
store as it was (no order, no receipt, the cart not cleared) and never answers with a
receipt; when the charge was approved its answer is the validation error of
`processCartToOrder`. -/
theorem pay_short_code_changes_nothing (now : Nat) (s : Store) (req : Body) (code : String)
    (hcode : req.promotionCode = some code) (h1 : 1 ≤ jsLength code) (h7 : jsLength code ≤ 7) :
    optionalField (fun v => decide (1 ≤ jsLength v)) req.promotionCode = true
      ∧ validAssemblyBody req = false
      ∧ processCartToOrder now s req = (s, some .validation)
      ∧ (pay now s req).1 = s
      ∧ (∀ receipt, (pay now s req).2 ≠ .paymentSuccessful receipt)
      ∧ (∀ totalAmount payment, validPayBody req = true →
          preparePaymentReceipt now s req.idcustomer = .ok totalAmount →
          simulatePayPalPayment { total := payTotal now s req.promotionCode totalAmount,
                                  currency := req.currency.getD "",
                                  description := req.description.getD "" } = .ok payment →
          pay now s req = (s, .validation)) := by
  have hrule : optionalField (fun v => decide (1 ≤ jsLength v)) req.promotionCode = true := by
    simp [hcode, optionalField, h1]
  have hinv : validAssemblyBody req = false := by
    have : ¬ 8 ≤ jsLength code := by omega
    simp [validAssemblyBody, hcode, optionalField, this]
  have hasm : processCartToOrder now s req = (s, some .validation) := by
    simp [processCartToOrder, hinv]
  have hget : getOrderById s req (some .validation) = .raised := by
    simp [getOrderById, hinv]
  have hpay : (pay now s req).1 = s ∧ ∀ receipt, (pay now s req).2 ≠ .paymentSuccessful receipt := by
    unfold pay
    by_cases hv : validPayBody req = true
    · simp only [hv, if_true]
      cases hprep : preparePaymentReceipt now s req.idcustomer with
      | error e => exact ⟨rfl, fun _ hh => Response.noConfusion hh⟩
      | ok totalAmount =>
        simp only
        cases hsim : simulatePayPalPayment { total := payTotal now s req.promotionCode totalAmount,
                                             currency := req.currency.getD "",
                                             description := req.description.getD "" } with
        | error e => exact ⟨rfl, fun _ hh => Response.noConfusion hh⟩
        | ok payment =>
          simp only [hasm, hget, Option.getD_some]
          exact ⟨trivial, fun _ hh => Response.noConfusion hh⟩
    · simp only [hv]
      exact ⟨rfl, fun _ hh => Response.noConfusion hh⟩
  refine ⟨hrule, hinv, hasm, hpay.1, hpay.2, ?_⟩
  intro totalAmount payment hv hprep hsim
  unfold pay
  simp only [hv, if_true, hprep, hsim, hasm, hget, Option.getD_some]

/-- C29 on the code SAVE10 (six characters, 10 percent): the total is 18 and the charge is
approved, yet the answer is the validation error and the store is unchanged. -/
theorem pay_short_code_changes_nothing_witness :
    (simulatePayPalPayment { total := payTotal 5 shortCodeStore (some "SAVE10") 20,
                             currency := "USD", description := "order 0001" }).toOption.map
        Payment.total = some (some 18)
      ∧ pay 5 shortCodeStore (examplePay (some "SAVE10")) = (shortCodeStore, .validation)
      ∧ (pay 5 shortCodeStore (examplePay (some "SAVE10"))).1 = shortCodeStore :=
  ⟨by decide!, by decide!,
    (pay_short_code_changes_nothing 5 shortCodeStore (examplePay (some "SAVE10")) "SAVE10" rfl
      (by decide) (by decide)).2.2.2.1⟩

/-! ## C30: the refund inside a return completion -/

/-- C30. The simulated refund succeeds exactly for an amount above 0, fails with the zero
refund error exactly for the amount 0 and with the invalid amount error exactly for an
amount below 0; every refund that a return completion attempts succeeds; and the store and
the response of a return completion are the same whatever the refund function returns. -/
theorem refund_always_succeeds (now : Nat) (s : Store) (r : ReturnCompletion) :
    (∀ d : ReturnData,
        ((∃ resp, simulateReturnPayment now d = .ok resp) ↔ 0 < d.amount)
          ∧ (simulateReturnPayment now d = .error .zeroRefund ↔ d.amount = 0)
          ∧ (simulateReturnPayment now d = .error .invalidAmount ↔ d.amount < 0))
      ∧ (∀ outcome, (returnCompleteWith (simulateReturnPayment now) now s r).2.2 = some outcome →
          ∃ resp, outcome = .ok resp)
      ∧ (∀ refund, (returnCompleteWith refund now s r).1 = (returnComplete now s r).1
          ∧ (returnCompleteWith refund now s r).2.1 = (returnComplete now s r).2) := by
  refine ⟨?_, ?_, ?_⟩
  · intro d
    unfold simulateReturnPayment
    rcases lt_trichotomy d.amount 0 with hlt | heq | hgt
    · have h1 : ¬ d.amount > 0 := not_lt.mpr hlt.le
      have h2 : ¬ d.amount = 0 := hlt.ne
      simp [h1, h2, hlt]
    · have h1 : ¬ d.amount > 0 := by rw [heq]; exact lt_irrefl 0
      simp [h1, heq]
    · have h2 : ¬ d.amount = 0 := hgt.ne.symm
      have h3 : ¬ d.amount < 0 := not_lt.mpr hgt.le
      simp [hgt, h2, h3]
  · intro outcome h
    unfold returnCompleteWith at h
    by_cases hv : validReturnCompletion r = true
    · have hpos : 0 < r.amount := by
        simp only [validReturnCompletion, Bool.and_eq_true, decide_eq_true_eq] at hv
        exact hv.1.1.1.2
      simp only [hv, if_true] at h
      split at h
      · simp at h
      · simp only [Option.some.injEq] at h
        rw [← h]
        simp [simulateReturnPayment, hpos]
    · simp [hv] at h
  · intro refund
    unfold returnCompleteWith returnComplete
    by_cases hv : validReturnCompletion r = true
    · simp only [hv, if_true]
      split <;> exact ⟨rfl, rfl⟩
    · simp only [hv]
      exact ⟨rfl, rfl⟩

/-- C30 on the approved request of customer 2 for order 1: the completion with a refund of 10
USD attempts a refund, which succeeds, and a refund function that always fails gives the
same store and the same response. -/
theorem refund_always_succeeds_witness :
    (∃ resp, simulateReturnPayment 9
        { amount := 10, currency := "USD", description := "refund", paymentMethod := "paypal" }
          = .ok resp)
      ∧ (returnCompleteWith (simulateReturnPayment 9) 9
          (returnSetStatus pendingReturnStore 2 1 "approved").1 exampleCompletion).2.2
          = some (.ok { transactionId := "SIMULATED_RETURN_PAYMENT_ID", state := "completed",
                        method := "paypal", total := 10, currency := "USD",
                        description := "refund", completedAt := 9 })
      ∧ (returnCompleteWith (fun _ => .error .invalidAmount) 9
          (returnSetStatus pendingReturnStore 2 1 "approved").1 exampleCompletion).2.1
          = .returnCompleted :=
  ⟨((refund_always_succeeds 9 exampleStore exampleCompletion).1
      { amount := 10, currency := "USD", description := "refund", paymentMethod := "paypal" }).1.mpr
      (by decide!),
    by decide!,
    (((refund_always_succeeds 9 (returnSetStatus pendingReturnStore 2 1 "approved").1
      exampleCompletion).2.2 (fun _ => .error .invalidAmount)).2).trans (by decide!)⟩

end Api
